import Mathlib

/-!
Verification development for the registry synchronization engine of
multimaster_fkie.

Namespace `Disc` shallowly embeds
`master_discovery_fkie/src/master_discovery_fkie/master_info.py`
(the classes `NodeInfo`, `TopicInfo`, `ServiceInfo`, `MasterInfo` and the
operations `listedState`, `from_list` and `__eq__`).

Namespace `Sync` shallowly embeds
`master_sync_fkie/src/master_sync_fkie/sync_thread.py`
(the class `MasterInfo` stored in the thread, the `SyncThread` state, the
filter decisions `_doIgnoreNT` / `_doIgnoreNS`, the lookup helpers
`_getTopicType` / `_getNodeUri` / `_getServiceUri`, the reconciliation pass
of `run()`, the teardown block of `run()`, `update()` and the congestion
avoidance loop).

Python dictionaries are modelled as insertion-ordered association lists,
floats as rationals, and a dynamically absent attribute as an `Option`
that is `none`.
-/



/-- Lookup in an insertion-ordered association list (the model of a Python
dict): the value of the first entry whose key equals `k`. -/
def alookup {α : Type} (l : List (String × α)) (k : String) : Option α :=
  match l with
  | [] => none
  | p :: rest => if p.1 = k then some p.2 else alookup rest k

/-- Insert a key into an association list if it is absent (Python
`if not (name in d): d[name] = v`); dicts preserve insertion order, so the
new entry goes to the end. -/
def ainsert {α : Type} (l : List (String × α)) (k : String) (v : α) : List (String × α) :=
  match alookup l k with
  | some _ => l
  | none => l ++ [(k, v)]

/-- Update the value stored under key `k` in place (the model of mutating
the object obtained from a dict lookup). Entries with other keys are kept. -/
def amodify {α : Type} (l : List (String × α)) (k : String) (f : α → α) : List (String × α) :=
  l.map (fun p => if p.1 = k then (p.1, f p.2) else p)

/-- Two lists represent the same finite set; `set(a) ^ set(b)` is empty in
Python exactly when this holds. -/
def sameSet {α : Type} [DecidableEq α] (xs ys : List α) : Bool :=
  xs.all (fun x => x ∈ ys) && ys.all (fun y => y ∈ xs)

namespace Disc

/-- Extract the hostname component of a URL in the manner of
`urlparse(...).hostname`: the part after the first `//`, cut at the next
`/` or `:`; `none` when the URL has no network-location part. -/
def hostname (uri : String) : Option String :=
  match uri.splitOn "//" with
  | _ :: rest :: _ => some ((((rest.splitOn "/").headD "").splitOn ":").headD "")
  | _ => none

/-- Embedding of `NodeInfo.local_(masteruri, org_masteruri, uri)`: the
hostnames of the master URI and the node URI agree and the node is
registered to its own master. A `None` uri makes `urlparse` raise, which
the source catches and turns into `False`. -/
def local_ (masteruri org_masteruri : String) (uri : Option String) : Bool :=
  match uri with
  | none => false
  | some u => hostname masteruri == hostname u && masteruri == org_masteruri

/-- Embedding of class `NodeInfo` of `master_info.py`. `masteruri0` is the
private `__masteruri` fixed at construction, `org_masteruri` the mutable
`__org_masteruri`, `loc` the derived `__local` flag. -/
structure NodeInfo where
  name : String
  masteruri0 : String
  org_masteruri : String
  uri : Option String
  pid : Option Int
  loc : Bool
  publishedTopics : List String
  subscribedTopics : List String
  services : List String
deriving Repr, DecidableEq

/-- Embedding of `NodeInfo.__init__(name, masteruri)`. -/
def NodeInfo.mk0 (name masteruri : String) : NodeInfo :=
  { name := name, masteruri0 := masteruri, org_masteruri := masteruri,
    uri := none, pid := none, loc := false,
    publishedTopics := [], subscribedTopics := [], services := [] }

/-- Embedding of the `NodeInfo.uri` setter: store the uri and recompute the
locality flag. -/
def NodeInfo.setUri (n : NodeInfo) (u : Option String) : NodeInfo :=
  { n with uri := u, loc := local_ n.masteruri0 n.org_masteruri u }

/-- Embedding of the `NodeInfo.masteruri` setter: store the origin master
uri and recompute the locality flag. -/
def NodeInfo.setMasteruri (n : NodeInfo) (m : String) : NodeInfo :=
  { n with org_masteruri := m, loc := local_ n.masteruri0 m n.uri }

/-- Embedding of the `NodeInfo.publishedTopics` setter in its string form:
append the topic unless it is already present. -/
def NodeInfo.addPublishedTopic (n : NodeInfo) (t : String) : NodeInfo :=
  if t ∈ n.publishedTopics then n
  else { n with publishedTopics := n.publishedTopics ++ [t] }

/-- Embedding of the `NodeInfo.subscribedTopics` setter in its string form. -/
def NodeInfo.addSubscribedTopic (n : NodeInfo) (t : String) : NodeInfo :=
  if t ∈ n.subscribedTopics then n
  else { n with subscribedTopics := n.subscribedTopics ++ [t] }

/-- Embedding of the `NodeInfo.services` setter in its string form. -/
def NodeInfo.addServiceName (n : NodeInfo) (s : String) : NodeInfo :=
  if s ∈ n.services then n
  else { n with services := n.services ++ [s] }

/-- Embedding of class `TopicInfo` of `master_info.py`. -/
structure TopicInfo where
  name : String
  typ : Option String
  publisherNodes : List String
  subscriberNodes : List String
deriving Repr, DecidableEq

/-- Embedding of `TopicInfo.__init__(name)`. -/
def TopicInfo.mk0 (name : String) : TopicInfo :=
  { name := name, typ := none, publisherNodes := [], subscriberNodes := [] }

/-- Embedding of the `TopicInfo.publisherNodes` setter in its string form. -/
def TopicInfo.addPublisherNode (t : TopicInfo) (n : String) : TopicInfo :=
  if n ∈ t.publisherNodes then t
  else { t with publisherNodes := t.publisherNodes ++ [n] }

/-- Embedding of the `TopicInfo.subscriberNodes` setter in its string form. -/
def TopicInfo.addSubscriberNode (t : TopicInfo) (n : String) : TopicInfo :=
  if n ∈ t.subscriberNodes then t
  else { t with subscriberNodes := t.subscriberNodes ++ [n] }

/-- Embedding of class `ServiceInfo` of `master_info.py`. The lazily
resolved `__service_class` and `args`, which are only touched by the
network probing helper `get_service_class`, are not modelled; no modelled
operation reads them. -/
structure ServiceInfo where
  name : String
  masteruri0 : String
  org_masteruri : String
  uri : Option String
  loc : Bool
  typ : Option String
  serviceProvider : List String
deriving Repr, DecidableEq

/-- Embedding of `ServiceInfo.__init__(name, masteruri)`. -/
def ServiceInfo.mk0 (name masteruri : String) : ServiceInfo :=
  { name := name, masteruri0 := masteruri, org_masteruri := masteruri,
    uri := none, loc := false, typ := none, serviceProvider := [] }

/-- Embedding of the `ServiceInfo.uri` setter. -/
def ServiceInfo.setUri (s : ServiceInfo) (u : Option String) : ServiceInfo :=
  { s with uri := u, loc := local_ s.masteruri0 s.org_masteruri u }

/-- Embedding of the `ServiceInfo.masteruri` setter. -/
def ServiceInfo.setMasteruri (s : ServiceInfo) (m : String) : ServiceInfo :=
  { s with org_masteruri := m, loc := local_ s.masteruri0 m s.uri }

/-- Embedding of the `ServiceInfo.serviceProvider` setter: append the node
name unless present. -/
def ServiceInfo.addProvider (s : ServiceInfo) (n : String) : ServiceInfo :=
  if n ∈ s.serviceProvider then s
  else { s with serviceProvider := s.serviceProvider ++ [n] }

/-- Embedding of class `MasterInfo` of `master_info.py`: the three
insertion-ordered dictionaries plus identity and timestamps. -/
structure MasterInfo where
  masteruri : String
  mastername : Option String
  nodelist : List (String × NodeInfo)
  topiclist : List (String × TopicInfo)
  servicelist : List (String × ServiceInfo)
  timestamp : ℚ
  check_ts : ℚ
deriving Repr, DecidableEq

/-- Embedding of `MasterInfo.__init__(masteruri, mastername)`: when no name
is given it is extracted from the master URI. -/
def MasterInfo.mk0 (masteruri : String) (mastername : Option String) : MasterInfo :=
  { masteruri := masteruri,
    mastername := match mastername with
      | some n => some n
      | none => hostname masteruri,
    nodelist := [], topiclist := [], servicelist := [],
    timestamp := 0, check_ts := 0 }

/-- Embedding of the `MasterInfo.timestamp` setter, which also refreshes
`check_ts`. -/
def MasterInfo.setTimestamp (m : MasterInfo) (ts : ℚ) : MasterInfo :=
  { m with timestamp := ts, check_ts := ts }

/-- Embedding of the `MasterInfo.nodes` setter: add a fresh `NodeInfo`
under the given name unless the name is empty or already present. -/
def MasterInfo.addNode (m : MasterInfo) (name : String) : MasterInfo :=
  if name = "" then m
  else { m with nodelist := ainsert m.nodelist name (NodeInfo.mk0 name m.masteruri) }

/-- Embedding of `MasterInfo.getNode`. -/
def MasterInfo.getNode (m : MasterInfo) (name : String) : Option NodeInfo :=
  if name = "" then none else alookup m.nodelist name

/-- Mutation through the reference returned by `getNode` (the Python object
is updated in place inside the dictionary). -/
def MasterInfo.modNode (m : MasterInfo) (name : String) (f : NodeInfo → NodeInfo) : MasterInfo :=
  { m with nodelist := amodify m.nodelist name f }

/-- Embedding of the `MasterInfo.topics` setter. -/
def MasterInfo.addTopic (m : MasterInfo) (name : String) : MasterInfo :=
  if name = "" then m
  else { m with topiclist := ainsert m.topiclist name (TopicInfo.mk0 name) }

/-- Embedding of `MasterInfo.getTopic`. -/
def MasterInfo.getTopic (m : MasterInfo) (name : String) : Option TopicInfo :=
  if name = "" then none else alookup m.topiclist name

/-- Mutation through the reference returned by `getTopic`. -/
def MasterInfo.modTopic (m : MasterInfo) (name : String) (f : TopicInfo → TopicInfo) : MasterInfo :=
  { m with topiclist := amodify m.topiclist name f }

/-- Embedding of the `MasterInfo.services` setter. -/
def MasterInfo.addService (m : MasterInfo) (name : String) : MasterInfo :=
  if name = "" then m
  else { m with servicelist := ainsert m.servicelist name (ServiceInfo.mk0 name m.masteruri) }

/-- Embedding of `MasterInfo.getService`. -/
def MasterInfo.getService (m : MasterInfo) (name : String) : Option ServiceInfo :=
  if name = "" then none else alookup m.servicelist name

/-- Mutation through the reference returned by `getService`. -/
def MasterInfo.modService (m : MasterInfo) (name : String) (f : ServiceInfo → ServiceInfo) : MasterInfo :=
  { m with servicelist := amodify m.servicelist name f }

/-- Embedding of the `MasterInfo.node_names` property. -/
def MasterInfo.node_names (m : MasterInfo) : List String :=
  m.nodelist.map Prod.fst

/-- Embedding of the `MasterInfo.node_uris` property. -/
def MasterInfo.node_uris (m : MasterInfo) : List (Option String) :=
  m.nodelist.map (fun p => p.2.uri)

/-- Embedding of the `MasterInfo.topic_names` property. -/
def MasterInfo.topic_names (m : MasterInfo) : List String :=
  m.topiclist.map Prod.fst

/-- Embedding of the `MasterInfo.service_names` property. -/
def MasterInfo.service_names (m : MasterInfo) : List String :=
  m.servicelist.map Prod.fst

/-- Embedding of the `MasterInfo.service_uris` property. -/
def MasterInfo.service_uris (m : MasterInfo) : List (Option String) :=
  m.servicelist.map (fun p => p.2.uri)

/-- One entry of the `nodes` component of `listedState()`:
`(nodename, XML-RPC URI, origin ROS_MASTER_URI, pid, local or remote)`. -/
structure NodeEntry where
  nodename : String
  uri : Option String
  masteruri : String
  pid : Option Int
  loc : String
deriving Repr, DecidableEq

/-- One entry of the `serviceProvider` component of `listedState()`:
`(service, XML-RPC URI, origin ROS_MASTER_URI, type, local or remote)`. -/
structure SrvEntry where
  servicename : String
  uri : Option String
  masteruri : String
  typ : String
  loc : String
deriving Repr, DecidableEq

/-- The tuple returned by `MasterInfo.listedState()`, with the positional
components named. `from_list(l)` reads `l[1]` through `l[8]`. -/
structure ListedState where
  stamp : String
  masteruri : String
  mastername : Option String
  publishers : List (String × List String)
  subscribers : List (String × List String)
  services : List (String × List String)
  topicTypes : List (String × Option String)
  nodes : List NodeEntry
  serviceProvider : List SrvEntry
deriving Repr, DecidableEq

/-- Embedding of `MasterInfo.listedState()`. One loop over the topics
builds `publishers` (topics with a non-empty publisher list),
`subscribers` (likewise) and `topicTypes` (every topic); one loop over
the services builds `services` and `serviceProvider` (a `None` type is
emitted as the empty string); one loop over the nodes builds `nodes`. -/
def MasterInfo.listedState (m : MasterInfo) : ListedState :=
  { stamp := toString m.timestamp,
    masteruri := m.masteruri,
    mastername := m.mastername,
    publishers := m.topiclist.filterMap (fun p =>
      if p.2.publisherNodes = [] then none else some (p.1, p.2.publisherNodes)),
    subscribers := m.topiclist.filterMap (fun p =>
      if p.2.subscriberNodes = [] then none else some (p.1, p.2.subscriberNodes)),
    topicTypes := m.topiclist.map (fun p => (p.1, p.2.typ)),
    services := m.servicelist.map (fun p => (p.1, p.2.serviceProvider)),
    serviceProvider := m.servicelist.map (fun p =>
      { servicename := p.1, uri := p.2.uri, masteruri := p.2.org_masteruri,
        typ := match p.2.typ with | some t => t | none => "",
        loc := if p.2.loc then "local" else "remote" }),
    nodes := m.nodelist.map (fun p =>
      { nodename := p.1, uri := p.2.uri, masteruri := p.2.org_masteruri,
        pid := p.2.pid,
        loc := if p.2.loc then "local" else "remote" }) }

/-- Perform a mutation through `getNode`; in Python a lookup returning
`None` makes the attribute assignment raise, modelled by `none`. -/
def MasterInfo.withNode (m : MasterInfo) (name : String) (f : NodeInfo → NodeInfo) :
    Option MasterInfo :=
  match m.getNode name with
  | none => none
  | some _ => some (m.modNode name f)

/-- Perform a mutation through `getTopic`. -/
def MasterInfo.withTopic (m : MasterInfo) (name : String) (f : TopicInfo → TopicInfo) :
    Option MasterInfo :=
  match m.getTopic name with
  | none => none
  | some _ => some (m.modTopic name f)

/-- Perform a mutation through `getService`. -/
def MasterInfo.withService (m : MasterInfo) (name : String) (f : ServiceInfo → ServiceInfo) :
    Option MasterInfo :=
  match m.getService name with
  | none => none
  | some _ => some (m.modService name f)

/-- One iteration of the publisher loop of `from_list`: register the topic,
then for each publishing node register the node, extend its published
topics and extend the publisher list of the topic. -/
def applyPub (m : MasterInfo) (p : String × List String) : Option MasterInfo :=
  p.2.foldlM (fun acc n => do
      let acc1 := acc.addNode n
      let acc2 ← acc1.withNode n (fun nd => nd.addPublishedTopic p.1)
      acc2.withTopic p.1 (fun t => t.addPublisherNode n))
    (m.addTopic p.1)

/-- One iteration of the subscriber loop of `from_list`. -/
def applySub (m : MasterInfo) (p : String × List String) : Option MasterInfo :=
  p.2.foldlM (fun acc n => do
      let acc1 := acc.addNode n
      let acc2 ← acc1.withNode n (fun nd => nd.addSubscribedTopic p.1)
      acc2.withTopic p.1 (fun t => t.addSubscriberNode n))
    (m.addTopic p.1)

/-- One iteration of the service loop of `from_list`. -/
def applySrv (m : MasterInfo) (p : String × List String) : Option MasterInfo :=
  p.2.foldlM (fun acc n => do
      let acc1 := acc.addNode n
      let acc2 ← acc1.withNode n (fun nd => nd.addServiceName p.1)
      acc2.withService p.1 (fun s => s.addProvider n))
    (m.addService p.1)

/-- One iteration of the topic-type loop of `from_list`. -/
def applyTopicType (m : MasterInfo) (p : String × Option String) : Option MasterInfo :=
  (m.addTopic p.1).withTopic p.1 (fun t => { t with typ := p.2 })

/-- One iteration of the node-information loop of `from_list`: the uri,
origin master uri and pid are assigned in this order. -/
def applyNodeEntry (m : MasterInfo) (e : NodeEntry) : Option MasterInfo :=
  (m.addNode e.nodename).withNode e.nodename
    (fun nd => { (nd.setUri e.uri).setMasteruri e.masteruri with pid := e.pid })

/-- One iteration of the service-information loop of `from_list`. -/
def applySrvEntry (m : MasterInfo) (e : SrvEntry) : Option MasterInfo :=
  (m.addService e.servicename).withService e.servicename
    (fun s => { (s.setUri e.uri).setMasteruri e.masteruri with typ := some e.typ })

/-- Embedding of the static method `MasterInfo.from_list(l)`. The call
`time.time()` is passed in as `now`. A `none` result models an uncaught
`AttributeError` raised on a lookup that returned `None`. -/
def MasterInfo.from_list (now : ℚ) (l : ListedState) : Option MasterInfo := do
  let r := (MasterInfo.mk0 l.masteruri l.mastername).setTimestamp now
  let r ← l.publishers.foldlM applyPub r
  let r ← l.subscribers.foldlM applySub r
  let r ← l.services.foldlM applySrv r
  let r ← l.topicTypes.foldlM applyTopicType r
  let r ← l.nodes.foldlM applyNodeEntry r
  l.serviceProvider.foldlM applySrvEntry r

/-- Embedding of `MasterInfo.__eq__`: compares the master URI, the name and
uri sets of nodes, topics and services, and for each common node its pid,
uri and the sets of published topics, subscribed topics and services.
Timestamps, topic contents and service contents are not compared. -/
def MasterInfo.beq (a b : MasterInfo) : Bool :=
  a.masteruri == b.masteruri &&
  sameSet a.node_uris b.node_uris &&
  sameSet a.node_names b.node_names &&
  sameSet a.topic_names b.topic_names &&
  sameSet a.service_names b.service_names &&
  sameSet a.service_uris b.service_uris &&
  a.node_names.all (fun name =>
    match a.getNode name, b.getNode name with
    | some n1, some n2 =>
        n1.pid == n2.pid && n1.uri == n2.uri &&
        sameSet n1.publishedTopics n2.publishedTopics &&
        sameSet n1.subscribedTopics n2.subscribedTopics &&
        sameSet n1.services n2.services
    | _, _ => true)

/-- Total counterpart of one publisher iteration of `from_list`; on
nonempty names `applyPub` returns exactly this value. -/
def applyPubT (m : MasterInfo) (p : String × List String) : MasterInfo :=
  p.2.foldl (fun acc n =>
      ((acc.addNode n).modNode n (fun nd => nd.addPublishedTopic p.1)).modTopic p.1
        (fun t => t.addPublisherNode n))
    (m.addTopic p.1)

/-- Total counterpart of one subscriber iteration of `from_list`. -/
def applySubT (m : MasterInfo) (p : String × List String) : MasterInfo :=
  p.2.foldl (fun acc n =>
      ((acc.addNode n).modNode n (fun nd => nd.addSubscribedTopic p.1)).modTopic p.1
        (fun t => t.addSubscriberNode n))
    (m.addTopic p.1)

/-- Total counterpart of one service iteration of `from_list`. -/
def applySrvT (m : MasterInfo) (p : String × List String) : MasterInfo :=
  p.2.foldl (fun acc n =>
      ((acc.addNode n).modNode n (fun nd => nd.addServiceName p.1)).modService p.1
        (fun s => s.addProvider n))
    (m.addService p.1)

/-- Total counterpart of one topic-type iteration of `from_list`. -/
def applyTopicTypeT (m : MasterInfo) (p : String × Option String) : MasterInfo :=
  (m.addTopic p.1).modTopic p.1 (fun t => { t with typ := p.2 })

/-- The node mutation performed by the node-information loop. -/
def updEntry (nd : NodeInfo) (e : NodeEntry) : NodeInfo :=
  { (nd.setUri e.uri).setMasteruri e.masteruri with pid := e.pid }

/-- Total counterpart of one node-information iteration of `from_list`. -/
def applyNodeEntryT (m : MasterInfo) (e : NodeEntry) : MasterInfo :=
  (m.addNode e.nodename).modNode e.nodename (fun nd => updEntry nd e)

/-- The service mutation performed by the service-information loop. -/
def updSrvEntry (s : ServiceInfo) (e : SrvEntry) : ServiceInfo :=
  { (s.setUri e.uri).setMasteruri e.masteruri with typ := some e.typ }

/-- Total counterpart of one service-information iteration of `from_list`. -/
def applySrvEntryT (m : MasterInfo) (e : SrvEntry) : MasterInfo :=
  (m.addService e.servicename).modService e.servicename (fun s => updSrvEntry s e)

/-- Total counterpart of `from_list`. -/
def fromListT (now : ℚ) (l : ListedState) : MasterInfo :=
  l.serviceProvider.foldl applySrvEntryT
    (l.nodes.foldl applyNodeEntryT
      (l.topicTypes.foldl applyTopicTypeT
        (l.services.foldl applySrvT
          (l.subscribers.foldl applySubT
            (l.publishers.foldl applyPubT
              ((MasterInfo.mk0 l.masteruri l.mastername).setTimestamp now))))))

/-- The state reached after processing the publishers in `from_list`. -/
def stage1 (now : ℚ) (l : ListedState) : MasterInfo :=
  l.publishers.foldl applyPubT ((MasterInfo.mk0 l.masteruri l.mastername).setTimestamp now)

/-- The state reached after additionally processing the subscribers. -/
def stage2 (now : ℚ) (l : ListedState) : MasterInfo :=
  l.subscribers.foldl applySubT (stage1 now l)

/-- The state reached after additionally processing the services. -/
def stage3 (now : ℚ) (l : ListedState) : MasterInfo :=
  l.services.foldl applySrvT (stage2 now l)

/-- The state reached after additionally processing the topic types. -/
def stage4 (now : ℚ) (l : ListedState) : MasterInfo :=
  l.topicTypes.foldl applyTopicTypeT (stage3 now l)

/-- The state reached after additionally processing the node entries. -/
def stage5 (now : ℚ) (l : ListedState) : MasterInfo :=
  l.nodes.foldl applyNodeEntryT (stage4 now l)

/-- The topics (or services) of the listed pairs that mention node `k`. -/
def mentionsOf (k : String) (pairs : List (String × List String)) : List String :=
  pairs.filterMap (fun p => if k ∈ p.2 then some p.1 else none)

/-- Accumulate published topics. -/
def addPubs (nd : NodeInfo) (ts : List String) : NodeInfo :=
  ts.foldl NodeInfo.addPublishedTopic nd

/-- Accumulate subscribed topics. -/
def addSubs (nd : NodeInfo) (ts : List String) : NodeInfo :=
  ts.foldl NodeInfo.addSubscribedTopic nd

/-- Accumulate provided services. -/
def addSrvNames (nd : NodeInfo) (ss : List String) : NodeInfo :=
  ss.foldl NodeInfo.addServiceName nd

/-- The node reconstructed by the first three phases of `from_list`. -/
def buildNode (k masteruri : String) (l : ListedState) : NodeInfo :=
  addSrvNames (addSubs (addPubs (NodeInfo.mk0 k masteruri) (mentionsOf k l.publishers))
    (mentionsOf k l.subscribers)) (mentionsOf k l.services)

/-- The representation invariant every Python `MasterInfo` dictionary state
satisfies: dictionary keys are distinct, and the guarded setters never
admit an empty name. -/
def WF (m : MasterInfo) : Prop :=
  (∀ p ∈ m.nodelist, p.1 ≠ "") ∧ (∀ p ∈ m.topiclist, p.1 ≠ "")
    ∧ (∀ p ∈ m.servicelist, p.1 ≠ "")
    ∧ (m.nodelist.map Prod.fst).Nodup ∧ (m.topiclist.map Prod.fst).Nodup
    ∧ (m.servicelist.map Prod.fst).Nodup

/-- Cross-reference agreement of a `MasterInfo`: topic publisher and
subscriber nodes and service providers are registered nodes, and every
node's published topics, subscribed topics and services agree with the
topic and service dictionaries. -/
def Consistent (m : MasterInfo) : Prop :=
  (∀ q ∈ m.topiclist, ∀ n ∈ q.2.publisherNodes, n ∈ m.nodelist.map Prod.fst)
    ∧ (∀ q ∈ m.topiclist, ∀ n ∈ q.2.subscriberNodes, n ∈ m.nodelist.map Prod.fst)
    ∧ (∀ q ∈ m.servicelist, ∀ n ∈ q.2.serviceProvider, n ∈ m.nodelist.map Prod.fst)
    ∧ (∀ p ∈ m.nodelist, ∀ t ∈ p.2.publishedTopics,
        ∃ q ∈ m.topiclist, q.1 = t ∧ p.1 ∈ q.2.publisherNodes)
    ∧ (∀ p ∈ m.nodelist, ∀ q ∈ m.topiclist,
        p.1 ∈ q.2.publisherNodes → q.1 ∈ p.2.publishedTopics)
    ∧ (∀ p ∈ m.nodelist, ∀ t ∈ p.2.subscribedTopics,
        ∃ q ∈ m.topiclist, q.1 = t ∧ p.1 ∈ q.2.subscriberNodes)
    ∧ (∀ p ∈ m.nodelist, ∀ q ∈ m.topiclist,
        p.1 ∈ q.2.subscriberNodes → q.1 ∈ p.2.subscribedTopics)
    ∧ (∀ p ∈ m.nodelist, ∀ s ∈ p.2.services,
        ∃ q ∈ m.servicelist, q.1 = s ∧ p.1 ∈ q.2.serviceProvider)
    ∧ (∀ p ∈ m.nodelist, ∀ q ∈ m.servicelist,
        p.1 ∈ q.2.serviceProvider → q.1 ∈ p.2.services)

end Disc

namespace Sync

/-- The compiled pattern matchers of the `SyncThread` interface
(`_re_ignore_nodes` and friends): each is the truthiness of
`pattern.match(name)`. The compilation itself (`create_pattern` in the
`common` module) is outside the embedded sources; only the match results
matter to the embedded code. -/
structure SyncFilters where
  ignore_nodes : String → Bool
  sync_nodes : String → Bool
  ignore_topics : String → Bool
  sync_topics : String → Bool
  ignore_services : String → Bool
  sync_services : String → Bool

/-- Embedding of `SyncThread._doIgnoreNT(node, topic)`: ignore lists first,
then sync lists, then the locality rule against the own master state, and
finally the no-configuration probe with the unmatchable names
`node node` and `topic topic`. -/
def doIgnoreNT (f : SyncFilters) (own_state : Option Disc.MasterInfo)
    (node topic : String) : Bool :=
  if f.ignore_nodes node then true
  else if f.ignore_topics topic then true
  else if f.sync_nodes node then false
  else if f.sync_topics topic then false
  else
    match own_state with
    | some st =>
      let anyLocal :=
        match st.getTopic topic with
        | some t =>
          (t.subscriberNodes ++ t.publisherNodes).any (fun n =>
            match st.getNode n with
            | some n2 => n2.loc
            | none => false)
        | none => false
      if anyLocal then false else true
    | none => !f.sync_nodes "node node" || !f.sync_topics "topic topic"

/-- Embedding of `SyncThread._doIgnoreNS(node, service)`. -/
def doIgnoreNS (f : SyncFilters) (node service : String) : Bool :=
  if f.ignore_nodes node then true
  else if f.ignore_services service then true
  else if f.sync_nodes node then false
  else if f.sync_services service then false
  else !f.sync_nodes "node node" || !f.sync_services "service service"

/-- One entry of the `nodes` component of a remote `masterInfo()` reply:
`(nodename, uri, masteruri, pid, local or remote)`. -/
structure RemoteNode where
  nodename : String
  uri : String
  masteruri : String
  pid : Int
  loc : String
deriving Repr, DecidableEq

/-- One entry of the `serviceProviders` component of a remote
`masterInfo()` reply: `(servicename, uri, masteruri, type, local or remote)`. -/
structure RemoteSrv where
  servicename : String
  uri : String
  masteruri : String
  typ : String
  loc : String
deriving Repr, DecidableEq

/-- The parsed reply of the remote `masterInfo()` RPC as unpacked at the
start of a sync pass in `run()`. -/
structure RemoteState where
  stamp : ℚ
  stamp_local : ℚ
  remote_masteruri : String
  publishers : List (String × List String)
  subscribers : List (String × List String)
  rservices : List (String × List String)
  topicTypes : List (String × String)
  nodeProviders : List RemoteNode
  serviceProviders : List RemoteSrv
deriving Repr

/-- Embedding of `SyncThread._getTopicType(topic, topicTypes)`: the type of
the first matching entry. -/
def getTopicType (topic : String) (topicTypes : List (String × String)) : Option String :=
  match topicTypes with
  | [] => none
  | p :: rest => if p.1 = topic then some p.2 else getTopicType topic rest

/-- Embedding of `SyncThread._getNodeUri(node, nodes, remote_masteruri)`:
the uri of the first entry whose name matches and whose owning master is
the remote master; an entry owned by the local master never yields a uri
(the inner guard falls through to the next entry). -/
def getNodeUri (localMasteruri node : String) (nodes : List RemoteNode)
    (remote_masteruri : String) : Option String :=
  match nodes with
  | [] => none
  | e :: rest =>
    if e.nodename = node ∧ remote_masteruri = e.masteruri then
      if e.masteruri ≠ localMasteruri then some e.uri
      else getNodeUri localMasteruri node rest remote_masteruri
    else getNodeUri localMasteruri node rest remote_masteruri

/-- Embedding of `SyncThread._getServiceUri(service, nodes, remote_masteruri)`. -/
def getServiceUri (localMasteruri service : String) (nodes : List RemoteSrv)
    (remote_masteruri : String) : Option String :=
  match nodes with
  | [] => none
  | e :: rest =>
    if e.servicename = service ∧ remote_masteruri = e.masteruri then
      if e.masteruri ≠ localMasteruri then some e.uri
      else getServiceUri localMasteruri service rest remote_masteruri
    else getServiceUri localMasteruri service rest remote_masteruri

/-- The per-thread data the desired-set computation of a sync pass reads:
the compiled filters, the last known own master state and the local master
URI. -/
structure SyncCtx where
  filters : SyncFilters
  own_state : Option Disc.MasterInfo
  localMasteruri : String

/-- A mirrored topic registration as stored in `self.__publisher` and
`self.__subscriber`: `(topic, node, nodeuri)`. -/
structure TopicReg where
  topic : String
  node : String
  nodeuri : String
deriving Repr, DecidableEq

/-- A topic registration together with its type, as queued for
registration: `(topic, topictype, node, nodeuri)`. -/
structure TopicRegTyped where
  topic : String
  typ : String
  node : String
  nodeuri : String
deriving Repr, DecidableEq

/-- Forget the type component. -/
def TopicRegTyped.drop (q : TopicRegTyped) : TopicReg :=
  { topic := q.topic, node := q.node, nodeuri := q.nodeuri }

/-- A mirrored service registration as stored in `self.__services`:
`(service, serviceuri, node, nodeuri)`. -/
structure SrvReg where
  service : String
  serviceuri : String
  node : String
  nodeuri : String
deriving Repr, DecidableEq

/-- The per-(topic, node) test of the publisher loop of the sync pass: the
topic type and node uri must resolve and be non-empty (Python truthiness)
and the filter must not ignore the pair. -/
def resolvePub (c : SyncCtx) (r : RemoteState) (topic node : String) :
    Option TopicRegTyped :=
  match getTopicType topic r.topicTypes,
        getNodeUri c.localMasteruri node r.nodeProviders r.remote_masteruri with
  | some tt, some nu =>
    if tt ≠ "" ∧ nu ≠ "" ∧ doIgnoreNT c.filters c.own_state node topic = false then
      some { topic := topic, typ := tt, node := node, nodeuri := nu }
    else none
  | _, _ => none

/-- The per-(service, node) test of the service loop of the sync pass. -/
def resolveSrv (c : SyncCtx) (r : RemoteState) (service node : String) :
    Option SrvReg :=
  match getServiceUri c.localMasteruri service r.serviceProviders r.remote_masteruri,
        getNodeUri c.localMasteruri node r.nodeProviders r.remote_masteruri with
  | some su, some nu =>
    if su ≠ "" ∧ nu ≠ "" ∧ doIgnoreNS c.filters node service = false then
      some { service := service, serviceuri := su, node := node, nodeuri := nu }
    else none
  | _, _ => none

/-- The `publisher` list accumulated by the publisher loop of the sync
pass: every remote (topic, node) pair that resolves and passes the filter. -/
def desiredPublisher (c : SyncCtx) (r : RemoteState) : List TopicReg :=
  r.publishers.flatMap (fun p =>
    p.2.filterMap (fun n => (resolvePub c r p.1 n).map TopicRegTyped.drop))

/-- The `publisher_to_register` list accumulated by the publisher loop:
desired registrations not already in the mirrored `self.__publisher`. -/
def publisherToRegister (c : SyncCtx) (r : RemoteState) (mirrored : List TopicReg) :
    List TopicRegTyped :=
  r.publishers.flatMap (fun p =>
    p.2.filterMap (fun n =>
      (resolvePub c r p.1 n).bind (fun q =>
        if q.drop ∈ mirrored then none else some q)))

/-- The `subscriber` list accumulated by the subscriber loop. -/
def desiredSubscriber (c : SyncCtx) (r : RemoteState) : List TopicReg :=
  r.subscribers.flatMap (fun p =>
    p.2.filterMap (fun n => (resolvePub c r p.1 n).map TopicRegTyped.drop))

/-- The `subscriber_to_register` list accumulated by the subscriber loop. -/
def subscriberToRegister (c : SyncCtx) (r : RemoteState) (mirrored : List TopicReg) :
    List TopicRegTyped :=
  r.subscribers.flatMap (fun p =>
    p.2.filterMap (fun n =>
      (resolvePub c r p.1 n).bind (fun q =>
        if q.drop ∈ mirrored then none else some q)))

/-- The `services` list accumulated by the service loop. -/
def desiredServices (c : SyncCtx) (r : RemoteState) : List SrvReg :=
  r.rservices.flatMap (fun p =>
    p.2.filterMap (fun n => resolveSrv c r p.1 n))

/-- The `services_to_register` list accumulated by the service loop. -/
def servicesToRegister (c : SyncCtx) (r : RemoteState) (mirrored : List SrvReg) :
    List SrvReg :=
  r.rservices.flatMap (fun p =>
    p.2.filterMap (fun n =>
      (resolveSrv c r p.1 n).bind (fun q =>
        if q ∈ mirrored then none else some q)))

/-- Iteration over `set(old) - set(new)`: each element of the old list that
is not in the new list, once. Python iterates the set in an unspecified
order; the order of first occurrence is one faithful choice, and no
modelled property depends on the order within this group. -/
def setDiff {α : Type} [DecidableEq α] (xs ys : List α) : List α :=
  xs.dedup.filter (fun x => x ∉ ys)

/-- One queued call of the multicall batch, tagged as in the `handler`
list of the sync pass. -/
inductive Handler where
  | pub (topic typ node nodeuri : String)
  | upub (topic node nodeuri : String)
  | sub (topic typ node nodeuri : String)
  | usub (topic node nodeuri : String)
  | srv (service serviceuri node nodeuri : String)
  | usrv (service serviceuri node nodeuri : String)
deriving Repr, DecidableEq

/-- The `handler` list built by one sync pass, in source order: publisher
removals, publisher additions, subscriber removals, subscriber additions,
service removals, service additions. -/
def passHandlers (c : SyncCtx) (r : RemoteState)
    (pubM subM : List TopicReg) (srvM : List SrvReg) : List Handler :=
  (setDiff pubM (desiredPublisher c r)).map (fun x => .upub x.topic x.node x.nodeuri)
  ++ (publisherToRegister c r pubM).map (fun q => .pub q.topic q.typ q.node q.nodeuri)
  ++ (setDiff subM (desiredSubscriber c r)).map (fun x => .usub x.topic x.node x.nodeuri)
  ++ (subscriberToRegister c r subM).map (fun q => .sub q.topic q.typ q.node q.nodeuri)
  ++ (setDiff srvM (desiredServices c r)).map (fun x => .usrv x.service x.serviceuri x.node x.nodeuri)
  ++ (servicesToRegister c r srvM).map (fun q => .srv q.service q.serviceuri q.node q.nodeuri)

/-- Embedding of the `MasterInfo` class of `sync_thread.py`. The
constructor assigns `timestamp` but not `timestamp_local`; the dynamically
absent attribute is modelled as an `Option` that starts out `none`. -/
structure MasterInfo where
  name : String
  uri : String
  discoverer_name : String
  monitoruri : String
  timestamp : ℚ
  lastsync : ℚ
  syncts : ℚ
  timestamp_local : Option ℚ
deriving Repr, DecidableEq

/-- Embedding of `MasterInfo.__init__(name, uri, discoverer_name,
monitoruri, timestamp, lastsync=0.0)` of `sync_thread.py`. -/
def MasterInfo.mk0 (name uri discoverer_name monitoruri : String)
    (timestamp : ℚ) (lastsync : ℚ) : MasterInfo :=
  { name := name, uri := uri, discoverer_name := discoverer_name,
    monitoruri := monitoruri, timestamp := timestamp,
    lastsync := lastsync, syncts := 0, timestamp_local := none }

/-- The mutable state of a `SyncThread`: the master descriptor, the
mirrored registration lists, the own master state, the stop flag and the
congestion-avoidance timestamps. The condition variable, the locks and the
cached `__sync_info` message are synchronization plumbing and are not
modelled. -/
structure SyncThreadState where
  masterInfo : MasterInfo
  localMasteruri : String
  filters : SyncFilters
  publisher : List TopicReg
  subscriber : List TopicReg
  services : List SrvReg
  own_state : Option Disc.MasterInfo
  stop_flag : Bool
  ts_first_update_request : Option ℚ
  ts_last_update_request : Option ℚ

/-- The context a sync pass reads from the thread state. -/
def SyncThreadState.ctx (st : SyncThreadState) : SyncCtx :=
  { filters := st.filters, own_state := st.own_state,
    localMasteruri := st.localMasteruri }

/-- Embedding of `SyncThread.__init__`: a fresh thread state for a newly
discovered remote master. -/
def initState (name uri discoverer_name monitoruri : String) (timestamp : ℚ)
    (localMasteruri : String) (filters : SyncFilters) : SyncThreadState :=
  { masterInfo := MasterInfo.mk0 name uri discoverer_name monitoruri timestamp 0,
    localMasteruri := localMasteruri, filters := filters,
    publisher := [], subscriber := [], services := [],
    own_state := none, stop_flag := false,
    ts_first_update_request := none, ts_last_update_request := none }

/-- The dynamic attribute error raised when Python reads an attribute that
was never assigned. -/
inductive AttrError where
  | attributeError
deriving Repr, DecidableEq

/-- Embedding of `SyncThread.update(name, uri, discoverer_name, monitoruri,
timestamp)`: first reads `self.masterInfo.timestamp_local`, which raises
when the attribute was never assigned; otherwise, on a changed timestamp,
refreshes the descriptor, clears `syncts` and records the request times
(`time.time()` is passed in as `now`). The string comparison
`str(old) != str(new)` of floats is value inequality. -/
def update (st : SyncThreadState) (name uri discoverer_name monitoruri : String)
    (timestamp now : ℚ) : Except AttrError SyncThreadState :=
  match st.masterInfo.timestamp_local with
  | none => .error .attributeError
  | some tl =>
    if tl ≠ timestamp then
      .ok { st with
        masterInfo := { st.masterInfo with
          name := name, uri := uri, discoverer_name := discoverer_name,
          monitoruri := monitoruri, syncts := 0 },
        ts_last_update_request := some now,
        ts_first_update_request := some (st.ts_first_update_request.getD now) }
    else .ok st

/-- Embedding of the state update on a successful sync pass (source lines
351-360): the mirrored lists are replaced by the freshly computed ones,
the timestamps are advanced and the first-request mark is cleared. -/
def applySyncSuccess (st : SyncThreadState) (publisher subscriber : List TopicReg)
    (services : List SrvReg) (stamp stamp_local : ℚ) : SyncThreadState :=
  { st with
    publisher := publisher, subscriber := subscriber, services := services,
    masterInfo := { st.masterInfo with
      timestamp := stamp, timestamp_local := some stamp_local,
      lastsync := stamp, syncts := stamp },
    ts_first_update_request := none }

/-- The thread state after the multicall of a sync pass returned `results`
(one `(code, statusMessage)` pair per handler). The result loop of the
source only logs and performs the throwaway-publisher hack; the mirrored
lists are then replaced wholesale, independently of the per-item codes. -/
def applyPassResult (st : SyncThreadState) (r : RemoteState)
    (_results : List (Int × String)) : SyncThreadState :=
  applySyncSuccess st (desiredPublisher st.ctx r) (desiredSubscriber st.ctx r)
    (desiredServices st.ctx r) r.stamp r.stamp_local

/-- The unregister batch issued by the teardown block at the end of
`run()` (source lines 370-388): one unregister call per mirrored
publication, subscription and service. -/
def teardownHandlers (st : SyncThreadState) : List Handler :=
  st.publisher.map (fun x => .upub x.topic x.node x.nodeuri)
  ++ st.subscriber.map (fun x => .usub x.topic x.node x.nodeuri)
  ++ st.services.map (fun x => .usrv x.service x.serviceuri x.node x.nodeuri)

/-- The value of `self._ts_last_update_request` visible at time `t`: the
arrival time of the most recent update request not after `t`, or `dflt`
when none has arrived yet. -/
def lastRequestAt (dflt : ℚ) (reqs : List ℚ) (t : ℚ) : ℚ :=
  ((reqs.filter (fun r => r ≤ t)).getLast?).getD dflt

/-- Embedding of the congestion-avoidance loop of `run()` (source lines
223-230): starting at time `t`, while less than 5 seconds have passed
since the first request and less than 1.1 seconds since the last visible
request, sleep for the next duration of `sleeps` (the source draws
`random.random() * 2`) and recheck. Returns the time at which the loop
exits and the pass starts, or `none` when the supplied sleep schedule is
exhausted first. -/
def debounceLoop (first : ℚ) (reqs : List ℚ) : List ℚ → ℚ → Option ℚ
  | sleeps, t =>
    if (t - first < 5) ∧ (t - lastRequestAt first reqs t < 11/10) then
      match sleeps with
      | [] => none
      | s :: rest => debounceLoop first reqs rest (t + s)
    else some t

end Sync

/-- Matchers that match nothing: no ignore and no sync list entry applies. -/
def noFilters : Sync.SyncFilters :=
  { ignore_nodes := fun _ => false, sync_nodes := fun _ => false,
    ignore_topics := fun _ => false, sync_topics := fun _ => false,
    ignore_services := fun _ => false, sync_services := fun _ => false }

/-- Matchers with empty ignore lists and all-matching sync lists. -/
def syncAllFilters : Sync.SyncFilters :=
  { ignore_nodes := fun _ => false, sync_nodes := fun _ => true,
    ignore_topics := fun _ => false, sync_topics := fun _ => true,
    ignore_services := fun _ => false, sync_services := fun _ => true }

/-- Matchers that match everything, for exercising precedence. -/
def allTrueFilters : Sync.SyncFilters :=
  { ignore_nodes := fun _ => true, sync_nodes := fun _ => true,
    ignore_topics := fun _ => true, sync_topics := fun _ => true,
    ignore_services := fun _ => true, sync_services := fun _ => true }

/-- A topic of the own master state with one publisher node. -/
def topicT : Disc.TopicInfo :=
  { name := "/t", typ := some "std_msgs/String",
    publisherNodes := ["/n"], subscriberNodes := [] }

/-- An own master state in which topic `/t` is registered and its publisher
`/n` runs locally. -/
def ownStateLocal : Disc.MasterInfo :=
  { masteruri := "http://localhost:11311", mastername := some "localhost",
    nodelist := [("/n",
      { Disc.NodeInfo.mk0 "/n" "http://localhost:11311" with
          uri := some "http://localhost:200", loc := true })],
    topiclist := [("/t", topicT)],
    servicelist := [], timestamp := 0, check_ts := 0 }

/-- A thread state with one mirrored registration of each kind. -/
def stMirrored : Sync.SyncThreadState :=
  { masterInfo := Sync.MasterInfo.mk0 "rem" "http://r:11311" "/mastersync" "http://r:11611" 1 0,
    localMasteruri := "http://localhost:11311", filters := syncAllFilters,
    publisher := [⟨"/scan", "/lidar", "http://h1:1"⟩],
    subscriber := [⟨"/cmd", "/ctrl", "http://h2:2"⟩],
    services := [⟨"/srv", "rosrpc://h1:3", "/lidar", "http://h1:1"⟩],
    own_state := none, stop_flag := true,
    ts_first_update_request := none, ts_last_update_request := none }

/-- A handler entry that registers something. -/
def isRegister : Sync.Handler → Bool
  | .pub _ _ _ _ => true
  | .sub _ _ _ _ => true
  | .srv _ _ _ _ => true
  | .upub _ _ _ => false
  | .usub _ _ _ => false
  | .usrv _ _ _ _ => false

/-- A handler entry that unregisters something. -/
def isUnregister (h : Sync.Handler) : Bool := !isRegister h

/-- The registration category of a handler entry. -/
inductive RegCat where
  | pubc
  | subc
  | srvc
deriving DecidableEq, Repr

/-- Category of a handler entry. -/
def catOf : Sync.Handler → RegCat
  | .pub _ _ _ _ => .pubc
  | .upub _ _ _ => .pubc
  | .sub _ _ _ _ => .subc
  | .usub _ _ _ => .subc
  | .srv _ _ _ _ => .srvc
  | .usrv _ _ _ _ => .srvc

/-- A register entry of the given category. -/
def isRegOf (c : RegCat) (h : Sync.Handler) : Bool := isRegister h && catOf h == c

/-- An unregister entry of the given category. -/
def isUnregOf (c : RegCat) (h : Sync.Handler) : Bool := isUnregister h && catOf h == c

/-- All entries selected by `unregP` come before any entry selected by
`regP`: after the first `regP` entry, no `unregP` entry occurs. -/
def unregsBeforeRegs (regP unregP : Sync.Handler → Bool) (hs : List Sync.Handler) : Bool :=
  (hs.dropWhile (fun h => !regP h)).all (fun h => !unregP h)

/-- A remote state offering one publisher of `/scan` on node `/lidar`. -/
def r0 : Sync.RemoteState :=
  { stamp := 2, stamp_local := 7, remote_masteruri := "http://remote:11311",
    publishers := [("/scan", ["/lidar"])], subscribers := [], rservices := [],
    topicTypes := [("/scan", "sensor/Scan")],
    nodeProviders := [{ nodename := "/lidar", uri := "http://h1:1",
                        masteruri := "http://remote:11311", pid := 10, loc := "remote" }],
    serviceProviders := [] }

/-- A sync context with all-matching sync lists and no own state. -/
def c0 : Sync.SyncCtx :=
  { filters := syncAllFilters, own_state := none,
    localMasteruri := "http://localhost:11311" }

/-- A previously mirrored subscription that the remote no longer reports. -/
def staleSub : Sync.TopicReg := ⟨"/old", "/n", "http://h2:2"⟩

/-- A freshly created thread state toward the remote master of `r0`. -/
def st0 : Sync.SyncThreadState :=
  { masterInfo := Sync.MasterInfo.mk0 "rem" "http://remote:11311" "/mastersync"
      "http://remote:11611" 2 0,
    localMasteruri := "http://localhost:11311", filters := syncAllFilters,
    publisher := [], subscriber := [], services := [],
    own_state := none, stop_flag := false,
    ts_first_update_request := none, ts_last_update_request := none }

/-- A remote state whose only node entry is owned by the local master. -/
def rLocalOwned : Sync.RemoteState :=
  { stamp := 3, stamp_local := 8, remote_masteruri := "http://localhost:11311",
    publishers := [], subscribers := [], rservices := [], topicTypes := [],
    nodeProviders := [{ nodename := "/loc", uri := "http://h3:1",
                        masteruri := "http://localhost:11311", pid := 5, loc := "local" }],
    serviceProviders := [] }

/-- The burst of update requests used in the C5 counterexample: one request
every 200 milliseconds from time 0 to time 2.8. -/
def burstC : List ℚ :=
  [0, 1/5, 2/5, 3/5, 4/5, 1, 6/5, 7/5, 8/5, 9/5, 2, 11/5, 12/5, 13/5, 14/5]

/-- A concrete consistent two-node master state: `/n1` publishes `/t`,
`/n2` subscribes to `/t` and provides `/s`. -/
def mC10 : Disc.MasterInfo :=
  { masteruri := "http://h1:11311",
    mastername := some "h1",
    nodelist := [
      ("/n1", { name := "/n1", masteruri0 := "http://h1:11311",
                org_masteruri := "http://h1:11311", uri := some "http://h1:45000",
                pid := some 42, loc := true,
                publishedTopics := ["/t"], subscribedTopics := [], services := [] }),
      ("/n2", { name := "/n2", masteruri0 := "http://h1:11311",
                org_masteruri := "http://h1:11311", uri := some "http://h2:45001",
                pid := none, loc := false,
                publishedTopics := [], subscribedTopics := ["/t"], services := ["/s"] })],
    topiclist := [
      ("/t", { name := "/t", typ := some "std_msgs/String",
               publisherNodes := ["/n1"], subscriberNodes := ["/n2"] })],
    servicelist := [
      ("/s", { name := "/s", masteruri0 := "http://h1:11311",
               org_masteruri := "http://h1:11311", uri := some "rosrpc://h2:45002",
               loc := false, typ := some "std_srvs/Empty", serviceProvider := ["/n2"] })],
    timestamp := 3, check_ts := 3 }

/-- C1 counterexample input: with no matching filter entries, the own state
known and topic `/t` registered there with the locally running publisher
`/n`, the code decides to mirror (returns `false` = do not ignore), while
the claim requires the decision not to mirror. -/
theorem doIgnoreNT_locality_counterexample :
    Sync.doIgnoreNT noFilters (some ownStateLocal) "/x" "/t" = false
    ∧ ownStateLocal.getTopic "/t" = some topicT
    ∧ (ownStateLocal.getNode "/n").map Disc.NodeInfo.loc = some true :=
  ⟨rfl, rfl, rfl⟩

/-- C1 (amended): when neither ignore nor sync lists match and the own
master state is known with the topic registered there, the filter returns
`false` (mirror) exactly when some publisher or subscriber node of the
topic in the own state is local, and `true` (do not mirror) otherwise —
the opposite polarity of the claim. -/
theorem doIgnoreNT_locality (f : Sync.SyncFilters) (st : Disc.MasterInfo)
    (node topic : String) (t : Disc.TopicInfo)
    (hin : f.ignore_nodes node = false) (hit : f.ignore_topics topic = false)
    (hsn : f.sync_nodes node = false) (hst : f.sync_topics topic = false)
    (ht : st.getTopic topic = some t) :
    Sync.doIgnoreNT f (some st) node topic
      = !(t.subscriberNodes ++ t.publisherNodes).any (fun n =>
            match st.getNode n with
            | some n2 => n2.loc
            | none => false) := by
  simp only [Sync.doIgnoreNT, hin, hit, hsn, hst, ht, Bool.false_eq_true, if_false]
  cases (t.subscriberNodes ++ t.publisherNodes).any (fun n =>
      match st.getNode n with
      | some n2 => n2.loc
      | none => false) <;> simp

/-- Witness for the amended C1 theorem at a concrete input. -/
theorem doIgnoreNT_locality_witness :
    noFilters.ignore_nodes "/x" = false ∧ noFilters.ignore_topics "/t" = false
    ∧ noFilters.sync_nodes "/x" = false ∧ noFilters.sync_topics "/t" = false
    ∧ ownStateLocal.getTopic "/t" = some topicT
    ∧ Sync.doIgnoreNT noFilters (some ownStateLocal) "/x" "/t"
        = !(topicT.subscriberNodes ++ topicT.publisherNodes).any (fun n =>
              match ownStateLocal.getNode n with
              | some n2 => n2.loc
              | none => false) :=
  ⟨rfl, rfl, rfl, rfl, rfl,
    doIgnoreNT_locality noFilters ownStateLocal "/x" "/t" topicT rfl rfl rfl rfl rfl⟩

/-- C8: a registration whose node matches an ignore-node pattern, or whose
topic (respectively service) matches the corresponding ignore pattern, is
never mirrored, whatever the sync lists say: explicit ignore wins. -/
theorem ignore_beats_sync (f : Sync.SyncFilters) (own : Option Disc.MasterInfo)
    (node topic service : String) :
    ((f.ignore_nodes node = true ∨ f.ignore_topics topic = true) →
        Sync.doIgnoreNT f own node topic = true)
    ∧ ((f.ignore_nodes node = true ∨ f.ignore_services service = true) →
        Sync.doIgnoreNS f node service = true) := by
  constructor
  · rintro (h | h)
    · simp [Sync.doIgnoreNT, h]
    · cases hin : f.ignore_nodes node <;> simp [Sync.doIgnoreNT, hin, h]
  · rintro (h | h)
    · simp [Sync.doIgnoreNS, h]
    · cases hin : f.ignore_nodes node <;> simp [Sync.doIgnoreNS, hin, h]

/-- Witness for C8: with matchers that match everything (so the sync lists
also match), the decision is still to ignore. -/
theorem ignore_beats_sync_witness :
    Sync.doIgnoreNT allTrueFilters none "/a" "/t" = true
    ∧ Sync.doIgnoreNS allTrueFilters "/a" "/s" = true :=
  ⟨(ignore_beats_sync allTrueFilters none "/a" "/t" "/s").1 (Or.inl rfl),
   (ignore_beats_sync allTrueFilters none "/a" "/t" "/s").2 (Or.inr rfl)⟩

/-- C7: the teardown batch run when the thread stops contains an
unregister call for every mirrored publication, subscription and service. -/
theorem stop_unregisters_mirrored (st : Sync.SyncThreadState) :
    (∀ x ∈ st.publisher,
        Sync.Handler.upub x.topic x.node x.nodeuri ∈ Sync.teardownHandlers st)
    ∧ (∀ x ∈ st.subscriber,
        Sync.Handler.usub x.topic x.node x.nodeuri ∈ Sync.teardownHandlers st)
    ∧ (∀ x ∈ st.services,
        Sync.Handler.usrv x.service x.serviceuri x.node x.nodeuri
          ∈ Sync.teardownHandlers st) := by
  refine ⟨fun x hx => ?_, fun x hx => ?_, fun x hx => ?_⟩ <;>
    simp only [Sync.teardownHandlers, List.mem_append, List.mem_map]
  · exact Or.inl (Or.inl ⟨x, hx, rfl⟩)
  · exact Or.inl (Or.inr ⟨x, hx, rfl⟩)
  · exact Or.inr ⟨x, hx, rfl⟩

/-- Witness for C7 at a concrete mirrored state. -/
theorem stop_unregisters_mirrored_witness :
    (⟨"/scan", "/lidar", "http://h1:1"⟩ : Sync.TopicReg) ∈ stMirrored.publisher
    ∧ Sync.Handler.upub "/scan" "/lidar" "http://h1:1"
        ∈ Sync.teardownHandlers stMirrored :=
  ⟨List.mem_singleton.mpr rfl,
   (stop_unregisters_mirrored stMirrored).1 _ (List.mem_singleton.mpr rfl)⟩

/-- C9: the constructor of the thread-side `MasterInfo` assigns `timestamp`
but never `timestamp_local`, so on a freshly constructed thread state the
first `update()` call raises an attribute error instead of recording the
request, and `timestamp_local` is first assigned by the state update of a
successful sync pass. -/
theorem update_before_first_sync_fails (name uri dn mon lm n2 u2 d2 m2 : String)
    (ts ts2 now : ℚ) (f : Sync.SyncFilters)
    (st : Sync.SyncThreadState) (pub sub : List Sync.TopicReg)
    (srv : List Sync.SrvReg) (stamp stamp_local : ℚ) :
    (Sync.initState name uri dn mon ts lm f).masterInfo.timestamp_local = none
    ∧ Sync.update (Sync.initState name uri dn mon ts lm f) n2 u2 d2 m2 ts2 now
        = .error .attributeError
    ∧ (Sync.applySyncSuccess st pub sub srv stamp stamp_local).masterInfo.timestamp_local
        = some stamp_local :=
  ⟨rfl, rfl, rfl⟩

/-! Helper lemmas about the diff computation of the sync pass. -/

/-- Membership in an iterated `set(old) - set(new)` difference. -/
theorem mem_setDiff {α : Type} [DecidableEq α] (xs ys : List α) (x : α) :
    x ∈ Sync.setDiff xs ys ↔ x ∈ xs ∧ x ∉ ys := by
  simp [Sync.setDiff, List.mem_filter, List.mem_dedup]

/-- The difference of a list with itself is empty. -/
theorem setDiff_self {α : Type} [DecidableEq α] (xs : List α) :
    Sync.setDiff xs xs = [] := by
  rw [Sync.setDiff, List.filter_eq_nil_iff]
  intro x hx
  simp [List.mem_dedup.mp hx]

/-- Generic shape of the to-register lists with a projection to the
mirrored representation: an element is queued for registration exactly
when it is desired and not already mirrored. -/
theorem mem_map_toRegister {β γ : Type} [DecidableEq γ]
    (pairs : List (String × List String)) (res : String → String → Option β)
    (dropF : β → γ) (mir : List γ) (x : γ) :
    (x ∈ (pairs.flatMap (fun p => p.2.filterMap (fun n =>
          (res p.1 n).bind (fun q => if dropF q ∈ mir then none else some q)))).map dropF)
      ↔ (x ∈ pairs.flatMap (fun p => p.2.filterMap (fun n => (res p.1 n).map dropF))
          ∧ x ∉ mir) := by
  simp only [List.mem_map, List.mem_flatMap, List.mem_filterMap, Option.bind_eq_some,
    Option.map_eq_some']
  constructor
  · rintro ⟨q, ⟨p, hp, n, hn, q0, hq0, hq⟩, rfl⟩
    by_cases hm : dropF q0 ∈ mir
    · simp [hm] at hq
    · rw [if_neg hm, Option.some.injEq] at hq
      subst hq
      exact ⟨⟨p, hp, n, hn, q0, hq0, rfl⟩, hm⟩
  · rintro ⟨⟨p, hp, n, hn, q0, hq0, rfl⟩, hm⟩
    exact ⟨q0, ⟨p, hp, n, hn, q0, hq0, by rw [if_neg hm]⟩, rfl⟩

/-- Generic shape of the to-register lists without a projection. -/
theorem mem_toRegister {β : Type} [DecidableEq β]
    (pairs : List (String × List String)) (res : String → String → Option β)
    (mir : List β) (x : β) :
    (x ∈ pairs.flatMap (fun p => p.2.filterMap (fun n =>
          (res p.1 n).bind (fun q => if q ∈ mir then none else some q))))
      ↔ (x ∈ pairs.flatMap (fun p => p.2.filterMap (fun n => res p.1 n))
          ∧ x ∉ mir) := by
  simp only [List.mem_flatMap, List.mem_filterMap, Option.bind_eq_some]
  constructor
  · rintro ⟨p, hp, n, hn, q0, hq0, hq⟩
    by_cases hm : q0 ∈ mir
    · simp [hm] at hq
    · rw [if_neg hm, Option.some.injEq] at hq
      subst hq
      exact ⟨⟨p, hp, n, hn, hq0⟩, hm⟩
  · rintro ⟨⟨p, hp, n, hn, hq0⟩, hm⟩
    exact ⟨p, hp, n, hn, x, hq0, by rw [if_neg hm]⟩

/-- With the mirrored list equal to the desired list, the to-register list
is empty (projection form). -/
theorem toRegister_of_desired_eq_nil {β γ : Type} [DecidableEq γ]
    (pairs : List (String × List String)) (res : String → String → Option β)
    (dropF : β → γ) :
    pairs.flatMap (fun p => p.2.filterMap (fun n =>
        (res p.1 n).bind (fun q =>
          if dropF q ∈ pairs.flatMap (fun p2 => p2.2.filterMap (fun n2 => (res p2.1 n2).map dropF))
          then none else some q))) = [] := by
  rw [List.flatMap_eq_nil_iff]
  intro p hp
  rw [List.filterMap_eq_nil_iff]
  intro n hn
  cases hq : res p.1 n with
  | none => rfl
  | some q =>
    have hmem : dropF q ∈ pairs.flatMap (fun p2 =>
        p2.2.filterMap (fun n2 => (res p2.1 n2).map dropF)) :=
      List.mem_flatMap.mpr ⟨p, hp, List.mem_filterMap.mpr ⟨n, hn, by rw [hq]; rfl⟩⟩
    simp [hmem]

/-- With the mirrored list equal to the desired list, the to-register list
is empty (no-projection form). -/
theorem toRegister_of_desired_eq_nil_nodrop {β : Type} [DecidableEq β]
    (pairs : List (String × List String)) (res : String → String → Option β) :
    pairs.flatMap (fun p => p.2.filterMap (fun n =>
        (res p.1 n).bind (fun q =>
          if q ∈ pairs.flatMap (fun p2 => p2.2.filterMap (fun n2 => res p2.1 n2))
          then none else some q))) = [] := by
  rw [List.flatMap_eq_nil_iff]
  intro p hp
  rw [List.filterMap_eq_nil_iff]
  intro n hn
  cases hq : res p.1 n with
  | none => rfl
  | some q =>
    have hmem : q ∈ pairs.flatMap (fun p2 => p2.2.filterMap (fun n2 => res p2.1 n2)) :=
      List.mem_flatMap.mpr ⟨p, hp, List.mem_filterMap.mpr ⟨n, hn, hq⟩⟩
    simp [hmem]

/-- C2: in a pass the queued registrations are exactly desired minus
mirrored, the queued unregistrations are exactly mirrored minus desired,
the mirrored lists after the pass equal the desired lists, and a pass
whose mirrored lists already equal the desired lists queues no calls at
all. -/
theorem sync_pass_diff_correct (c : Sync.SyncCtx) (r : Sync.RemoteState)
    (mp ms : List Sync.TopicReg) (mv : List Sync.SrvReg)
    (st : Sync.SyncThreadState) (results : List (Int × String)) :
    (∀ x, x ∈ (Sync.publisherToRegister c r mp).map Sync.TopicRegTyped.drop
        ↔ x ∈ Sync.desiredPublisher c r ∧ x ∉ mp)
    ∧ (∀ x, x ∈ Sync.setDiff mp (Sync.desiredPublisher c r)
        ↔ x ∈ mp ∧ x ∉ Sync.desiredPublisher c r)
    ∧ (∀ x, x ∈ (Sync.subscriberToRegister c r ms).map Sync.TopicRegTyped.drop
        ↔ x ∈ Sync.desiredSubscriber c r ∧ x ∉ ms)
    ∧ (∀ x, x ∈ Sync.setDiff ms (Sync.desiredSubscriber c r)
        ↔ x ∈ ms ∧ x ∉ Sync.desiredSubscriber c r)
    ∧ (∀ x, x ∈ Sync.servicesToRegister c r mv
        ↔ x ∈ Sync.desiredServices c r ∧ x ∉ mv)
    ∧ (∀ x, x ∈ Sync.setDiff mv (Sync.desiredServices c r)
        ↔ x ∈ mv ∧ x ∉ Sync.desiredServices c r)
    ∧ (Sync.applyPassResult st r results).publisher = Sync.desiredPublisher st.ctx r
    ∧ (Sync.applyPassResult st r results).subscriber = Sync.desiredSubscriber st.ctx r
    ∧ (Sync.applyPassResult st r results).services = Sync.desiredServices st.ctx r
    ∧ Sync.passHandlers c r (Sync.desiredPublisher c r) (Sync.desiredSubscriber c r)
        (Sync.desiredServices c r) = [] := by
  refine ⟨?_, fun x => mem_setDiff _ _ x, ?_, fun x => mem_setDiff _ _ x, ?_,
    fun x => mem_setDiff _ _ x, rfl, rfl, rfl, ?_⟩
  · exact fun x => mem_map_toRegister r.publishers
      (fun a b => Sync.resolvePub c r a b) Sync.TopicRegTyped.drop mp x
  · exact fun x => mem_map_toRegister r.subscribers
      (fun a b => Sync.resolvePub c r a b) Sync.TopicRegTyped.drop ms x
  · exact fun x => mem_toRegister r.rservices
      (fun a b => Sync.resolveSrv c r a b) mv x
  · unfold Sync.passHandlers
    rw [setDiff_self, setDiff_self, setDiff_self]
    rw [show Sync.publisherToRegister c r (Sync.desiredPublisher c r) = [] from
      toRegister_of_desired_eq_nil r.publishers (fun a b => Sync.resolvePub c r a b)
        Sync.TopicRegTyped.drop]
    rw [show Sync.subscriberToRegister c r (Sync.desiredSubscriber c r) = [] from
      toRegister_of_desired_eq_nil r.subscribers (fun a b => Sync.resolvePub c r a b)
        Sync.TopicRegTyped.drop]
    rw [show Sync.servicesToRegister c r (Sync.desiredServices c r) = [] from
      toRegister_of_desired_eq_nil_nodrop r.rservices (fun a b => Sync.resolveSrv c r a b)]
    rfl

/-! Ordering of the multicall batch. -/

/-- Dropping a prefix on which the predicate holds everywhere. -/
theorem dropWhile_append_all {α : Type} (p : α → Bool) (xs ys : List α)
    (hx : ∀ h ∈ xs, p h = true) :
    (xs ++ ys).dropWhile p = ys.dropWhile p := by
  induction xs with
  | nil => simp
  | cons a xs ih =>
    rw [List.cons_append, List.dropWhile_cons, if_pos (hx a (List.mem_cons_self a xs))]
    exact ih (fun h hh => hx h (List.mem_cons_of_mem a hh))

/-- If no element of `xs` registers and no element of `ys` unregisters (as
selected by the two predicates), then all selected unregistrations precede
all selected registrations in `xs ++ ys`. -/
theorem unregsBeforeRegs_append (regP unregP : Sync.Handler → Bool)
    (xs ys : List Sync.Handler)
    (hx : ∀ h ∈ xs, regP h = false) (hy : ∀ h ∈ ys, unregP h = false) :
    unregsBeforeRegs regP unregP (xs ++ ys) = true := by
  unfold unregsBeforeRegs
  rw [dropWhile_append_all _ xs ys (fun h hh => by simp [hx h hh])]
  rw [List.all_eq_true]
  intro h hh
  have hmem : h ∈ ys := (List.dropWhile_sublist _).subset hh
  simp [hy h hmem]

/-- C3 counterexample input: a pass that must register a publisher and
unregister a stale subscriber places the publisher registration before the
subscriber unregistration in the batch, so not all unregister operations
precede all register operations. -/
theorem batch_order_counterexample :
    Sync.passHandlers c0 r0 [] [staleSub] []
      = [Sync.Handler.pub "/scan" "sensor/Scan" "/lidar" "http://h1:1",
         Sync.Handler.usub "/old" "/n" "http://h2:2"]
    ∧ unregsBeforeRegs isRegister isUnregister (Sync.passHandlers c0 r0 [] [staleSub] [])
        = false := by
  constructor
  · rfl
  · rfl

/-- C3 (amended): within each registration category separately the
unregister operations are placed into the batch before the register
operations of that category; the publisher, subscriber and service groups
follow each other in this order, so registers of an earlier category do
precede unregisters of a later one. -/
theorem passHandlers_per_category_order (c : Sync.SyncCtx) (r : Sync.RemoteState)
    (pubM subM : List Sync.TopicReg) (srvM : List Sync.SrvReg) (cat : RegCat) :
    unregsBeforeRegs (isRegOf cat) (isUnregOf cat)
      (Sync.passHandlers c r pubM subM srvM) = true := by
  cases cat with
  | pubc =>
    have e : Sync.passHandlers c r pubM subM srvM
        = ((Sync.setDiff pubM (Sync.desiredPublisher c r)).map
              (fun x => .upub x.topic x.node x.nodeuri))
          ++ ((Sync.publisherToRegister c r pubM).map
                (fun q => .pub q.topic q.typ q.node q.nodeuri)
              ++ ((Sync.setDiff subM (Sync.desiredSubscriber c r)).map
                    (fun x => .usub x.topic x.node x.nodeuri)
                ++ ((Sync.subscriberToRegister c r subM).map
                      (fun q => .sub q.topic q.typ q.node q.nodeuri)
                  ++ ((Sync.setDiff srvM (Sync.desiredServices c r)).map
                        (fun x => .usrv x.service x.serviceuri x.node x.nodeuri)
                    ++ (Sync.servicesToRegister c r srvM).map
                        (fun q => .srv q.service q.serviceuri q.node q.nodeuri))))) := by
      simp [Sync.passHandlers, List.append_assoc]
    rw [e]
    refine unregsBeforeRegs_append _ _ _ _ ?_ ?_
    · rintro h hh
      simp only [List.mem_map] at hh
      obtain ⟨x, -, rfl⟩ := hh
      rfl
    · rintro h hh
      simp only [List.mem_append, List.mem_map] at hh
      rcases hh with ⟨x, -, rfl⟩ | ⟨x, -, rfl⟩ | ⟨x, -, rfl⟩ | ⟨x, -, rfl⟩ | ⟨x, -, rfl⟩ <;> rfl
  | subc =>
    have e : Sync.passHandlers c r pubM subM srvM
        = (((Sync.setDiff pubM (Sync.desiredPublisher c r)).map
              (fun x => .upub x.topic x.node x.nodeuri)
            ++ ((Sync.publisherToRegister c r pubM).map
                  (fun q => .pub q.topic q.typ q.node q.nodeuri)
              ++ (Sync.setDiff subM (Sync.desiredSubscriber c r)).map
                    (fun x => .usub x.topic x.node x.nodeuri))))
          ++ ((Sync.subscriberToRegister c r subM).map
                (fun q => .sub q.topic q.typ q.node q.nodeuri)
              ++ ((Sync.setDiff srvM (Sync.desiredServices c r)).map
                    (fun x => .usrv x.service x.serviceuri x.node x.nodeuri)
                ++ (Sync.servicesToRegister c r srvM).map
                    (fun q => .srv q.service q.serviceuri q.node q.nodeuri))) := by
      simp [Sync.passHandlers, List.append_assoc]
    rw [e]
    refine unregsBeforeRegs_append _ _ _ _ ?_ ?_
    · rintro h hh
      simp only [List.mem_append, List.mem_map] at hh
      rcases hh with ⟨x, -, rfl⟩ | ⟨x, -, rfl⟩ | ⟨x, -, rfl⟩ <;> rfl
    · rintro h hh
      simp only [List.mem_append, List.mem_map] at hh
      rcases hh with ⟨x, -, rfl⟩ | ⟨x, -, rfl⟩ | ⟨x, -, rfl⟩ <;> rfl
  | srvc =>
    have e : Sync.passHandlers c r pubM subM srvM
        = (((Sync.setDiff pubM (Sync.desiredPublisher c r)).map
              (fun x => .upub x.topic x.node x.nodeuri)
            ++ ((Sync.publisherToRegister c r pubM).map
                  (fun q => .pub q.topic q.typ q.node q.nodeuri)
              ++ ((Sync.setDiff subM (Sync.desiredSubscriber c r)).map
                    (fun x => .usub x.topic x.node x.nodeuri)
                ++ ((Sync.subscriberToRegister c r subM).map
                      (fun q => .sub q.topic q.typ q.node q.nodeuri)
                  ++ (Sync.setDiff srvM (Sync.desiredServices c r)).map
                        (fun x => .usrv x.service x.serviceuri x.node x.nodeuri))))))
          ++ (Sync.servicesToRegister c r srvM).map
              (fun q => .srv q.service q.serviceuri q.node q.nodeuri) := by
      simp [Sync.passHandlers, List.append_assoc]
    rw [e]
    refine unregsBeforeRegs_append _ _ _ _ ?_ ?_
    · rintro h hh
      simp only [List.mem_append, List.mem_map] at hh
      rcases hh with ⟨x, -, rfl⟩ | ⟨x, -, rfl⟩ | ⟨x, -, rfl⟩ | ⟨x, -, rfl⟩ | ⟨x, -, rfl⟩ <;> rfl
    · rintro h hh
      simp only [List.mem_map] at hh
      obtain ⟨x, -, rfl⟩ := hh
      rfl

/-- C4 counterexample input: the pass queues exactly one register call; the
multicall result reports status code 0 (failure) for it, yet the mirrored
publisher list after the pass contains the failed item, contrary to the
claim that failed items remain outside mirrored. -/
theorem failed_register_kept_counterexample :
    Sync.passHandlers st0.ctx r0 st0.publisher st0.subscriber st0.services
      = [Sync.Handler.pub "/scan" "sensor/Scan" "/lidar" "http://h1:1"]
    ∧ (⟨"/scan", "/lidar", "http://h1:1"⟩ : Sync.TopicReg)
        ∈ (Sync.applyPassResult st0 r0 [(0, "registration failed")]).publisher := by
  constructor
  · rfl
  · exact List.mem_singleton.mpr rfl

/-- C4 (amended): the pass indeed does not abort on per-item failure, but
the mirrored lists are replaced by the full desired lists independently of
the per-item status codes; consequently an item whose registration failed
is recorded as mirrored anyway and is not queued again on an immediately
following pass against the same remote state. -/
theorem pass_advances_mirrored_regardless_of_codes (st : Sync.SyncThreadState)
    (r : Sync.RemoteState) (res1 res2 : List (Int × String)) :
    Sync.applyPassResult st r res1 = Sync.applyPassResult st r res2
    ∧ (Sync.applyPassResult st r res1).publisher = Sync.desiredPublisher st.ctx r
    ∧ (Sync.applyPassResult st r res1).subscriber = Sync.desiredSubscriber st.ctx r
    ∧ (Sync.applyPassResult st r res1).services = Sync.desiredServices st.ctx r
    ∧ Sync.publisherToRegister (Sync.applyPassResult st r res1).ctx r
        (Sync.applyPassResult st r res1).publisher = []
    ∧ Sync.subscriberToRegister (Sync.applyPassResult st r res1).ctx r
        (Sync.applyPassResult st r res1).subscriber = []
    ∧ Sync.servicesToRegister (Sync.applyPassResult st r res1).ctx r
        (Sync.applyPassResult st r res1).services = [] := by
  refine ⟨rfl, rfl, rfl, rfl, ?_, ?_, ?_⟩
  · exact toRegister_of_desired_eq_nil r.publishers
      (fun a b => Sync.resolvePub st.ctx r a b) Sync.TopicRegTyped.drop
  · exact toRegister_of_desired_eq_nil r.subscribers
      (fun a b => Sync.resolvePub st.ctx r a b) Sync.TopicRegTyped.drop
  · exact toRegister_of_desired_eq_nil_nodrop r.rservices
      (fun a b => Sync.resolveSrv st.ctx r a b)

/-! No self-mirroring: registrations owned by the local master never make
it into the desired sets. -/

/-- A node uri produced by `_getNodeUri` always stems from an entry whose
owning master is the remote master and is not the local master. -/
theorem getNodeUri_some (localU node : String) (l : List Sync.RemoteNode)
    (remote u : String)
    (h : Sync.getNodeUri localU node l remote = some u) :
    ∃ e ∈ l, e.nodename = node ∧ e.uri = u ∧ e.masteruri = remote
      ∧ e.masteruri ≠ localU := by
  induction l with
  | nil => simp [Sync.getNodeUri] at h
  | cons e rest ih =>
    rw [Sync.getNodeUri] at h
    by_cases h1 : e.nodename = node ∧ remote = e.masteruri
    · rw [if_pos h1] at h
      by_cases h2 : e.masteruri ≠ localU
      · rw [if_pos h2, Option.some.injEq] at h
        subst h
        exact ⟨e, List.mem_cons_self e rest, h1.1, rfl, h1.2.symm, h2⟩
      · rw [if_neg h2] at h
        obtain ⟨e2, he2, hprops⟩ := ih h
        exact ⟨e2, List.mem_cons_of_mem e he2, hprops⟩
    · rw [if_neg h1] at h
      obtain ⟨e2, he2, hprops⟩ := ih h
      exact ⟨e2, List.mem_cons_of_mem e he2, hprops⟩

/-- A service uri produced by `_getServiceUri` always stems from an entry
whose owning master is the remote master and is not the local master. -/
theorem getServiceUri_some (localU service : String) (l : List Sync.RemoteSrv)
    (remote u : String)
    (h : Sync.getServiceUri localU service l remote = some u) :
    ∃ e ∈ l, e.servicename = service ∧ e.uri = u ∧ e.masteruri = remote
      ∧ e.masteruri ≠ localU := by
  induction l with
  | nil => simp [Sync.getServiceUri] at h
  | cons e rest ih =>
    rw [Sync.getServiceUri] at h
    by_cases h1 : e.servicename = service ∧ remote = e.masteruri
    · rw [if_pos h1] at h
      by_cases h2 : e.masteruri ≠ localU
      · rw [if_pos h2, Option.some.injEq] at h
        subst h
        exact ⟨e, List.mem_cons_self e rest, h1.1, rfl, h1.2.symm, h2⟩
      · rw [if_neg h2] at h
        obtain ⟨e2, he2, hprops⟩ := ih h
        exact ⟨e2, List.mem_cons_of_mem e he2, hprops⟩
    · rw [if_neg h1] at h
      obtain ⟨e2, he2, hprops⟩ := ih h
      exact ⟨e2, List.mem_cons_of_mem e he2, hprops⟩

/-- When every matching node entry is owned by the local master,
`_getNodeUri` resolves to nothing. -/
theorem getNodeUri_none_of_local (localU node : String) (l : List Sync.RemoteNode)
    (remote : String)
    (h : ∀ e ∈ l, e.nodename = node → e.masteruri = localU) :
    Sync.getNodeUri localU node l remote = none := by
  induction l with
  | nil => rfl
  | cons e rest ih =>
    rw [Sync.getNodeUri]
    by_cases h1 : e.nodename = node ∧ remote = e.masteruri
    · rw [if_pos h1, if_neg (by simp [h e (List.mem_cons_self e rest) h1.1])]
      exact ih (fun e2 he2 => h e2 (List.mem_cons_of_mem e he2))
    · rw [if_neg h1]
      exact ih (fun e2 he2 => h e2 (List.mem_cons_of_mem e he2))

/-- When every matching service entry is owned by the local master,
`_getServiceUri` resolves to nothing. -/
theorem getServiceUri_none_of_local (localU service : String) (l : List Sync.RemoteSrv)
    (remote : String)
    (h : ∀ e ∈ l, e.servicename = service → e.masteruri = localU) :
    Sync.getServiceUri localU service l remote = none := by
  induction l with
  | nil => rfl
  | cons e rest ih =>
    rw [Sync.getServiceUri]
    by_cases h1 : e.servicename = service ∧ remote = e.masteruri
    · rw [if_pos h1, if_neg (by simp [h e (List.mem_cons_self e rest) h1.1])]
      exact ih (fun e2 he2 => h e2 (List.mem_cons_of_mem e he2))
    · rw [if_neg h1]
      exact ih (fun e2 he2 => h e2 (List.mem_cons_of_mem e he2))

/-- Unpacking a successful per-pair resolution of the publisher loop. -/
theorem resolvePub_some (c : Sync.SyncCtx) (r : Sync.RemoteState)
    (topic node : String) (q : Sync.TopicRegTyped)
    (h : Sync.resolvePub c r topic node = some q) :
    q.topic = topic ∧ q.node = node
    ∧ Sync.getTopicType topic r.topicTypes = some q.typ
    ∧ Sync.getNodeUri c.localMasteruri node r.nodeProviders r.remote_masteruri
        = some q.nodeuri := by
  unfold Sync.resolvePub at h
  split at h
  next tt nu htt hnu =>
    split at h
    · rw [Option.some.injEq] at h
      subst h
      exact ⟨rfl, rfl, htt, hnu⟩
    · cases h
  next => cases h

/-- Unpacking a successful per-pair resolution of the service loop. -/
theorem resolveSrv_some (c : Sync.SyncCtx) (r : Sync.RemoteState)
    (service node : String) (q : Sync.SrvReg)
    (h : Sync.resolveSrv c r service node = some q) :
    q.service = service ∧ q.node = node
    ∧ Sync.getServiceUri c.localMasteruri service r.serviceProviders r.remote_masteruri
        = some q.serviceuri
    ∧ Sync.getNodeUri c.localMasteruri node r.nodeProviders r.remote_masteruri
        = some q.nodeuri := by
  unfold Sync.resolveSrv at h
  split at h
  next su nu hsu hnu =>
    split at h
    · rw [Option.some.injEq] at h
      subst h
      exact ⟨rfl, rfl, hsu, hnu⟩
    · cases h
  next => cases h

/-- C6: nodes and services recorded with the local master as owner resolve
to no uri at all, and every registration in the desired sets stems from
provider entries owned by the remote master and different from the local
master, so no registration owned by the local master is ever mirrored
back. -/
theorem no_self_mirroring (c : Sync.SyncCtx) (r : Sync.RemoteState)
    (node service : String) :
    ((∀ e ∈ r.nodeProviders, e.nodename = node → e.masteruri = c.localMasteruri) →
        Sync.getNodeUri c.localMasteruri node r.nodeProviders r.remote_masteruri = none)
    ∧ ((∀ e ∈ r.serviceProviders, e.servicename = service → e.masteruri = c.localMasteruri) →
        Sync.getServiceUri c.localMasteruri service r.serviceProviders r.remote_masteruri = none)
    ∧ (∀ x ∈ Sync.desiredPublisher c r, ∃ e ∈ r.nodeProviders,
        e.nodename = x.node ∧ e.uri = x.nodeuri ∧ e.masteruri = r.remote_masteruri
          ∧ e.masteruri ≠ c.localMasteruri)
    ∧ (∀ x ∈ Sync.desiredSubscriber c r, ∃ e ∈ r.nodeProviders,
        e.nodename = x.node ∧ e.uri = x.nodeuri ∧ e.masteruri = r.remote_masteruri
          ∧ e.masteruri ≠ c.localMasteruri)
    ∧ (∀ x ∈ Sync.desiredServices c r,
        (∃ e ∈ r.serviceProviders, e.servicename = x.service ∧ e.uri = x.serviceuri
            ∧ e.masteruri = r.remote_masteruri ∧ e.masteruri ≠ c.localMasteruri)
        ∧ (∃ e ∈ r.nodeProviders, e.nodename = x.node ∧ e.uri = x.nodeuri
            ∧ e.masteruri = r.remote_masteruri ∧ e.masteruri ≠ c.localMasteruri)) := by
  refine ⟨fun h => getNodeUri_none_of_local _ _ _ _ h,
    fun h => getServiceUri_none_of_local _ _ _ _ h, ?_, ?_, ?_⟩
  · intro x hx
    simp only [Sync.desiredPublisher, List.mem_flatMap, List.mem_filterMap,
      Option.map_eq_some'] at hx
    obtain ⟨p, hp, n, hn, q, hq, rfl⟩ := hx
    obtain ⟨-, hqnode, -, hgn⟩ := resolvePub_some c r p.1 n q hq
    obtain ⟨e, he, h1, h2, h3, h4⟩ := getNodeUri_some _ _ _ _ _ hgn
    exact ⟨e, he, by rw [h1, Sync.TopicRegTyped.drop, hqnode], by rw [h2]; rfl, h3, h4⟩
  · intro x hx
    simp only [Sync.desiredSubscriber, List.mem_flatMap, List.mem_filterMap,
      Option.map_eq_some'] at hx
    obtain ⟨p, hp, n, hn, q, hq, rfl⟩ := hx
    obtain ⟨-, hqnode, -, hgn⟩ := resolvePub_some c r p.1 n q hq
    obtain ⟨e, he, h1, h2, h3, h4⟩ := getNodeUri_some _ _ _ _ _ hgn
    exact ⟨e, he, by rw [h1, Sync.TopicRegTyped.drop, hqnode], by rw [h2]; rfl, h3, h4⟩
  · intro x hx
    simp only [Sync.desiredServices, List.mem_flatMap, List.mem_filterMap] at hx
    obtain ⟨p, hp, n, hn, hq⟩ := hx
    obtain ⟨hqsrv, hqnode, hgs, hgn⟩ := resolveSrv_some c r p.1 n x hq
    obtain ⟨e, he, h1, h2, h3, h4⟩ := getServiceUri_some _ _ _ _ _ hgs
    obtain ⟨e2, he2, g1, g2, g3, g4⟩ := getNodeUri_some _ _ _ _ _ hgn
    exact ⟨⟨e, he, by rw [h1, hqsrv], h2, h3, h4⟩,
      ⟨e2, he2, by rw [g1, hqnode], g2, g3, g4⟩⟩

/-- Witness for C6: a locally owned node entry resolves to none, and the
desired publisher derived from `r0` stems from a remote-owned entry. -/
theorem no_self_mirroring_witness :
    Sync.getNodeUri c0.localMasteruri "/loc" rLocalOwned.nodeProviders
        rLocalOwned.remote_masteruri = none
    ∧ (∃ e ∈ r0.nodeProviders, e.nodename = "/lidar" ∧ e.uri = "http://h1:1"
        ∧ e.masteruri = r0.remote_masteruri ∧ e.masteruri ≠ c0.localMasteruri) :=
  ⟨(no_self_mirroring c0 rLocalOwned "/loc" "/s").1 (by decide),
   (no_self_mirroring c0 r0 "/x" "/s").2.2.1 ⟨"/scan", "/lidar", "http://h1:1"⟩
     (by decide)⟩

/-! The congestion-avoidance window. -/

/-- The exit time of the congestion-avoidance loop always violates the
continuation condition: at least 5 seconds have passed since the first
request, or at least 1.1 seconds since the last visible request. -/
theorem debounceLoop_exit (first : ℚ) (reqs sleeps : List ℚ) (t u : ℚ)
    (h : Sync.debounceLoop first reqs sleeps t = some u) :
    ¬ (u - first < 5 ∧ u - Sync.lastRequestAt first reqs u < 11/10) := by
  induction sleeps generalizing t with
  | nil =>
    rw [Sync.debounceLoop] at h
    split at h
    · cases h
    · next hc =>
      rw [Option.some.injEq] at h
      subst h
      exact hc
  | cons s rest ih =>
    rw [Sync.debounceLoop] at h
    split at h
    · exact ih (t + s) h
    · next hc =>
      rw [Option.some.injEq] at h
      subst h
      exact hc

/-- The loop only moves forward in time. -/
theorem debounceLoop_ge_start (first : ℚ) (reqs sleeps : List ℚ) (t u : ℚ)
    (hs : ∀ s ∈ sleeps, 0 ≤ s)
    (h : Sync.debounceLoop first reqs sleeps t = some u) : t ≤ u := by
  induction sleeps generalizing t with
  | nil =>
    rw [Sync.debounceLoop] at h
    split at h
    · cases h
    · rw [Option.some.injEq] at h
      exact le_of_eq h
  | cons s rest ih =>
    rw [Sync.debounceLoop] at h
    split at h
    · have h1 : t + s ≤ u := ih (t + s) (fun x hx => hs x (List.mem_cons_of_mem s hx)) h
      have h0 : 0 ≤ s := hs s (List.mem_cons_self s rest)
      linarith
    · rw [Option.some.injEq] at h
      exact le_of_eq h

/-- With every sleep below 2 seconds, the loop exits immediately or
strictly before 7 seconds after the first request. -/
theorem debounceLoop_upper (first : ℚ) (reqs sleeps : List ℚ) (t u : ℚ)
    (hs : ∀ s ∈ sleeps, s < 2)
    (h : Sync.debounceLoop first reqs sleeps t = some u) :
    u = t ∨ u < first + 7 := by
  induction sleeps generalizing t with
  | nil =>
    rw [Sync.debounceLoop] at h
    split at h
    · cases h
    · rw [Option.some.injEq] at h
      exact Or.inl h.symm
  | cons s rest ih =>
    rw [Sync.debounceLoop] at h
    split at h
    · next hc =>
      rcases ih (t + s) (fun x hx => hs x (List.mem_cons_of_mem s hx)) h with h1 | h1
      · right
        have h2 : s < 2 := hs s (List.mem_cons_self s rest)
        have h3 : t - first < 5 := hc.1
        rw [h1]
        linarith
      · exact Or.inr h1
    · rw [Option.some.injEq] at h
      exact Or.inl h.symm

/-- In a sorted list, every element is at most the last one. -/
theorem sorted_le_getLast {l : List ℚ} {a b : ℚ} (h : l.Pairwise (· ≤ ·))
    (ha : a ∈ l) (hb : l.getLast? = some b) : a ≤ b := by
  induction l with
  | nil => cases ha
  | cons x rest ih =>
    cases rest with
    | nil =>
      rcases List.mem_singleton.mp ha with rfl
      have hb2 : some a = some b := hb
      rw [Option.some.injEq] at hb2
      exact le_of_eq hb2
    | cons y rest2 =>
      have hb2 : (y :: rest2).getLast? = some b := hb
      rcases List.mem_cons.mp ha with rfl | ha2
      · have hbmem : b ∈ y :: rest2 := by
          obtain ⟨hne, hbl⟩ := List.mem_getLast?_eq_getLast hb2
          rw [hbl]
          exact List.getLast_mem hne
        exact (List.pairwise_cons.mp h).1 b hbmem
      · exact ih (List.pairwise_cons.mp h).2 ha2 hb2

/-- Every request delivered by time `t` is at most the last visible
request at `t`. -/
theorem le_lastRequestAt (first t a : ℚ) (reqs : List ℚ)
    (hpw : reqs.Pairwise (· ≤ ·)) (ha : a ∈ reqs) (hat : a ≤ t) :
    a ≤ Sync.lastRequestAt first reqs t := by
  have hmem : a ∈ reqs.filter (fun r => decide (r ≤ t)) :=
    List.mem_filter.mpr ⟨ha, by simp [hat]⟩
  have hpf : (reqs.filter (fun r => decide (r ≤ t))).Pairwise (· ≤ ·) :=
    hpw.sublist (List.filter_sublist reqs)
  cases hlast : (reqs.filter (fun r => decide (r ≤ t))).getLast? with
  | none =>
    rw [List.getLast?_eq_none_iff] at hlast
    rw [hlast] at hmem
    cases hmem
  | some b =>
    have hab := sorted_le_getLast hpf hmem hlast
    unfold Sync.lastRequestAt
    rw [hlast]
    exact hab

/-- When every request is visible, the last visible request is the last
request of the burst. -/
theorem lastRequestAt_all_le (first t : ℚ) (reqs : List ℚ)
    (h : ∀ r ∈ reqs, r ≤ t) :
    Sync.lastRequestAt first reqs t = reqs.getLast?.getD first := by
  unfold Sync.lastRequestAt
  rw [List.filter_eq_self.mpr (fun a ha => by simp [h a ha])]

/-- In a burst whose consecutive requests are at most 1/5 second apart, if
every delivered request is at least 1/5 second old at `t`, then the whole
burst is delivered at `t`. -/
theorem chain_gap_all_le (reqs : List ℚ) (t : ℚ) : ∀ (r1 : ℚ),
    List.Chain' (fun a b => a ≤ b ∧ b - a ≤ 1/5) reqs →
    reqs.head? = some r1 → r1 ≤ t →
    (∀ a ∈ reqs, a ≤ t → 1/5 ≤ t - a) →
    ∀ r ∈ reqs, r ≤ t := by
  induction reqs with
  | nil => intro r1 _ _ _ _ r hr; cases hr
  | cons x rest ih =>
    intro r1 hchain hhead hr1 hfar r hr
    rw [List.head?_cons, Option.some.injEq] at hhead
    subst hhead
    rcases List.mem_cons.mp hr with rfl | hr2
    · exact hr1
    · cases rest with
      | nil => cases hr2
      | cons b rest2 =>
        have hab := List.chain'_cons.mp hchain
        have hfarx : 1/5 ≤ t - x := hfar x (List.mem_cons_self x _) hr1
        have hb : b ≤ t := by
          have h2 := hab.1.2
          linarith
        exact ih b hab.2 rfl hb
          (fun z hz hzle => hfar z (List.mem_cons_of_mem x hz) hzle) r hr2

/-- C5 (amended): the reconciliation pass triggered by a burst starts at a
time `u` such that either at least 1.1 seconds have passed since the last
request of the burst, or at least 5 seconds since the first request (the
5-second ceiling overrides the 1.1-second quiet requirement for long
bursts); and, because the loop only rechecks the window after a sleep of
up to 2 seconds, `u` is bounded by 7 — not 5 — seconds after the first
request. -/
theorem debounce_window_bounds (reqs sleeps : List ℚ) (first t0 u : ℚ)
    (hfirst : reqs.head? = some first)
    (hchain : List.Chain' (fun a b => a ≤ b ∧ b - a ≤ 1/5) reqs)
    (ht0l : first ≤ t0) (ht0u : t0 ≤ first + 5)
    (hs : ∀ s ∈ sleeps, 0 ≤ s ∧ s < 2)
    (hrun : Sync.debounceLoop first reqs sleeps t0 = some u) :
    (reqs.getLast?.getD first + 11/10 ≤ u ∨ first + 5 ≤ u) ∧ u < first + 7 := by
  have hup : u = t0 ∨ u < first + 7 :=
    debounceLoop_upper first reqs sleeps t0 u (fun s hs2 => (hs s hs2).2) hrun
  have hcl : u < first + 7 := by
    rcases hup with rfl | h
    · linarith
    · exact h
  refine ⟨?_, hcl⟩
  have hexit := debounceLoop_exit first reqs sleeps t0 u hrun
  rw [not_and_or, not_lt, not_lt] at hexit
  rcases hexit with h5 | h11
  · right
    linarith
  · left
    have htu : t0 ≤ u :=
      debounceLoop_ge_start first reqs sleeps t0 u (fun s hs2 => (hs s hs2).1) hrun
    have hpw : reqs.Pairwise (· ≤ ·) :=
      List.chain'_iff_pairwise.mp (List.Chain'.imp (fun a b hab => hab.1) hchain)
    have hall : ∀ r ∈ reqs, r ≤ u := by
      apply chain_gap_all_le reqs u first hchain hfirst (le_trans ht0l htu)
      intro a ha hale
      have := le_lastRequestAt first u a reqs hpw ha hale
      linarith
    rw [lastRequestAt_all_le first u reqs hall] at h11
    linarith

/-- Evaluation rule: last element of an empty list. -/
theorem getLastq_nil : ([] : List ℚ).getLast? = none := rfl

/-- Evaluation rule: last element of a one-element list. -/
theorem getLastq_singleton (a : ℚ) : ([a] : List ℚ).getLast? = some a := rfl

/-- Evaluation rule: last element of a longer list. -/
theorem getLastq_cons_cons (a b : ℚ) (l : List ℚ) :
    (a :: b :: l).getLast? = (b :: l).getLast? := rfl

/-- Witness for the amended C5 theorem: a single request at time 0 and one
sleep of 1.5 seconds make the pass start at time 1.5. -/
theorem debounce_window_bounds_witness :
    (([0] : List ℚ).getLast?.getD 0 + 11/10 ≤ 3/2 ∨ (0 : ℚ) + 5 ≤ 3/2)
    ∧ (3/2 : ℚ) < 0 + 7 :=
  debounce_window_bounds [0] [3/2] 0 0 (3/2) rfl (by simp) (by norm_num) (by norm_num)
    (by
      intro s hs
      rw [List.mem_singleton] at hs
      subst hs
      norm_num)
    (by norm_num [Sync.debounceLoop, Sync.lastRequestAt, List.filter_cons,
      getLastq_singleton, getLastq_nil])

/-- C5 counterexample input: under the burst `burstC` (requests 200ms
apart) and three sleeps of 1.9 seconds each (the source sleeps
`random.random() * 2`), the loop rechecks at times 0, 1.9 and 3.8 — each
time within both windows — and exits only at time 5.7, which is later
than 5 seconds after the first request, contradicting the claimed upper
bound. -/
theorem debounce_ceiling_counterexample :
    List.Chain' (fun a b => a ≤ b ∧ b - a ≤ 1/5) burstC
    ∧ burstC.head? = some 0
    ∧ (∀ s ∈ ([19/10, 19/10, 19/10] : List ℚ), 0 ≤ s ∧ s < 2)
    ∧ Sync.debounceLoop 0 burstC [19/10, 19/10, 19/10] 0 = some (57/10)
    ∧ ¬ ((57 : ℚ)/10 ≤ 0 + 5) := by
  refine ⟨?_, rfl, ?_, ?_, by norm_num⟩
  · norm_num [burstC, List.chain'_cons]
  · intro s hs
    simp only [List.mem_cons, List.not_mem_nil, or_false] at hs
    rcases hs with rfl | rfl | rfl <;> norm_num
  · norm_num [Sync.debounceLoop, Sync.lastRequestAt, burstC, List.filter_cons,
      getLastq_singleton, getLastq_cons_cons, getLastq_nil]

/-! Association-list lemmas for the round-trip proof. -/

/-- Lookup after an insert, same key. -/
theorem alookup_ainsert_self {α : Type} (l : List (String × α)) (k : String) (v : α) :
    alookup (ainsert l k v) k = some ((alookup l k).getD v) := by
  unfold ainsert
  cases h : alookup l k with
  | some w =>
    rw [h]
    rfl
  | none =>
    induction l with
    | nil => simp [alookup]
    | cons p rest ih =>
      obtain ⟨pk, pv⟩ := p
      rw [alookup] at h
      by_cases hp : pk = k
      · rw [if_pos hp] at h
        cases h
      · rw [if_neg hp] at h
        show alookup ((pk, pv) :: (rest ++ [(k, v)])) k = some v
        rw [alookup, if_neg hp]
        exact ih h

/-- Lookup after an insert, different key. -/
theorem alookup_ainsert_ne {α : Type} (l : List (String × α)) (k k2 : String) (v : α)
    (h : k2 ≠ k) : alookup (ainsert l k v) k2 = alookup l k2 := by
  unfold ainsert
  cases alookup l k with
  | some w => rfl
  | none =>
    induction l with
    | nil =>
      have hstep : alookup ((k, v) :: ([] : List (String × α))) k2
          = if k = k2 then some v else alookup ([] : List (String × α)) k2 := rfl
      show alookup ((k, v) :: ([] : List (String × α))) k2 = alookup ([] : List (String × α)) k2
      rw [hstep, if_neg (fun hh => h hh.symm)]
    | cons p rest ih =>
      obtain ⟨pk, pv⟩ := p
      show alookup ((pk, pv) :: (rest ++ [(k, v)])) k2 = alookup ((pk, pv) :: rest) k2
      rw [alookup, alookup]
      by_cases hp : pk = k2
      · rw [if_pos hp, if_pos hp]
      · rw [if_neg hp, if_neg hp]
        exact ih

/-- Lookup after an in-place update, same key. -/
theorem alookup_amodify_self {α : Type} (l : List (String × α)) (k : String) (f : α → α) :
    alookup (amodify l k f) k = (alookup l k).map f := by
  induction l with
  | nil => rfl
  | cons p rest ih =>
    obtain ⟨pk, pv⟩ := p
    have hstep : amodify ((pk, pv) :: rest) k f
        = (if pk = k then (pk, f pv) else (pk, pv)) :: amodify rest k f := rfl
    rw [hstep]
    by_cases hp : pk = k
    · rw [if_pos hp, alookup, if_pos hp, alookup, if_pos hp]
      rfl
    · rw [if_neg hp, alookup, if_neg hp, alookup, if_neg hp]
      exact ih

/-- Lookup after an in-place update, different key. -/
theorem alookup_amodify_ne {α : Type} (l : List (String × α)) (k k2 : String) (f : α → α)
    (h : k2 ≠ k) : alookup (amodify l k f) k2 = alookup l k2 := by
  induction l with
  | nil => rfl
  | cons p rest ih =>
    obtain ⟨pk, pv⟩ := p
    have hstep : amodify ((pk, pv) :: rest) k f
        = (if pk = k then (pk, f pv) else (pk, pv)) :: amodify rest k f := rfl
    rw [hstep]
    by_cases hp : pk = k
    · have hp2 : ¬ pk = k2 := fun hh => h (hh ▸ hp)
      rw [if_pos hp, alookup, if_neg hp2, alookup, if_neg hp2]
      exact ih
    · rw [if_neg hp, alookup, alookup]
      by_cases hp2 : pk = k2
      · rw [if_pos hp2, if_pos hp2]
      · rw [if_neg hp2, if_neg hp2]
        exact ih

/-- A key is present exactly when lookup succeeds. -/
theorem mem_keys_iff_isSome {α : Type} (l : List (String × α)) (k : String) :
    k ∈ l.map Prod.fst ↔ (alookup l k).isSome := by
  induction l with
  | nil => simp [alookup]
  | cons p rest ih =>
    obtain ⟨pk, pv⟩ := p
    rw [List.map_cons, List.mem_cons, alookup]
    by_cases hp : pk = k
    · simp [hp]
    · rw [if_neg hp]
      simp only [ih]
      constructor
      · rintro (h | h)
        · exact absurd h.symm hp
        · exact h
      · exact Or.inr

/-- Keys after an in-place update. -/
theorem keys_amodify {α : Type} (l : List (String × α)) (k : String) (f : α → α) :
    (amodify l k f).map Prod.fst = l.map Prod.fst := by
  induction l with
  | nil => rfl
  | cons p rest ih =>
    obtain ⟨pk, pv⟩ := p
    have hstep : amodify ((pk, pv) :: rest) k f
        = (if pk = k then (pk, f pv) else (pk, pv)) :: amodify rest k f := rfl
    rw [hstep]
    by_cases hp : pk = k
    · rw [if_pos hp, List.map_cons, List.map_cons, ih]
    · rw [if_neg hp, List.map_cons, List.map_cons, ih]

/-- Keys after an insert. -/
theorem keys_ainsert {α : Type} (l : List (String × α)) (k : String) (v : α) :
    (ainsert l k v).map Prod.fst
      = if (alookup l k).isSome then l.map Prod.fst else l.map Prod.fst ++ [k] := by
  unfold ainsert
  cases alookup l k with
  | some w => rfl
  | none => simp

/-- Distinct keys survive an insert. -/
theorem nodup_keys_ainsert {α : Type} (l : List (String × α)) (k : String) (v : α)
    (h : (l.map Prod.fst).Nodup) : ((ainsert l k v).map Prod.fst).Nodup := by
  rw [keys_ainsert]
  cases hl : alookup l k with
  | some w => simpa using h
  | none =>
    simp only [Option.isSome_none, Bool.false_eq_true, if_false]
    rw [List.nodup_append]
    refine ⟨h, List.nodup_singleton k, ?_⟩
    intro a ha hb
    rw [List.mem_singleton] at hb
    subst hb
    rw [mem_keys_iff_isSome, hl] at ha
    cases ha

/-- Under distinct keys, list membership of an entry is exactly a
successful lookup. -/
theorem mem_iff_alookup {α : Type} (l : List (String × α)) (k : String) (v : α)
    (h : (l.map Prod.fst).Nodup) : (k, v) ∈ l ↔ alookup l k = some v := by
  induction l with
  | nil => simp [alookup]
  | cons p rest ih =>
    obtain ⟨pk, pv⟩ := p
    rw [List.map_cons, List.nodup_cons] at h
    rw [List.mem_cons, alookup]
    by_cases hp : pk = k
    · subst hp
      rw [if_pos rfl]
      constructor
      · rintro (heq | hmem)
        · rw [Prod.mk.injEq] at heq
          rw [heq.2]
        · exact absurd (List.mem_map_of_mem Prod.fst hmem) h.1
      · rintro hv
        rw [Option.some.injEq] at hv
        subst hv
        exact Or.inl rfl
    · rw [if_neg hp, ih h.2]
      constructor
      · rintro (heq | hmem)
        · rw [Prod.mk.injEq] at heq
          exact absurd heq.1.symm hp
        · exact hmem
      · exact Or.inr

/-- Boolean set equality as a biconditional on membership. -/
theorem sameSet_true_iff {α : Type} [DecidableEq α] (xs ys : List α) :
    sameSet xs ys = true ↔ ∀ x, (x ∈ xs ↔ x ∈ ys) := by
  unfold sameSet
  rw [Bool.and_eq_true, List.all_eq_true, List.all_eq_true]
  constructor
  · rintro ⟨h1, h2⟩ x
    constructor
    · intro hx
      simpa using h1 x hx
    · intro hx
      simpa using h2 x hx
  · intro h
    constructor
    · intro x hx
      simpa using (h x).mp hx
    · intro x hx
      simpa using (h x).mpr hx

namespace Disc

/-- A projection preserved by every step is preserved by the fold. -/
theorem foldl_field_eq {α β : Type} (f : MasterInfo → α → MasterInfo) (g : MasterInfo → β)
    (hf : ∀ m a, g (f m a) = g m) (l : List α) (m : MasterInfo) :
    g (l.foldl f m) = g m := by
  induction l generalizing m with
  | nil => rfl
  | cons a rest ih => rw [List.foldl_cons, ih, hf]

/-- The master URI survives every constructor step. -/
theorem masteruri_addNode (m : MasterInfo) (n : String) :
    (m.addNode n).masteruri = m.masteruri := by
  unfold MasterInfo.addNode
  split <;> rfl

/-- The master URI survives adding a topic. -/
theorem masteruri_addTopic (m : MasterInfo) (t : String) :
    (m.addTopic t).masteruri = m.masteruri := by
  unfold MasterInfo.addTopic
  split <;> rfl

/-- The master URI survives adding a service. -/
theorem masteruri_addService (m : MasterInfo) (s : String) :
    (m.addService s).masteruri = m.masteruri := by
  unfold MasterInfo.addService
  split <;> rfl

/-- The node list survives adding a topic. -/
theorem nodelist_addTopic (m : MasterInfo) (t : String) :
    (m.addTopic t).nodelist = m.nodelist := by
  unfold MasterInfo.addTopic
  split <;> rfl

/-- The node list survives adding a service. -/
theorem nodelist_addService (m : MasterInfo) (s : String) :
    (m.addService s).nodelist = m.nodelist := by
  unfold MasterInfo.addService
  split <;> rfl

/-- The topic list survives adding a node. -/
theorem topiclist_addNode (m : MasterInfo) (n : String) :
    (m.addNode n).topiclist = m.topiclist := by
  unfold MasterInfo.addNode
  split <;> rfl

/-- The topic list survives adding a service. -/
theorem topiclist_addService (m : MasterInfo) (s : String) :
    (m.addService s).topiclist = m.topiclist := by
  unfold MasterInfo.addService
  split <;> rfl

/-- The service list survives adding a node. -/
theorem servicelist_addNode (m : MasterInfo) (n : String) :
    (m.addNode n).servicelist = m.servicelist := by
  unfold MasterInfo.addNode
  split <;> rfl

/-- The service list survives adding a topic. -/
theorem servicelist_addTopic (m : MasterInfo) (t : String) :
    (m.addTopic t).servicelist = m.servicelist := by
  unfold MasterInfo.addTopic
  split <;> rfl

/-- Lookup of a node after inserting it. -/
theorem getNode_addNode_self (m : MasterInfo) (n : String) (hn : n ≠ "") :
    (m.addNode n).getNode n
      = some ((alookup m.nodelist n).getD (NodeInfo.mk0 n m.masteruri)) := by
  unfold MasterInfo.addNode MasterInfo.getNode
  rw [if_neg hn]
  simp only [if_neg hn]
  exact alookup_ainsert_self m.nodelist n (NodeInfo.mk0 n m.masteruri)

/-- Lookup of another node after an insert. -/
theorem getNode_addNode_ne (m : MasterInfo) (n k : String) (hk : k ≠ n) :
    (m.addNode n).getNode k = m.getNode k := by
  unfold MasterInfo.addNode MasterInfo.getNode
  by_cases hn : n = ""
  · rw [if_pos hn]
  · rw [if_neg hn]
    by_cases hke : k = ""
    · rw [if_pos hke, if_pos hke]
    · rw [if_neg hke, if_neg hke]
      exact alookup_ainsert_ne m.nodelist n k _ hk

/-- Lookup of a node after updating it in place. -/
theorem getNode_modNode_self (m : MasterInfo) (n : String) (f : NodeInfo → NodeInfo) :
    (m.modNode n f).getNode n = (m.getNode n).map f := by
  unfold MasterInfo.modNode MasterInfo.getNode
  by_cases hn : n = ""
  · rw [if_pos hn, if_pos hn]
    rfl
  · rw [if_neg hn, if_neg hn]
    exact alookup_amodify_self m.nodelist n f

/-- Lookup of another node after an in-place update. -/
theorem getNode_modNode_ne (m : MasterInfo) (n k : String) (f : NodeInfo → NodeInfo)
    (hk : k ≠ n) : (m.modNode n f).getNode k = m.getNode k := by
  unfold MasterInfo.modNode MasterInfo.getNode
  by_cases hke : k = ""
  · rw [if_pos hke, if_pos hke]
  · rw [if_neg hke, if_neg hke]
    exact alookup_amodify_ne m.nodelist n k f hk

/-- Lookup of a topic after inserting it. -/
theorem getTopic_addTopic_self (m : MasterInfo) (t : String) (ht : t ≠ "") :
    (m.addTopic t).getTopic t
      = some ((alookup m.topiclist t).getD (TopicInfo.mk0 t)) := by
  unfold MasterInfo.addTopic MasterInfo.getTopic
  rw [if_neg ht]
  simp only [if_neg ht]
  exact alookup_ainsert_self m.topiclist t (TopicInfo.mk0 t)

/-- Lookup of another topic after an insert. -/
theorem getTopic_addTopic_ne (m : MasterInfo) (t k : String) (hk : k ≠ t) :
    (m.addTopic t).getTopic k = m.getTopic k := by
  unfold MasterInfo.addTopic MasterInfo.getTopic
  by_cases ht : t = ""
  · rw [if_pos ht]
  · rw [if_neg ht]
    by_cases hke : k = ""
    · rw [if_pos hke, if_pos hke]
    · rw [if_neg hke, if_neg hke]
      exact alookup_ainsert_ne m.topiclist t k _ hk

/-- Lookup of a topic after updating it in place. -/
theorem getTopic_modTopic_self (m : MasterInfo) (t : String) (f : TopicInfo → TopicInfo) :
    (m.modTopic t f).getTopic t = (m.getTopic t).map f := by
  unfold MasterInfo.modTopic MasterInfo.getTopic
  by_cases ht : t = ""
  · rw [if_pos ht, if_pos ht]
    rfl
  · rw [if_neg ht, if_neg ht]
    exact alookup_amodify_self m.topiclist t f

/-- Lookup of another topic after an in-place update. -/
theorem getTopic_modTopic_ne (m : MasterInfo) (t k : String) (f : TopicInfo → TopicInfo)
    (hk : k ≠ t) : (m.modTopic t f).getTopic k = m.getTopic k := by
  unfold MasterInfo.modTopic MasterInfo.getTopic
  by_cases hke : k = ""
  · rw [if_pos hke, if_pos hke]
  · rw [if_neg hke, if_neg hke]
    exact alookup_amodify_ne m.topiclist t k f hk

/-- Lookup of a service after inserting it. -/
theorem getService_addService_self (m : MasterInfo) (s : String) (hs : s ≠ "") :
    (m.addService s).getService s
      = some ((alookup m.servicelist s).getD (ServiceInfo.mk0 s m.masteruri)) := by
  unfold MasterInfo.addService MasterInfo.getService
  rw [if_neg hs]
  simp only [if_neg hs]
  exact alookup_ainsert_self m.servicelist s (ServiceInfo.mk0 s m.masteruri)

/-- Lookup of another service after an insert. -/
theorem getService_addService_ne (m : MasterInfo) (s k : String) (hk : k ≠ s) :
    (m.addService s).getService k = m.getService k := by
  unfold MasterInfo.addService MasterInfo.getService
  by_cases hs : s = ""
  · rw [if_pos hs]
  · rw [if_neg hs]
    by_cases hke : k = ""
    · rw [if_pos hke, if_pos hke]
    · rw [if_neg hke, if_neg hke]
      exact alookup_ainsert_ne m.servicelist s k _ hk

/-- Lookup of a service after updating it in place. -/
theorem getService_modService_self (m : MasterInfo) (s : String)
    (f : ServiceInfo → ServiceInfo) :
    (m.modService s f).getService s = (m.getService s).map f := by
  unfold MasterInfo.modService MasterInfo.getService
  by_cases hs : s = ""
  · rw [if_pos hs, if_pos hs]
    rfl
  · rw [if_neg hs, if_neg hs]
    exact alookup_amodify_self m.servicelist s f

/-- Lookup of another service after an in-place update. -/
theorem getService_modService_ne (m : MasterInfo) (s k : String)
    (f : ServiceInfo → ServiceInfo) (hk : k ≠ s) :
    (m.modService s f).getService k = m.getService k := by
  unfold MasterInfo.modService MasterInfo.getService
  by_cases hke : k = ""
  · rw [if_pos hke, if_pos hke]
  · rw [if_neg hke, if_neg hke]
    exact alookup_amodify_ne m.servicelist s k f hk

/-- A node lookup ignores topic insertion. -/
theorem getNode_addTopic (m : MasterInfo) (t k : String) :
    (m.addTopic t).getNode k = m.getNode k := by
  unfold MasterInfo.getNode
  rw [nodelist_addTopic]

/-- A node lookup ignores topic mutation. -/
theorem getNode_modTopic (m : MasterInfo) (t k : String) (f : TopicInfo → TopicInfo) :
    (m.modTopic t f).getNode k = m.getNode k := rfl

/-- A node lookup ignores service insertion. -/
theorem getNode_addService (m : MasterInfo) (s k : String) :
    (m.addService s).getNode k = m.getNode k := by
  unfold MasterInfo.getNode
  rw [nodelist_addService]

/-- A node lookup ignores service mutation. -/
theorem getNode_modService (m : MasterInfo) (s k : String)
    (f : ServiceInfo → ServiceInfo) : (m.modService s f).getNode k = m.getNode k := rfl

/-- A topic lookup ignores node insertion. -/
theorem getTopic_addNode (m : MasterInfo) (n k : String) :
    (m.addNode n).getTopic k = m.getTopic k := by
  unfold MasterInfo.getTopic
  rw [topiclist_addNode]

/-- A topic lookup ignores node mutation. -/
theorem getTopic_modNode (m : MasterInfo) (n k : String) (f : NodeInfo → NodeInfo) :
    (m.modNode n f).getTopic k = m.getTopic k := rfl

/-- A topic lookup ignores service insertion. -/
theorem getTopic_addService (m : MasterInfo) (s k : String) :
    (m.addService s).getTopic k = m.getTopic k := by
  unfold MasterInfo.getTopic
  rw [topiclist_addService]

/-- A topic lookup ignores service mutation. -/
theorem getTopic_modService (m : MasterInfo) (s k : String)
    (f : ServiceInfo → ServiceInfo) : (m.modService s f).getTopic k = m.getTopic k := rfl

/-- A service lookup ignores node insertion. -/
theorem getService_addNode (m : MasterInfo) (n k : String) :
    (m.addNode n).getService k = m.getService k := by
  unfold MasterInfo.getService
  rw [servicelist_addNode]

/-- A service lookup ignores node mutation. -/
theorem getService_modNode (m : MasterInfo) (n k : String) (f : NodeInfo → NodeInfo) :
    (m.modNode n f).getService k = m.getService k := rfl

/-- A service lookup ignores topic insertion. -/
theorem getService_addTopic (m : MasterInfo) (t k : String) :
    (m.addTopic t).getService k = m.getService k := by
  unfold MasterInfo.getService
  rw [servicelist_addTopic]

/-- A service lookup ignores topic mutation. -/
theorem getService_modTopic (m : MasterInfo) (t k : String) (f : TopicInfo → TopicInfo) :
    (m.modTopic t f).getService k = m.getService k := rfl

/-- A mutation through a present node succeeds. -/
theorem withNode_eq_some (m : MasterInfo) (n : String) (f : NodeInfo → NodeInfo)
    (h : (m.getNode n).isSome) : m.withNode n f = some (m.modNode n f) := by
  unfold MasterInfo.withNode
  cases hg : m.getNode n with
  | none =>
    rw [hg] at h
    cases h
  | some nd => rfl

/-- A mutation through a present topic succeeds. -/
theorem withTopic_eq_some (m : MasterInfo) (t : String) (f : TopicInfo → TopicInfo)
    (h : (m.getTopic t).isSome) : m.withTopic t f = some (m.modTopic t f) := by
  unfold MasterInfo.withTopic
  cases hg : m.getTopic t with
  | none =>
    rw [hg] at h
    cases h
  | some v => rfl

/-- A mutation through a present service succeeds. -/
theorem withService_eq_some (m : MasterInfo) (s : String)
    (f : ServiceInfo → ServiceInfo) (h : (m.getService s).isSome) :
    m.withService s f = some (m.modService s f) := by
  unfold MasterInfo.withService
  cases hg : m.getService s with
  | none =>
    rw [hg] at h
    cases h
  | some v => rfl

/-- An option-valued fold agreeing pointwise with a total fold under an
invariant returns the total fold. -/
theorem foldlM_eq_foldl {α : Type} (f : MasterInfo → α → Option MasterInfo)
    (g : MasterInfo → α → MasterInfo) (P : MasterInfo → Prop) (l : List α) :
    ∀ m, P m →
    (∀ acc a, a ∈ l → P acc → f acc a = some (g acc a) ∧ P (g acc a)) →
    l.foldlM f m = some (l.foldl g m) := by
  induction l with
  | nil => intro m _ _; rfl
  | cons a rest ih =>
    intro m hP h
    have ha := h m a (List.mem_cons_self a rest) hP
    rw [List.foldl_cons, List.foldlM_cons, ha.1]
    show rest.foldlM f (g m a) = some (rest.foldl g (g m a))
    exact ih (g m a) ha.2 (fun acc b hb hPacc => h acc b (List.mem_cons_of_mem a hb) hPacc)

/-- The publisher loop of `from_list` never fails on nonempty names and
equals its total counterpart. -/
theorem applyPub_eq_total (m : MasterInfo) (p : String × List String)
    (ht : p.1 ≠ "") (hn : ∀ n ∈ p.2, n ≠ "") :
    applyPub m p = some (applyPubT m p) := by
  unfold applyPub applyPubT
  refine foldlM_eq_foldl _ _ (fun acc => (acc.getTopic p.1).isSome) p.2 (m.addTopic p.1)
    ?_ ?_
  · show ((m.addTopic p.1).getTopic p.1).isSome = true
    rw [getTopic_addTopic_self m p.1 ht]
    rfl
  · intro acc n hmem hP
    have hguri : ((acc.addNode n).getNode n).isSome := by
      rw [getNode_addNode_self acc n (hn n hmem)]
      rfl
    have htop : ((acc.addNode n).modNode n
        (fun nd => nd.addPublishedTopic p.1)).getTopic p.1 = acc.getTopic p.1 := by
      rw [getTopic_modNode, getTopic_addNode]
    constructor
    · show ((acc.addNode n).withNode n (fun nd => nd.addPublishedTopic p.1)).bind
        (fun acc2 => acc2.withTopic p.1 (fun t => t.addPublisherNode n)) = some _
      rw [withNode_eq_some _ _ _ hguri]
      show ((acc.addNode n).modNode n (fun nd => nd.addPublishedTopic p.1)).withTopic
        p.1 (fun t => t.addPublisherNode n) = some _
      rw [withTopic_eq_some _ _ _ (by rw [htop]; exact hP)]
    · show ((((acc.addNode n).modNode n (fun nd => nd.addPublishedTopic p.1)).modTopic
        p.1 (fun t => t.addPublisherNode n)).getTopic p.1).isSome = true
      rw [getTopic_modTopic_self, htop]
      simpa using hP

/-- The subscriber loop of `from_list` never fails on nonempty names. -/
theorem applySub_eq_total (m : MasterInfo) (p : String × List String)
    (ht : p.1 ≠ "") (hn : ∀ n ∈ p.2, n ≠ "") :
    applySub m p = some (applySubT m p) := by
  unfold applySub applySubT
  refine foldlM_eq_foldl _ _ (fun acc => (acc.getTopic p.1).isSome) p.2 (m.addTopic p.1)
    ?_ ?_
  · show ((m.addTopic p.1).getTopic p.1).isSome = true
    rw [getTopic_addTopic_self m p.1 ht]
    rfl
  · intro acc n hmem hP
    have hguri : ((acc.addNode n).getNode n).isSome := by
      rw [getNode_addNode_self acc n (hn n hmem)]
      rfl
    have htop : ((acc.addNode n).modNode n
        (fun nd => nd.addSubscribedTopic p.1)).getTopic p.1 = acc.getTopic p.1 := by
      rw [getTopic_modNode, getTopic_addNode]
    constructor
    · show ((acc.addNode n).withNode n (fun nd => nd.addSubscribedTopic p.1)).bind
        (fun acc2 => acc2.withTopic p.1 (fun t => t.addSubscriberNode n)) = some _
      rw [withNode_eq_some _ _ _ hguri]
      show ((acc.addNode n).modNode n (fun nd => nd.addSubscribedTopic p.1)).withTopic
        p.1 (fun t => t.addSubscriberNode n) = some _
      rw [withTopic_eq_some _ _ _ (by rw [htop]; exact hP)]
    · show ((((acc.addNode n).modNode n (fun nd => nd.addSubscribedTopic p.1)).modTopic
        p.1 (fun t => t.addSubscriberNode n)).getTopic p.1).isSome = true
      rw [getTopic_modTopic_self, htop]
      simpa using hP

/-- The service loop of `from_list` never fails on nonempty names. -/
theorem applySrv_eq_total (m : MasterInfo) (p : String × List String)
    (ht : p.1 ≠ "") (hn : ∀ n ∈ p.2, n ≠ "") :
    applySrv m p = some (applySrvT m p) := by
  unfold applySrv applySrvT
  refine foldlM_eq_foldl _ _ (fun acc => (acc.getService p.1).isSome) p.2 (m.addService p.1)
    ?_ ?_
  · show ((m.addService p.1).getService p.1).isSome = true
    rw [getService_addService_self m p.1 ht]
    rfl
  · intro acc n hmem hP
    have hguri : ((acc.addNode n).getNode n).isSome := by
      rw [getNode_addNode_self acc n (hn n hmem)]
      rfl
    have hsv : ((acc.addNode n).modNode n
        (fun nd => nd.addServiceName p.1)).getService p.1 = acc.getService p.1 := by
      rw [getService_modNode, getService_addNode]
    constructor
    · show ((acc.addNode n).withNode n (fun nd => nd.addServiceName p.1)).bind
        (fun acc2 => acc2.withService p.1 (fun s => s.addProvider n)) = some _
      rw [withNode_eq_some _ _ _ hguri]
      show ((acc.addNode n).modNode n (fun nd => nd.addServiceName p.1)).withService
        p.1 (fun s => s.addProvider n) = some _
      rw [withService_eq_some _ _ _ (by rw [hsv]; exact hP)]
    · show ((((acc.addNode n).modNode n (fun nd => nd.addServiceName p.1)).modService
        p.1 (fun s => s.addProvider n)).getService p.1).isSome = true
      rw [getService_modService_self, hsv]
      simpa using hP

/-- The topic-type loop of `from_list` never fails on nonempty names. -/
theorem applyTopicType_eq_total (m : MasterInfo) (p : String × Option String)
    (ht : p.1 ≠ "") : applyTopicType m p = some (applyTopicTypeT m p) := by
  unfold applyTopicType applyTopicTypeT
  exact withTopic_eq_some _ _ _ (by rw [getTopic_addTopic_self m p.1 ht]; rfl)

/-- The node-information loop of `from_list` never fails on nonempty names. -/
theorem applyNodeEntry_eq_total (m : MasterInfo) (e : NodeEntry)
    (he : e.nodename ≠ "") : applyNodeEntry m e = some (applyNodeEntryT m e) := by
  unfold applyNodeEntry applyNodeEntryT
  exact withNode_eq_some _ _ _ (by rw [getNode_addNode_self m e.nodename he]; rfl)

/-- The service-information loop of `from_list` never fails on nonempty
names. -/
theorem applySrvEntry_eq_total (m : MasterInfo) (e : SrvEntry)
    (he : e.servicename ≠ "") : applySrvEntry m e = some (applySrvEntryT m e) := by
  unfold applySrvEntry applySrvEntryT
  exact withService_eq_some _ _ _ (by rw [getService_addService_self m e.servicename he]; rfl)

/-- On a listed state with nonempty names, `from_list` succeeds and
returns the total fold. -/
theorem from_list_eq_total (now : ℚ) (l : ListedState)
    (hpub : ∀ p ∈ l.publishers, p.1 ≠ "" ∧ ∀ n ∈ p.2, n ≠ "")
    (hsub : ∀ p ∈ l.subscribers, p.1 ≠ "" ∧ ∀ n ∈ p.2, n ≠ "")
    (hsrv : ∀ p ∈ l.services, p.1 ≠ "" ∧ ∀ n ∈ p.2, n ≠ "")
    (htt : ∀ p ∈ l.topicTypes, p.1 ≠ "")
    (hne : ∀ e ∈ l.nodes, e.nodename ≠ "")
    (hse : ∀ e ∈ l.serviceProvider, e.servicename ≠ "") :
    MasterInfo.from_list now l = some (fromListT now l) := by
  have e1 : l.publishers.foldlM applyPub
      ((MasterInfo.mk0 l.masteruri l.mastername).setTimestamp now) = some (stage1 now l) :=
    foldlM_eq_foldl _ _ (fun _ => True) _ _ trivial
      (fun acc a ha _ => ⟨applyPub_eq_total acc a (hpub a ha).1 (hpub a ha).2, trivial⟩)
  have e2 : l.subscribers.foldlM applySub (stage1 now l) = some (stage2 now l) :=
    foldlM_eq_foldl _ _ (fun _ => True) _ _ trivial
      (fun acc a ha _ => ⟨applySub_eq_total acc a (hsub a ha).1 (hsub a ha).2, trivial⟩)
  have e3 : l.services.foldlM applySrv (stage2 now l) = some (stage3 now l) :=
    foldlM_eq_foldl _ _ (fun _ => True) _ _ trivial
      (fun acc a ha _ => ⟨applySrv_eq_total acc a (hsrv a ha).1 (hsrv a ha).2, trivial⟩)
  have e4 : l.topicTypes.foldlM applyTopicType (stage3 now l) = some (stage4 now l) :=
    foldlM_eq_foldl _ _ (fun _ => True) _ _ trivial
      (fun acc a ha _ => ⟨applyTopicType_eq_total acc a (htt a ha), trivial⟩)
  have e5 : l.nodes.foldlM applyNodeEntry (stage4 now l) = some (stage5 now l) :=
    foldlM_eq_foldl _ _ (fun _ => True) _ _ trivial
      (fun acc a ha _ => ⟨applyNodeEntry_eq_total acc a (hne a ha), trivial⟩)
  have e6 : l.serviceProvider.foldlM applySrvEntry (stage5 now l)
      = some (l.serviceProvider.foldl applySrvEntryT (stage5 now l)) :=
    foldlM_eq_foldl _ _ (fun _ => True) _ _ trivial
      (fun acc a ha _ => ⟨applySrvEntry_eq_total acc a (hse a ha), trivial⟩)
  show (do
    let r ← l.publishers.foldlM applyPub
      ((MasterInfo.mk0 l.masteruri l.mastername).setTimestamp now)
    let r ← l.subscribers.foldlM applySub r
    let r ← l.services.foldlM applySrv r
    let r ← l.topicTypes.foldlM applyTopicType r
    let r ← l.nodes.foldlM applyNodeEntry r
    l.serviceProvider.foldlM applySrvEntry r) = some (fromListT now l)
  rw [e1]
  show (do
    let r ← l.subscribers.foldlM applySub (stage1 now l)
    let r ← l.services.foldlM applySrv r
    let r ← l.topicTypes.foldlM applyTopicType r
    let r ← l.nodes.foldlM applyNodeEntry r
    l.serviceProvider.foldlM applySrvEntry r) = some (fromListT now l)
  rw [e2]
  show (do
    let r ← l.services.foldlM applySrv (stage2 now l)
    let r ← l.topicTypes.foldlM applyTopicType r
    let r ← l.nodes.foldlM applyNodeEntry r
    l.serviceProvider.foldlM applySrvEntry r) = some (fromListT now l)
  rw [e3]
  show (do
    let r ← l.topicTypes.foldlM applyTopicType (stage3 now l)
    let r ← l.nodes.foldlM applyNodeEntry r
    l.serviceProvider.foldlM applySrvEntry r) = some (fromListT now l)
  rw [e4]
  show (do
    let r ← l.nodes.foldlM applyNodeEntry (stage4 now l)
    l.serviceProvider.foldlM applySrvEntry r) = some (fromListT now l)
  rw [e5]
  show l.serviceProvider.foldlM applySrvEntry (stage5 now l) = some (fromListT now l)
  rw [e6]
  rfl

/-- Adding an already-added published topic changes nothing. -/
theorem addPublishedTopic_idem (nd : NodeInfo) (t : String) :
    (nd.addPublishedTopic t).addPublishedTopic t = nd.addPublishedTopic t := by
  unfold NodeInfo.addPublishedTopic
  by_cases h : t ∈ nd.publishedTopics
  · rw [if_pos h, if_pos h]
  · rw [if_neg h]
    simp

/-- Adding an already-added subscribed topic changes nothing. -/
theorem addSubscribedTopic_idem (nd : NodeInfo) (t : String) :
    (nd.addSubscribedTopic t).addSubscribedTopic t = nd.addSubscribedTopic t := by
  unfold NodeInfo.addSubscribedTopic
  by_cases h : t ∈ nd.subscribedTopics
  · rw [if_pos h, if_pos h]
  · rw [if_neg h]
    simp

/-- Adding an already-added service changes nothing. -/
theorem addServiceName_idem (nd : NodeInfo) (s : String) :
    (nd.addServiceName s).addServiceName s = nd.addServiceName s := by
  unfold NodeInfo.addServiceName
  by_cases h : s ∈ nd.services
  · rw [if_pos h, if_pos h]
  · rw [if_neg h]
    simp

/-- Generic inner fold of the topic and service loops: the effect on a
node lookup is one idempotent mutation when the node is mentioned. -/
theorem getNode_genfold (f : NodeInfo → NodeInfo) (post : MasterInfo → String → MasterInfo)
    (hpostN : ∀ m n k, (post m n).getNode k = m.getNode k)
    (hpostU : ∀ m n, (post m n).masteruri = m.masteruri)
    (hidem : ∀ nd, f (f nd) = f nd)
    (ns : List String) : ∀ (acc : MasterInfo) (k : String), k ≠ "" →
    ((ns.foldl (fun acc n => post ((acc.addNode n).modNode n f) n) acc).getNode k)
      = match acc.getNode k with
        | some nd => some (if k ∈ ns then f nd else nd)
        | none => if k ∈ ns then some (f (NodeInfo.mk0 k acc.masteruri)) else none := by
  induction ns with
  | nil =>
    intro acc k hk
    show acc.getNode k = _
    cases hg : acc.getNode k <;> simp
  | cons n ns ih =>
    intro acc k hk
    rw [List.foldl_cons]
    have hu2 : (post ((acc.addNode n).modNode n f) n).masteruri = acc.masteruri := by
      rw [hpostU]
      show (acc.addNode n).masteruri = acc.masteruri
      exact masteruri_addNode acc n
    by_cases hkn : k = n
    · subst hkn
      have hacc2 : (post ((acc.addNode k).modNode k f) k).getNode k
          = some (f ((alookup acc.nodelist k).getD (NodeInfo.mk0 k acc.masteruri))) := by
        rw [hpostN, getNode_modNode_self, getNode_addNode_self acc k hk]
        rfl
      rw [ih _ k hk, hacc2, hu2]
      have hget : acc.getNode k = alookup acc.nodelist k := by
        unfold MasterInfo.getNode
        rw [if_neg hk]
      cases hval : alookup acc.nodelist k with
      | some nd =>
        rw [hget, hval]
        by_cases hmem : k ∈ ns
        · simp [hmem, hidem]
        · simp [hmem]
      | none =>
        rw [hget, hval]
        by_cases hmem : k ∈ ns
        · simp [hmem, hidem]
        · simp [hmem]
    · have hacc2 : (post ((acc.addNode n).modNode n f) n).getNode k = acc.getNode k := by
        rw [hpostN, getNode_modNode_ne _ _ _ _ hkn, getNode_addNode_ne _ _ _ hkn]
      rw [ih _ k hk, hacc2, hu2]
      cases hg : acc.getNode k <;> simp [hkn]

/-- Unfolding `mentionsOf` over a cons cell. -/
theorem mentionsOf_cons (k : String) (p : String × List String)
    (pubs : List (String × List String)) :
    mentionsOf k (p :: pubs)
      = if k ∈ p.2 then p.1 :: mentionsOf k pubs else mentionsOf k pubs := by
  unfold mentionsOf
  rw [List.filterMap_cons]
  by_cases h : k ∈ p.2
  · rw [if_pos h, if_pos h]
  · rw [if_neg h, if_neg h]

/-- The master URI survives one publisher iteration. -/
theorem masteruri_applyPubT (m : MasterInfo) (p : String × List String) :
    (applyPubT m p).masteruri = m.masteruri := by
  unfold applyPubT
  rw [foldl_field_eq (fun acc n =>
      ((acc.addNode n).modNode n (fun nd => nd.addPublishedTopic p.1)).modTopic p.1
        (fun t => t.addPublisherNode n))
    MasterInfo.masteruri (fun mm n => masteruri_addNode mm n) p.2 (m.addTopic p.1)]
  exact masteruri_addTopic m p.1

/-- The master URI survives one subscriber iteration. -/
theorem masteruri_applySubT (m : MasterInfo) (p : String × List String) :
    (applySubT m p).masteruri = m.masteruri := by
  unfold applySubT
  rw [foldl_field_eq (fun acc n =>
      ((acc.addNode n).modNode n (fun nd => nd.addSubscribedTopic p.1)).modTopic p.1
        (fun t => t.addSubscriberNode n))
    MasterInfo.masteruri (fun mm n => masteruri_addNode mm n) p.2 (m.addTopic p.1)]
  exact masteruri_addTopic m p.1

/-- The master URI survives one service iteration. -/
theorem masteruri_applySrvT (m : MasterInfo) (p : String × List String) :
    (applySrvT m p).masteruri = m.masteruri := by
  unfold applySrvT
  rw [foldl_field_eq (fun acc n =>
      ((acc.addNode n).modNode n (fun nd => nd.addServiceName p.1)).modService p.1
        (fun s => s.addProvider n))
    MasterInfo.masteruri (fun mm n => masteruri_addNode mm n) p.2 (m.addService p.1)]
  exact masteruri_addService m p.1

/-- The node-lookup effect of one publisher iteration. -/
theorem getNode_applyPubT (m : MasterInfo) (p : String × List String) (k : String)
    (hk : k ≠ "") :
    (applyPubT m p).getNode k =
      match m.getNode k with
      | some nd => some (if k ∈ p.2 then nd.addPublishedTopic p.1 else nd)
      | none => if k ∈ p.2 then some ((NodeInfo.mk0 k m.masteruri).addPublishedTopic p.1)
                else none := by
  have h := getNode_genfold (fun nd => nd.addPublishedTopic p.1)
    (fun mm n => mm.modTopic p.1 (fun t => t.addPublisherNode n))
    (fun mm n k2 => getNode_modTopic mm p.1 k2 (fun t => t.addPublisherNode n))
    (fun mm n => rfl)
    (fun nd => addPublishedTopic_idem nd p.1) p.2 (m.addTopic p.1) k hk
  rw [getNode_addTopic m p.1 k, masteruri_addTopic m p.1] at h
  exact h

/-- The node-lookup effect of one subscriber iteration. -/
theorem getNode_applySubT (m : MasterInfo) (p : String × List String) (k : String)
    (hk : k ≠ "") :
    (applySubT m p).getNode k =
      match m.getNode k with
      | some nd => some (if k ∈ p.2 then nd.addSubscribedTopic p.1 else nd)
      | none => if k ∈ p.2 then some ((NodeInfo.mk0 k m.masteruri).addSubscribedTopic p.1)
                else none := by
  have h := getNode_genfold (fun nd => nd.addSubscribedTopic p.1)
    (fun mm n => mm.modTopic p.1 (fun t => t.addSubscriberNode n))
    (fun mm n k2 => getNode_modTopic mm p.1 k2 (fun t => t.addSubscriberNode n))
    (fun mm n => rfl)
    (fun nd => addSubscribedTopic_idem nd p.1) p.2 (m.addTopic p.1) k hk
  rw [getNode_addTopic m p.1 k, masteruri_addTopic m p.1] at h
  exact h

/-- The node-lookup effect of one service iteration. -/
theorem getNode_applySrvT (m : MasterInfo) (p : String × List String) (k : String)
    (hk : k ≠ "") :
    (applySrvT m p).getNode k =
      match m.getNode k with
      | some nd => some (if k ∈ p.2 then nd.addServiceName p.1 else nd)
      | none => if k ∈ p.2 then some ((NodeInfo.mk0 k m.masteruri).addServiceName p.1)
                else none := by
  have h := getNode_genfold (fun nd => nd.addServiceName p.1)
    (fun mm n => mm.modService p.1 (fun s => s.addProvider n))
    (fun mm n k2 => getNode_modService mm p.1 k2 (fun s => s.addProvider n))
    (fun mm n => rfl)
    (fun nd => addServiceName_idem nd p.1) p.2 (m.addService p.1) k hk
  rw [getNode_addService m p.1 k, masteruri_addService m p.1] at h
  exact h

/-- The node-lookup effect of the whole publisher phase. -/
theorem getNode_foldPubs (pubs : List (String × List String)) :
    ∀ (acc : MasterInfo) (k : String), k ≠ "" →
    ((pubs.foldl applyPubT acc).getNode k)
      = match acc.getNode k with
        | some nd => some (addPubs nd (mentionsOf k pubs))
        | none => if mentionsOf k pubs = [] then none
                  else some (addPubs (NodeInfo.mk0 k acc.masteruri) (mentionsOf k pubs)) := by
  induction pubs with
  | nil =>
    intro acc k hk
    show acc.getNode k = _
    cases hg : acc.getNode k <;> simp [mentionsOf, addPubs]
  | cons p pubs ih =>
    intro acc k hk
    rw [List.foldl_cons, ih (applyPubT acc p) k hk, getNode_applyPubT acc p k hk,
      masteruri_applyPubT acc p, mentionsOf_cons]
    by_cases hmem : k ∈ p.2
    · cases hg : acc.getNode k <;> simp [hmem, addPubs, List.foldl_cons]
    · cases hg : acc.getNode k <;> simp [hmem]

/-- The node-lookup effect of the whole subscriber phase. -/
theorem getNode_foldSubs (subs : List (String × List String)) :
    ∀ (acc : MasterInfo) (k : String), k ≠ "" →
    ((subs.foldl applySubT acc).getNode k)
      = match acc.getNode k with
        | some nd => some (addSubs nd (mentionsOf k subs))
        | none => if mentionsOf k subs = [] then none
                  else some (addSubs (NodeInfo.mk0 k acc.masteruri) (mentionsOf k subs)) := by
  induction subs with
  | nil =>
    intro acc k hk
    show acc.getNode k = _
    cases hg : acc.getNode k <;> simp [mentionsOf, addSubs]
  | cons p subs ih =>
    intro acc k hk
    rw [List.foldl_cons, ih (applySubT acc p) k hk, getNode_applySubT acc p k hk,
      masteruri_applySubT acc p, mentionsOf_cons]
    by_cases hmem : k ∈ p.2
    · cases hg : acc.getNode k <;> simp [hmem, addSubs, List.foldl_cons]
    · cases hg : acc.getNode k <;> simp [hmem]

/-- The node-lookup effect of the whole service phase. -/
theorem getNode_foldSrvs (srvs : List (String × List String)) :
    ∀ (acc : MasterInfo) (k : String), k ≠ "" →
    ((srvs.foldl applySrvT acc).getNode k)
      = match acc.getNode k with
        | some nd => some (addSrvNames nd (mentionsOf k srvs))
        | none => if mentionsOf k srvs = [] then none
                  else some (addSrvNames (NodeInfo.mk0 k acc.masteruri) (mentionsOf k srvs)) := by
  induction srvs with
  | nil =>
    intro acc k hk
    show acc.getNode k = _
    cases hg : acc.getNode k <;> simp [mentionsOf, addSrvNames]
  | cons p srvs ih =>
    intro acc k hk
    rw [List.foldl_cons, ih (applySrvT acc p) k hk, getNode_applySrvT acc p k hk,
      masteruri_applySrvT acc p, mentionsOf_cons]
    by_cases hmem : k ∈ p.2
    · cases hg : acc.getNode k <;> simp [hmem, addSrvNames, List.foldl_cons]
    · cases hg : acc.getNode k <;> simp [hmem]

/-- One topic-type iteration leaves node lookups unchanged. -/
theorem getNode_applyTopicTypeT (m : MasterInfo) (p : String × Option String) (k : String) :
    (applyTopicTypeT m p).getNode k = m.getNode k := by
  unfold applyTopicTypeT
  rw [getNode_modTopic, getNode_addTopic]

/-- One service-information iteration leaves node lookups unchanged. -/
theorem getNode_applySrvEntryT (m : MasterInfo) (e : SrvEntry) (k : String) :
    (applySrvEntryT m e).getNode k = m.getNode k := by
  unfold applySrvEntryT
  rw [getNode_modService, getNode_addService]

/-- The topic-type phase leaves node lookups unchanged. -/
theorem getNode_foldTT (tts : List (String × Option String)) (acc : MasterInfo) (k : String) :
    ((tts.foldl applyTopicTypeT acc).getNode k) = acc.getNode k :=
  foldl_field_eq applyTopicTypeT (fun mm => mm.getNode k)
    (fun mm a => getNode_applyTopicTypeT mm a k) tts acc

/-- The service-information phase leaves node lookups unchanged. -/
theorem getNode_foldSrvEntries (entries : List SrvEntry) (acc : MasterInfo) (k : String) :
    ((entries.foldl applySrvEntryT acc).getNode k) = acc.getNode k :=
  foldl_field_eq applySrvEntryT (fun mm => mm.getNode k)
    (fun mm a => getNode_applySrvEntryT mm a k) entries acc

/-- The master URI survives one node-information iteration. -/
theorem masteruri_applyNodeEntryT (m : MasterInfo) (e : NodeEntry) :
    (applyNodeEntryT m e).masteruri = m.masteruri :=
  masteruri_addNode m e.nodename

/-- The master URI survives one topic-type iteration. -/
theorem masteruri_applyTopicTypeT (m : MasterInfo) (p : String × Option String) :
    (applyTopicTypeT m p).masteruri = m.masteruri :=
  masteruri_addTopic m p.1

/-- The master URI survives one service-information iteration. -/
theorem masteruri_applySrvEntryT (m : MasterInfo) (e : SrvEntry) :
    (applySrvEntryT m e).masteruri = m.masteruri :=
  masteruri_addService m e.servicename

/-- The node-lookup effect of the node-information phase: the matching
entries are folded over the previous value. -/
theorem getNode_foldNodes (entries : List NodeEntry) : ∀ (acc : MasterInfo) (k : String),
    k ≠ "" →
    ((entries.foldl applyNodeEntryT acc).getNode k)
      = (entries.filter (fun e => e.nodename = k)).foldl
          (fun o e => some (updEntry (o.getD (NodeInfo.mk0 k acc.masteruri)) e))
          (acc.getNode k) := by
  induction entries with
  | nil =>
    intro acc k hk
    rfl
  | cons e entries ih =>
    intro acc k hk
    rw [List.foldl_cons, List.filter_cons, ih (applyNodeEntryT acc e) k hk,
      masteruri_applyNodeEntryT]
    by_cases he : e.nodename = k
    · rw [if_pos (by simp [he])]
      have hacc2 : (applyNodeEntryT acc e).getNode k
          = some (updEntry ((alookup acc.nodelist k).getD (NodeInfo.mk0 k acc.masteruri)) e) := by
        unfold applyNodeEntryT
        rw [he, getNode_modNode_self, getNode_addNode_self acc k hk]
        rfl
      have hget : acc.getNode k = alookup acc.nodelist k := by
        unfold MasterInfo.getNode
        rw [if_neg hk]
      rw [hacc2, List.foldl_cons, hget]
    · rw [if_neg (by simp [he])]
      have hacc2 : (applyNodeEntryT acc e).getNode k = acc.getNode k := by
        unfold applyNodeEntryT
        rw [getNode_modNode_ne _ _ _ _ (fun hh => he hh.symm),
          getNode_addNode_ne _ _ _ (fun hh => he hh.symm)]
      rw [hacc2]

/-- The initial state of `from_list` holds no nodes. -/
theorem getNode_stage0 (now : ℚ) (l : ListedState) (k : String) :
    ((MasterInfo.mk0 l.masteruri l.mastername).setTimestamp now).getNode k = none := by
  unfold MasterInfo.mk0 MasterInfo.setTimestamp MasterInfo.getNode
  split <;> rfl

/-- The master URI after the publisher phase. -/
theorem masteruri_stage1 (now : ℚ) (l : ListedState) :
    (stage1 now l).masteruri = l.masteruri := by
  unfold stage1
  rw [foldl_field_eq applyPubT MasterInfo.masteruri masteruri_applyPubT l.publishers _]
  rfl

/-- The master URI after the subscriber phase. -/
theorem masteruri_stage2 (now : ℚ) (l : ListedState) :
    (stage2 now l).masteruri = l.masteruri := by
  unfold stage2
  rw [foldl_field_eq applySubT MasterInfo.masteruri masteruri_applySubT l.subscribers _]
  exact masteruri_stage1 now l

/-- The master URI after the service phase. -/
theorem masteruri_stage3 (now : ℚ) (l : ListedState) :
    (stage3 now l).masteruri = l.masteruri := by
  unfold stage3
  rw [foldl_field_eq applySrvT MasterInfo.masteruri masteruri_applySrvT l.services _]
  exact masteruri_stage2 now l

/-- The master URI after the topic-type phase. -/
theorem masteruri_stage4 (now : ℚ) (l : ListedState) :
    (stage4 now l).masteruri = l.masteruri := by
  unfold stage4
  rw [foldl_field_eq applyTopicTypeT MasterInfo.masteruri masteruri_applyTopicTypeT
    l.topicTypes _]
  exact masteruri_stage3 now l

/-- The master URI after the node-information phase. -/
theorem masteruri_stage5 (now : ℚ) (l : ListedState) :
    (stage5 now l).masteruri = l.masteruri := by
  unfold stage5
  rw [foldl_field_eq applyNodeEntryT MasterInfo.masteruri masteruri_applyNodeEntryT
    l.nodes _]
  exact masteruri_stage4 now l

/-- The master URI of the reconstructed state. -/
theorem masteruri_fromListT (now : ℚ) (l : ListedState) :
    (fromListT now l).masteruri = l.masteruri := by
  show (l.serviceProvider.foldl applySrvEntryT (stage5 now l)).masteruri = l.masteruri
  rw [foldl_field_eq applySrvEntryT MasterInfo.masteruri masteruri_applySrvEntryT
    l.serviceProvider _]
  exact masteruri_stage5 now l

/-- A node lookup after the first three phases of `from_list`. -/
theorem getNode_stage3 (now : ℚ) (l : ListedState) (k : String) (hk : k ≠ "") :
    (stage3 now l).getNode k =
      if mentionsOf k l.publishers = [] ∧ mentionsOf k l.subscribers = []
          ∧ mentionsOf k l.services = []
      then none else some (buildNode k l.masteruri l) := by
  unfold stage3
  rw [getNode_foldSrvs l.services (stage2 now l) k hk, masteruri_stage2]
  unfold stage2
  rw [getNode_foldSubs l.subscribers (stage1 now l) k hk, masteruri_stage1]
  unfold stage1
  rw [getNode_foldPubs l.publishers _ k hk, getNode_stage0]
  by_cases h1 : mentionsOf k l.publishers = [] <;>
    by_cases h2 : mentionsOf k l.subscribers = [] <;>
      by_cases h3 : mentionsOf k l.services = [] <;>
        simp [h1, h2, h3, buildNode, addPubs, addSubs, addSrvNames,
          MasterInfo.mk0, MasterInfo.setTimestamp]

/-- A node lookup in the fully reconstructed state. -/
theorem getNode_fromListT (now : ℚ) (l : ListedState) (k : String) (hk : k ≠ "") :
    (fromListT now l).getNode k =
      (l.nodes.filter (fun e => e.nodename = k)).foldl
        (fun o e => some (updEntry (o.getD (NodeInfo.mk0 k l.masteruri)) e))
        ((stage3 now l).getNode k) := by
  show (l.serviceProvider.foldl applySrvEntryT (stage5 now l)).getNode k = _
  rw [getNode_foldSrvEntries l.serviceProvider (stage5 now l) k]
  unfold stage5
  rw [getNode_foldNodes l.nodes (stage4 now l) k hk, masteruri_stage4]
  unfold stage4
  rw [getNode_foldTT l.topicTypes (stage3 now l) k]

/-- A fold preserves any field its step preserves. -/
theorem foldl_pres {σ α β : Type} (f : σ → α → σ) (g : σ → β)
    (h : ∀ s a, g (f s a) = g s) (l : List α) : ∀ s, g (l.foldl f s) = g s := by
  induction l with
  | nil => intro s; rfl
  | cons a l ih =>
    intro s
    rw [List.foldl_cons, ih (f s a), h s a]

/-- The pid written by the node-information mutation. -/
theorem updEntry_pid (nd : NodeInfo) (e : NodeEntry) : (updEntry nd e).pid = e.pid := rfl

/-- The uri written by the node-information mutation. -/
theorem updEntry_uri (nd : NodeInfo) (e : NodeEntry) : (updEntry nd e).uri = e.uri := rfl

/-- The node-information mutation leaves the published topics alone. -/
theorem updEntry_pubs (nd : NodeInfo) (e : NodeEntry) :
    (updEntry nd e).publishedTopics = nd.publishedTopics := rfl

/-- The node-information mutation leaves the subscribed topics alone. -/
theorem updEntry_subs (nd : NodeInfo) (e : NodeEntry) :
    (updEntry nd e).subscribedTopics = nd.subscribedTopics := rfl

/-- The node-information mutation leaves the provided services alone. -/
theorem updEntry_srvs (nd : NodeInfo) (e : NodeEntry) :
    (updEntry nd e).services = nd.services := rfl

/-- The uri written by the service-information mutation. -/
theorem updSrvEntry_uri (s : ServiceInfo) (e : SrvEntry) :
    (updSrvEntry s e).uri = e.uri := rfl

/-- Membership after adding one published topic. -/
theorem mem_addPublishedTopic (nd : NodeInfo) (t x : String) :
    x ∈ (nd.addPublishedTopic t).publishedTopics ↔ x ∈ nd.publishedTopics ∨ x = t := by
  unfold NodeInfo.addPublishedTopic
  by_cases h : t ∈ nd.publishedTopics
  · rw [if_pos h]
    constructor
    · exact Or.inl
    · rintro (hx | rfl)
      · exact hx
      · exact h
  · rw [if_neg h]
    show x ∈ nd.publishedTopics ++ [t] ↔ _
    simp

/-- Membership after adding one subscribed topic. -/
theorem mem_addSubscribedTopic (nd : NodeInfo) (t x : String) :
    x ∈ (nd.addSubscribedTopic t).subscribedTopics ↔ x ∈ nd.subscribedTopics ∨ x = t := by
  unfold NodeInfo.addSubscribedTopic
  by_cases h : t ∈ nd.subscribedTopics
  · rw [if_pos h]
    constructor
    · exact Or.inl
    · rintro (hx | rfl)
      · exact hx
      · exact h
  · rw [if_neg h]
    show x ∈ nd.subscribedTopics ++ [t] ↔ _
    simp

/-- Membership after adding one provided service. -/
theorem mem_addServiceName (nd : NodeInfo) (s x : String) :
    x ∈ (nd.addServiceName s).services ↔ x ∈ nd.services ∨ x = s := by
  unfold NodeInfo.addServiceName
  by_cases h : s ∈ nd.services
  · rw [if_pos h]
    constructor
    · exact Or.inl
    · rintro (hx | rfl)
      · exact hx
      · exact h
  · rw [if_neg h]
    show x ∈ nd.services ++ [s] ↔ _
    simp

/-- Adding a published topic does not touch the subscribed topics. -/
theorem subs_addPublishedTopic (nd : NodeInfo) (t : String) :
    (nd.addPublishedTopic t).subscribedTopics = nd.subscribedTopics := by
  unfold NodeInfo.addPublishedTopic
  split <;> rfl

/-- Adding a published topic does not touch the provided services. -/
theorem srvs_addPublishedTopic (nd : NodeInfo) (t : String) :
    (nd.addPublishedTopic t).services = nd.services := by
  unfold NodeInfo.addPublishedTopic
  split <;> rfl

/-- Adding a subscribed topic does not touch the published topics. -/
theorem pubs_addSubscribedTopic (nd : NodeInfo) (t : String) :
    (nd.addSubscribedTopic t).publishedTopics = nd.publishedTopics := by
  unfold NodeInfo.addSubscribedTopic
  split <;> rfl

/-- Adding a subscribed topic does not touch the provided services. -/
theorem srvs_addSubscribedTopic (nd : NodeInfo) (t : String) :
    (nd.addSubscribedTopic t).services = nd.services := by
  unfold NodeInfo.addSubscribedTopic
  split <;> rfl

/-- Adding a provided service does not touch the published topics. -/
theorem pubs_addServiceName (nd : NodeInfo) (s : String) :
    (nd.addServiceName s).publishedTopics = nd.publishedTopics := by
  unfold NodeInfo.addServiceName
  split <;> rfl

/-- Adding a provided service does not touch the subscribed topics. -/
theorem subs_addServiceName (nd : NodeInfo) (s : String) :
    (nd.addServiceName s).subscribedTopics = nd.subscribedTopics := by
  unfold NodeInfo.addServiceName
  split <;> rfl

/-- Membership in the accumulated published topics. -/
theorem mem_addPubs (ts : List String) : ∀ (nd : NodeInfo) (x : String),
    x ∈ (addPubs nd ts).publishedTopics ↔ x ∈ nd.publishedTopics ∨ x ∈ ts := by
  induction ts with
  | nil =>
    intro nd x
    show x ∈ nd.publishedTopics ↔ _
    simp
  | cons t ts ih =>
    intro nd x
    show x ∈ (addPubs (nd.addPublishedTopic t) ts).publishedTopics ↔ _
    rw [ih, mem_addPublishedTopic]
    simp [or_assoc, List.mem_cons]

/-- Membership in the accumulated subscribed topics. -/
theorem mem_addSubs (ts : List String) : ∀ (nd : NodeInfo) (x : String),
    x ∈ (addSubs nd ts).subscribedTopics ↔ x ∈ nd.subscribedTopics ∨ x ∈ ts := by
  induction ts with
  | nil =>
    intro nd x
    show x ∈ nd.subscribedTopics ↔ _
    simp
  | cons t ts ih =>
    intro nd x
    show x ∈ (addSubs (nd.addSubscribedTopic t) ts).subscribedTopics ↔ _
    rw [ih, mem_addSubscribedTopic]
    simp [or_assoc, List.mem_cons]

/-- Membership in the accumulated provided services. -/
theorem mem_addSrvNames (ss : List String) : ∀ (nd : NodeInfo) (x : String),
    x ∈ (addSrvNames nd ss).services ↔ x ∈ nd.services ∨ x ∈ ss := by
  induction ss with
  | nil =>
    intro nd x
    show x ∈ nd.services ↔ _
    simp
  | cons s ss ih =>
    intro nd x
    show x ∈ (addSrvNames (nd.addServiceName s) ss).services ↔ _
    rw [ih, mem_addServiceName]
    simp [or_assoc, List.mem_cons]

/-- Accumulating subscribed topics does not touch the published topics. -/
theorem pubs_addSubs (nd : NodeInfo) (ts : List String) :
    (addSubs nd ts).publishedTopics = nd.publishedTopics :=
  foldl_pres NodeInfo.addSubscribedTopic NodeInfo.publishedTopics
    pubs_addSubscribedTopic ts nd

/-- Accumulating provided services does not touch the published topics. -/
theorem pubs_addSrvNames (nd : NodeInfo) (ss : List String) :
    (addSrvNames nd ss).publishedTopics = nd.publishedTopics :=
  foldl_pres NodeInfo.addServiceName NodeInfo.publishedTopics
    pubs_addServiceName ss nd

/-- Accumulating published topics does not touch the subscribed topics. -/
theorem subs_addPubs (nd : NodeInfo) (ts : List String) :
    (addPubs nd ts).subscribedTopics = nd.subscribedTopics :=
  foldl_pres NodeInfo.addPublishedTopic NodeInfo.subscribedTopics
    subs_addPublishedTopic ts nd

/-- Accumulating provided services does not touch the subscribed topics. -/
theorem subs_addSrvNames (nd : NodeInfo) (ss : List String) :
    (addSrvNames nd ss).subscribedTopics = nd.subscribedTopics :=
  foldl_pres NodeInfo.addServiceName NodeInfo.subscribedTopics
    subs_addServiceName ss nd

/-- Accumulating published topics does not touch the provided services. -/
theorem srvs_addPubs (nd : NodeInfo) (ts : List String) :
    (addPubs nd ts).services = nd.services :=
  foldl_pres NodeInfo.addPublishedTopic NodeInfo.services
    srvs_addPublishedTopic ts nd

/-- Accumulating subscribed topics does not touch the provided services. -/
theorem srvs_addSubs (nd : NodeInfo) (ts : List String) :
    (addSubs nd ts).services = nd.services :=
  foldl_pres NodeInfo.addSubscribedTopic NodeInfo.services
    srvs_addSubscribedTopic ts nd

/-- The published topics of the node built by the first three phases. -/
theorem pubs_buildNode (k u : String) (l : ListedState) (t : String) :
    t ∈ (buildNode k u l).publishedTopics ↔ t ∈ mentionsOf k l.publishers := by
  unfold buildNode
  rw [pubs_addSrvNames, pubs_addSubs, mem_addPubs]
  show t ∈ ([] : List String) ∨ _ ↔ _
  simp

/-- The subscribed topics of the node built by the first three phases. -/
theorem subs_buildNode (k u : String) (l : ListedState) (t : String) :
    t ∈ (buildNode k u l).subscribedTopics ↔ t ∈ mentionsOf k l.subscribers := by
  unfold buildNode
  rw [subs_addSrvNames, mem_addSubs, subs_addPubs]
  show t ∈ ([] : List String) ∨ _ ↔ _
  simp

/-- The provided services of the node built by the first three phases. -/
theorem srvs_buildNode (k u : String) (l : ListedState) (s : String) :
    s ∈ (buildNode k u l).services ↔ s ∈ mentionsOf k l.services := by
  unfold buildNode
  rw [mem_addSrvNames, srvs_addSubs, srvs_addPubs]
  show s ∈ ([] : List String) ∨ _ ↔ _
  simp

/-- Membership in the mentioned topics of a node. -/
theorem mem_mentionsOf (k t : String) (pairs : List (String × List String)) :
    t ∈ mentionsOf k pairs ↔ ∃ ns, (t, ns) ∈ pairs ∧ k ∈ ns := by
  unfold mentionsOf
  rw [List.mem_filterMap]
  constructor
  · rintro ⟨p, hp, hif⟩
    by_cases h : k ∈ p.2
    · rw [if_pos h, Option.some.injEq] at hif
      subst hif
      exact ⟨p.2, hp, h⟩
    · rw [if_neg h] at hif
      exact absurd hif (Option.noConfusion)
  · rintro ⟨ns, hp, hk⟩
    exact ⟨(t, ns), hp, by rw [if_pos hk]⟩

/-- A fold preserves any invariant its step preserves. -/
theorem foldl_pred {σ α : Type} (f : σ → α → σ) (P : σ → Prop)
    (h : ∀ s a, P s → P (f s a)) (l : List α) : ∀ s, P s → P (l.foldl f s) := by
  induction l with
  | nil => intro s hs; exact hs
  | cons a l ih =>
    intro s hs
    rw [List.foldl_cons]
    exact ih (f s a) (h s a hs)

/-- Node keys survive an in-place node update. -/
theorem nodeKeys_modNode (m : MasterInfo) (n : String) (f : NodeInfo → NodeInfo) :
    (m.modNode n f).nodelist.map Prod.fst = m.nodelist.map Prod.fst :=
  keys_amodify m.nodelist n f

/-- Topic keys survive an in-place topic update. -/
theorem topicKeys_modTopic (m : MasterInfo) (t : String) (f : TopicInfo → TopicInfo) :
    (m.modTopic t f).topiclist.map Prod.fst = m.topiclist.map Prod.fst :=
  keys_amodify m.topiclist t f

/-- Service keys survive an in-place service update. -/
theorem serviceKeys_modService (m : MasterInfo) (s : String) (f : ServiceInfo → ServiceInfo) :
    (m.modService s f).servicelist.map Prod.fst = m.servicelist.map Prod.fst :=
  keys_amodify m.servicelist s f

/-- Node-key membership after registering a node. -/
theorem mem_nodeKeys_addNode (m : MasterInfo) (n k : String) :
    k ∈ (m.addNode n).nodelist.map Prod.fst
      ↔ k ∈ m.nodelist.map Prod.fst ∨ (k = n ∧ n ≠ "") := by
  unfold MasterInfo.addNode
  by_cases hn : n = ""
  · rw [if_pos hn]
    simp [hn]
  · rw [if_neg hn]
    show k ∈ (ainsert m.nodelist n (NodeInfo.mk0 n m.masteruri)).map Prod.fst ↔ _
    rw [keys_ainsert]
    by_cases hl : (alookup m.nodelist n).isSome
    · rw [if_pos hl]
      constructor
      · exact Or.inl
      · rintro (h | ⟨rfl, _⟩)
        · exact h
        · rw [mem_keys_iff_isSome]
          exact hl
    · rw [if_neg hl]
      simp [hn]

/-- Topic-key membership after registering a topic. -/
theorem mem_topicKeys_addTopic (m : MasterInfo) (t k : String) :
    k ∈ (m.addTopic t).topiclist.map Prod.fst
      ↔ k ∈ m.topiclist.map Prod.fst ∨ (k = t ∧ t ≠ "") := by
  unfold MasterInfo.addTopic
  by_cases ht : t = ""
  · rw [if_pos ht]
    simp [ht]
  · rw [if_neg ht]
    show k ∈ (ainsert m.topiclist t (TopicInfo.mk0 t)).map Prod.fst ↔ _
    rw [keys_ainsert]
    by_cases hl : (alookup m.topiclist t).isSome
    · rw [if_pos hl]
      constructor
      · exact Or.inl
      · rintro (h | ⟨rfl, _⟩)
        · exact h
        · rw [mem_keys_iff_isSome]
          exact hl
    · rw [if_neg hl]
      simp [ht]

/-- Service-key membership after registering a service. -/
theorem mem_serviceKeys_addService (m : MasterInfo) (s k : String) :
    k ∈ (m.addService s).servicelist.map Prod.fst
      ↔ k ∈ m.servicelist.map Prod.fst ∨ (k = s ∧ s ≠ "") := by
  unfold MasterInfo.addService
  by_cases hs : s = ""
  · rw [if_pos hs]
    simp [hs]
  · rw [if_neg hs]
    show k ∈ (ainsert m.servicelist s (ServiceInfo.mk0 s m.masteruri)).map Prod.fst ↔ _
    rw [keys_ainsert]
    by_cases hl : (alookup m.servicelist s).isSome
    · rw [if_pos hl]
      constructor
      · exact Or.inl
      · rintro (h | ⟨rfl, _⟩)
        · exact h
        · rw [mem_keys_iff_isSome]
          exact hl
    · rw [if_neg hl]
      simp [hs]

/-- Node-key membership across the generic inner fold of the topic and
service loops. -/
theorem mem_nodeKeys_genfold (f : NodeInfo → NodeInfo) (post : MasterInfo → String → MasterInfo)
    (hpost : ∀ m n, (post m n).nodelist = m.nodelist)
    (ns : List String) : ∀ (acc : MasterInfo) (k : String),
    k ∈ ((ns.foldl (fun acc n => post ((acc.addNode n).modNode n f) n) acc).nodelist.map Prod.fst)
      ↔ k ∈ acc.nodelist.map Prod.fst ∨ (k ∈ ns ∧ k ≠ "") := by
  induction ns with
  | nil =>
    intro acc k
    simp
  | cons n ns ih =>
    intro acc k
    rw [List.foldl_cons, ih, hpost, nodeKeys_modNode, mem_nodeKeys_addNode]
    constructor
    · rintro ((h | ⟨rfl, hn⟩) | ⟨h, hk⟩)
      · exact Or.inl h
      · exact Or.inr ⟨List.mem_cons_self k ns, hn⟩
      · exact Or.inr ⟨List.mem_cons_of_mem n h, hk⟩
    · rintro (h | ⟨hmem, hk⟩)
      · exact Or.inl (Or.inl h)
      · rcases List.mem_cons.mp hmem with rfl | h
        · exact Or.inl (Or.inr ⟨rfl, hk⟩)
        · exact Or.inr ⟨h, hk⟩

/-- Node-key membership after one publisher iteration. -/
theorem mem_nodeKeys_applyPubT (m : MasterInfo) (p : String × List String) (k : String) :
    k ∈ (applyPubT m p).nodelist.map Prod.fst
      ↔ k ∈ m.nodelist.map Prod.fst ∨ (k ∈ p.2 ∧ k ≠ "") := by
  unfold applyPubT
  have h := mem_nodeKeys_genfold (fun nd => nd.addPublishedTopic p.1)
    (fun mm n => mm.modTopic p.1 (fun t => t.addPublisherNode n)) (fun mm n => rfl) p.2
    (m.addTopic p.1) k
  rw [nodelist_addTopic] at h
  exact h

/-- Node-key membership after one subscriber iteration. -/
theorem mem_nodeKeys_applySubT (m : MasterInfo) (p : String × List String) (k : String) :
    k ∈ (applySubT m p).nodelist.map Prod.fst
      ↔ k ∈ m.nodelist.map Prod.fst ∨ (k ∈ p.2 ∧ k ≠ "") := by
  unfold applySubT
  have h := mem_nodeKeys_genfold (fun nd => nd.addSubscribedTopic p.1)
    (fun mm n => mm.modTopic p.1 (fun t => t.addSubscriberNode n)) (fun mm n => rfl) p.2
    (m.addTopic p.1) k
  rw [nodelist_addTopic] at h
  exact h

/-- Node-key membership after one service iteration. -/
theorem mem_nodeKeys_applySrvT (m : MasterInfo) (p : String × List String) (k : String) :
    k ∈ (applySrvT m p).nodelist.map Prod.fst
      ↔ k ∈ m.nodelist.map Prod.fst ∨ (k ∈ p.2 ∧ k ≠ "") := by
  unfold applySrvT
  have h := mem_nodeKeys_genfold (fun nd => nd.addServiceName p.1)
    (fun mm n => mm.modService p.1 (fun s => s.addProvider n)) (fun mm n => rfl) p.2
    (m.addService p.1) k
  rw [nodelist_addService] at h
  exact h

/-- Node-key membership after one node-information iteration. -/
theorem mem_nodeKeys_applyNodeEntryT (m : MasterInfo) (e : NodeEntry) (k : String) :
    k ∈ (applyNodeEntryT m e).nodelist.map Prod.fst
      ↔ k ∈ m.nodelist.map Prod.fst ∨ (k = e.nodename ∧ k ≠ "") := by
  unfold applyNodeEntryT
  rw [nodeKeys_modNode, mem_nodeKeys_addNode]
  constructor
  · rintro (h | ⟨rfl, hn⟩)
    · exact Or.inl h
    · exact Or.inr ⟨rfl, hn⟩
  · rintro (h | ⟨rfl, hn⟩)
    · exact Or.inl h
    · exact Or.inr ⟨rfl, hn⟩

/-- The topic-type phase leaves the node dictionary untouched. -/
theorem nodelist_applyTopicTypeT (m : MasterInfo) (p : String × Option String) :
    (applyTopicTypeT m p).nodelist = m.nodelist :=
  nodelist_addTopic m p.1

/-- The service-information phase leaves the node dictionary untouched. -/
theorem nodelist_applySrvEntryT (m : MasterInfo) (e : SrvEntry) :
    (applySrvEntryT m e).nodelist = m.nodelist :=
  nodelist_addService m e.servicename

/-- The node-information phase leaves the topic dictionary untouched. -/
theorem topiclist_applyNodeEntryT (m : MasterInfo) (e : NodeEntry) :
    (applyNodeEntryT m e).topiclist = m.topiclist :=
  topiclist_addNode m e.nodename

/-- The service-information phase leaves the topic dictionary untouched. -/
theorem topiclist_applySrvEntryT (m : MasterInfo) (e : SrvEntry) :
    (applySrvEntryT m e).topiclist = m.topiclist :=
  topiclist_addService m e.servicename

/-- The topic-type phase leaves the service dictionary untouched. -/
theorem servicelist_applyTopicTypeT (m : MasterInfo) (p : String × Option String) :
    (applyTopicTypeT m p).servicelist = m.servicelist :=
  servicelist_addTopic m p.1

/-- The node-information phase leaves the service dictionary untouched. -/
theorem servicelist_applyNodeEntryT (m : MasterInfo) (e : NodeEntry) :
    (applyNodeEntryT m e).servicelist = m.servicelist :=
  servicelist_addNode m e.nodename

/-- One publisher iteration leaves the service dictionary untouched. -/
theorem servicelist_applyPubT (m : MasterInfo) (p : String × List String) :
    (applyPubT m p).servicelist = m.servicelist := by
  unfold applyPubT
  rw [foldl_pres (fun acc n =>
      ((acc.addNode n).modNode n (fun nd => nd.addPublishedTopic p.1)).modTopic p.1
        (fun t => t.addPublisherNode n))
    MasterInfo.servicelist (fun mm n => servicelist_addNode mm n) p.2 (m.addTopic p.1)]
  exact servicelist_addTopic m p.1

/-- One subscriber iteration leaves the service dictionary untouched. -/
theorem servicelist_applySubT (m : MasterInfo) (p : String × List String) :
    (applySubT m p).servicelist = m.servicelist := by
  unfold applySubT
  rw [foldl_pres (fun acc n =>
      ((acc.addNode n).modNode n (fun nd => nd.addSubscribedTopic p.1)).modTopic p.1
        (fun t => t.addSubscriberNode n))
    MasterInfo.servicelist (fun mm n => servicelist_addNode mm n) p.2 (m.addTopic p.1)]
  exact servicelist_addTopic m p.1

/-- One service iteration leaves the topic dictionary untouched. -/
theorem topiclist_applySrvT (m : MasterInfo) (p : String × List String) :
    (applySrvT m p).topiclist = m.topiclist := by
  unfold applySrvT
  rw [foldl_pres (fun acc n =>
      ((acc.addNode n).modNode n (fun nd => nd.addServiceName p.1)).modService p.1
        (fun s => s.addProvider n))
    MasterInfo.topiclist (fun mm n => topiclist_addNode mm n) p.2 (m.addService p.1)]
  exact topiclist_addService m p.1

/-- Topic keys after one publisher iteration. -/
theorem topicKeys_applyPubT (m : MasterInfo) (p : String × List String) :
    (applyPubT m p).topiclist.map Prod.fst = (m.addTopic p.1).topiclist.map Prod.fst := by
  unfold applyPubT
  exact foldl_pres (fun acc n =>
      ((acc.addNode n).modNode n (fun nd => nd.addPublishedTopic p.1)).modTopic p.1
        (fun t => t.addPublisherNode n))
    (fun mm => mm.topiclist.map Prod.fst)
    (fun acc n => by
      show ((((acc.addNode n).modNode n (fun nd => nd.addPublishedTopic p.1)).modTopic p.1
        (fun t => t.addPublisherNode n)).topiclist.map Prod.fst)
          = acc.topiclist.map Prod.fst
      rw [topicKeys_modTopic]
      show (acc.addNode n).topiclist.map Prod.fst = acc.topiclist.map Prod.fst
      rw [topiclist_addNode])
    p.2 (m.addTopic p.1)

/-- Topic keys after one subscriber iteration. -/
theorem topicKeys_applySubT (m : MasterInfo) (p : String × List String) :
    (applySubT m p).topiclist.map Prod.fst = (m.addTopic p.1).topiclist.map Prod.fst := by
  unfold applySubT
  exact foldl_pres (fun acc n =>
      ((acc.addNode n).modNode n (fun nd => nd.addSubscribedTopic p.1)).modTopic p.1
        (fun t => t.addSubscriberNode n))
    (fun mm => mm.topiclist.map Prod.fst)
    (fun acc n => by
      show ((((acc.addNode n).modNode n (fun nd => nd.addSubscribedTopic p.1)).modTopic p.1
        (fun t => t.addSubscriberNode n)).topiclist.map Prod.fst)
          = acc.topiclist.map Prod.fst
      rw [topicKeys_modTopic]
      show (acc.addNode n).topiclist.map Prod.fst = acc.topiclist.map Prod.fst
      rw [topiclist_addNode])
    p.2 (m.addTopic p.1)

/-- Topic keys after one topic-type iteration. -/
theorem topicKeys_applyTopicTypeT (m : MasterInfo) (p : String × Option String) :
    (applyTopicTypeT m p).topiclist.map Prod.fst = (m.addTopic p.1).topiclist.map Prod.fst := by
  unfold applyTopicTypeT
  exact topicKeys_modTopic (m.addTopic p.1) p.1 (fun t => { t with typ := p.2 })

/-- Service keys after one service iteration. -/
theorem serviceKeys_applySrvT (m : MasterInfo) (p : String × List String) :
    (applySrvT m p).servicelist.map Prod.fst
      = (m.addService p.1).servicelist.map Prod.fst := by
  unfold applySrvT
  exact foldl_pres (fun acc n =>
      ((acc.addNode n).modNode n (fun nd => nd.addServiceName p.1)).modService p.1
        (fun s => s.addProvider n))
    (fun mm => mm.servicelist.map Prod.fst)
    (fun acc n => by
      show ((((acc.addNode n).modNode n (fun nd => nd.addServiceName p.1)).modService p.1
        (fun s => s.addProvider n)).servicelist.map Prod.fst)
          = acc.servicelist.map Prod.fst
      rw [serviceKeys_modService]
      show (acc.addNode n).servicelist.map Prod.fst = acc.servicelist.map Prod.fst
      rw [servicelist_addNode])
    p.2 (m.addService p.1)

/-- Service keys after one service-information iteration. -/
theorem serviceKeys_applySrvEntryT (m : MasterInfo) (e : SrvEntry) :
    (applySrvEntryT m e).servicelist.map Prod.fst
      = (m.addService e.servicename).servicelist.map Prod.fst := by
  unfold applySrvEntryT
  exact serviceKeys_modService (m.addService e.servicename) e.servicename
    (fun s => updSrvEntry s e)

/-- Node-key membership across the publisher phase. -/
theorem mem_nodeKeys_foldPubs (pubs : List (String × List String)) :
    ∀ (acc : MasterInfo) (k : String),
    k ∈ (pubs.foldl applyPubT acc).nodelist.map Prod.fst
      ↔ k ∈ acc.nodelist.map Prod.fst ∨ ((∃ p ∈ pubs, k ∈ p.2) ∧ k ≠ "") := by
  induction pubs with
  | nil =>
    intro acc k
    simp
  | cons p pubs ih =>
    intro acc k
    rw [List.foldl_cons, ih, mem_nodeKeys_applyPubT]
    constructor
    · rintro ((h | ⟨hm, hk⟩) | ⟨⟨q, hq, hkq⟩, hk⟩)
      · exact Or.inl h
      · exact Or.inr ⟨⟨p, List.mem_cons_self p pubs, hm⟩, hk⟩
      · exact Or.inr ⟨⟨q, List.mem_cons_of_mem p hq, hkq⟩, hk⟩
    · rintro (h | ⟨⟨q, hq, hkq⟩, hk⟩)
      · exact Or.inl (Or.inl h)
      · rcases List.mem_cons.mp hq with rfl | hq2
        · exact Or.inl (Or.inr ⟨hkq, hk⟩)
        · exact Or.inr ⟨⟨q, hq2, hkq⟩, hk⟩

/-- Node-key membership across the subscriber phase. -/
theorem mem_nodeKeys_foldSubs (subs : List (String × List String)) :
    ∀ (acc : MasterInfo) (k : String),
    k ∈ (subs.foldl applySubT acc).nodelist.map Prod.fst
      ↔ k ∈ acc.nodelist.map Prod.fst ∨ ((∃ p ∈ subs, k ∈ p.2) ∧ k ≠ "") := by
  induction subs with
  | nil =>
    intro acc k
    simp
  | cons p subs ih =>
    intro acc k
    rw [List.foldl_cons, ih, mem_nodeKeys_applySubT]
    constructor
    · rintro ((h | ⟨hm, hk⟩) | ⟨⟨q, hq, hkq⟩, hk⟩)
      · exact Or.inl h
      · exact Or.inr ⟨⟨p, List.mem_cons_self p subs, hm⟩, hk⟩
      · exact Or.inr ⟨⟨q, List.mem_cons_of_mem p hq, hkq⟩, hk⟩
    · rintro (h | ⟨⟨q, hq, hkq⟩, hk⟩)
      · exact Or.inl (Or.inl h)
      · rcases List.mem_cons.mp hq with rfl | hq2
        · exact Or.inl (Or.inr ⟨hkq, hk⟩)
        · exact Or.inr ⟨⟨q, hq2, hkq⟩, hk⟩

/-- Node-key membership across the service phase. -/
theorem mem_nodeKeys_foldSrvs (srvs : List (String × List String)) :
    ∀ (acc : MasterInfo) (k : String),
    k ∈ (srvs.foldl applySrvT acc).nodelist.map Prod.fst
      ↔ k ∈ acc.nodelist.map Prod.fst ∨ ((∃ p ∈ srvs, k ∈ p.2) ∧ k ≠ "") := by
  induction srvs with
  | nil =>
    intro acc k
    simp
  | cons p srvs ih =>
    intro acc k
    rw [List.foldl_cons, ih, mem_nodeKeys_applySrvT]
    constructor
    · rintro ((h | ⟨hm, hk⟩) | ⟨⟨q, hq, hkq⟩, hk⟩)
      · exact Or.inl h
      · exact Or.inr ⟨⟨p, List.mem_cons_self p srvs, hm⟩, hk⟩
      · exact Or.inr ⟨⟨q, List.mem_cons_of_mem p hq, hkq⟩, hk⟩
    · rintro (h | ⟨⟨q, hq, hkq⟩, hk⟩)
      · exact Or.inl (Or.inl h)
      · rcases List.mem_cons.mp hq with rfl | hq2
        · exact Or.inl (Or.inr ⟨hkq, hk⟩)
        · exact Or.inr ⟨⟨q, hq2, hkq⟩, hk⟩

/-- Node-key membership across the node-information phase. -/
theorem mem_nodeKeys_foldNodes (entries : List NodeEntry) :
    ∀ (acc : MasterInfo) (k : String),
    k ∈ (entries.foldl applyNodeEntryT acc).nodelist.map Prod.fst
      ↔ k ∈ acc.nodelist.map Prod.fst ∨ (k ∈ entries.map NodeEntry.nodename ∧ k ≠ "") := by
  induction entries with
  | nil =>
    intro acc k
    simp
  | cons e entries ih =>
    intro acc k
    rw [List.foldl_cons, ih, mem_nodeKeys_applyNodeEntryT, List.map_cons, List.mem_cons]
    constructor
    · rintro ((h | ⟨rfl, hk⟩) | ⟨hm, hk⟩)
      · exact Or.inl h
      · exact Or.inr ⟨Or.inl rfl, hk⟩
      · exact Or.inr ⟨Or.inr hm, hk⟩
    · rintro (h | ⟨hm | hm, hk⟩)
      · exact Or.inl (Or.inl h)
      · exact Or.inl (Or.inr ⟨hm, hm ▸ hk⟩)
      · exact Or.inr ⟨hm, hk⟩

/-- Topic-key membership across the publisher phase. -/
theorem mem_topicKeys_foldPubs (pubs : List (String × List String)) :
    ∀ (acc : MasterInfo) (k : String),
    k ∈ (pubs.foldl applyPubT acc).topiclist.map Prod.fst
      ↔ k ∈ acc.topiclist.map Prod.fst ∨ (k ∈ pubs.map Prod.fst ∧ k ≠ "") := by
  induction pubs with
  | nil =>
    intro acc k
    simp
  | cons p pubs ih =>
    intro acc k
    rw [List.foldl_cons, ih, topicKeys_applyPubT, mem_topicKeys_addTopic, List.map_cons,
      List.mem_cons]
    constructor
    · rintro ((h | ⟨rfl, hk⟩) | ⟨hm, hk⟩)
      · exact Or.inl h
      · exact Or.inr ⟨Or.inl rfl, hk⟩
      · exact Or.inr ⟨Or.inr hm, hk⟩
    · rintro (h | ⟨hm | hm, hk⟩)
      · exact Or.inl (Or.inl h)
      · exact Or.inl (Or.inr ⟨hm, hm ▸ hk⟩)
      · exact Or.inr ⟨hm, hk⟩

/-- Topic-key membership across the subscriber phase. -/
theorem mem_topicKeys_foldSubs (subs : List (String × List String)) :
    ∀ (acc : MasterInfo) (k : String),
    k ∈ (subs.foldl applySubT acc).topiclist.map Prod.fst
      ↔ k ∈ acc.topiclist.map Prod.fst ∨ (k ∈ subs.map Prod.fst ∧ k ≠ "") := by
  induction subs with
  | nil =>
    intro acc k
    simp
  | cons p subs ih =>
    intro acc k
    rw [List.foldl_cons, ih, topicKeys_applySubT, mem_topicKeys_addTopic, List.map_cons,
      List.mem_cons]
    constructor
    · rintro ((h | ⟨rfl, hk⟩) | ⟨hm, hk⟩)
      · exact Or.inl h
      · exact Or.inr ⟨Or.inl rfl, hk⟩
      · exact Or.inr ⟨Or.inr hm, hk⟩
    · rintro (h | ⟨hm | hm, hk⟩)
      · exact Or.inl (Or.inl h)
      · exact Or.inl (Or.inr ⟨hm, hm ▸ hk⟩)
      · exact Or.inr ⟨hm, hk⟩

/-- Topic-key membership across the topic-type phase. -/
theorem mem_topicKeys_foldTT (tts : List (String × Option String)) :
    ∀ (acc : MasterInfo) (k : String),
    k ∈ (tts.foldl applyTopicTypeT acc).topiclist.map Prod.fst
      ↔ k ∈ acc.topiclist.map Prod.fst ∨ (k ∈ tts.map Prod.fst ∧ k ≠ "") := by
  induction tts with
  | nil =>
    intro acc k
    simp
  | cons p tts ih =>
    intro acc k
    rw [List.foldl_cons, ih, topicKeys_applyTopicTypeT, mem_topicKeys_addTopic, List.map_cons,
      List.mem_cons]
    constructor
    · rintro ((h | ⟨rfl, hk⟩) | ⟨hm, hk⟩)
      · exact Or.inl h
      · exact Or.inr ⟨Or.inl rfl, hk⟩
      · exact Or.inr ⟨Or.inr hm, hk⟩
    · rintro (h | ⟨hm | hm, hk⟩)
      · exact Or.inl (Or.inl h)
      · exact Or.inl (Or.inr ⟨hm, hm ▸ hk⟩)
      · exact Or.inr ⟨hm, hk⟩

/-- Service-key membership across the service phase. -/
theorem mem_serviceKeys_foldSrvs (srvs : List (String × List String)) :
    ∀ (acc : MasterInfo) (k : String),
    k ∈ (srvs.foldl applySrvT acc).servicelist.map Prod.fst
      ↔ k ∈ acc.servicelist.map Prod.fst ∨ (k ∈ srvs.map Prod.fst ∧ k ≠ "") := by
  induction srvs with
  | nil =>
    intro acc k
    simp
  | cons p srvs ih =>
    intro acc k
    rw [List.foldl_cons, ih, serviceKeys_applySrvT, mem_serviceKeys_addService, List.map_cons,
      List.mem_cons]
    constructor
    · rintro ((h | ⟨rfl, hk⟩) | ⟨hm, hk⟩)
      · exact Or.inl h
      · exact Or.inr ⟨Or.inl rfl, hk⟩
      · exact Or.inr ⟨Or.inr hm, hk⟩
    · rintro (h | ⟨hm | hm, hk⟩)
      · exact Or.inl (Or.inl h)
      · exact Or.inl (Or.inr ⟨hm, hm ▸ hk⟩)
      · exact Or.inr ⟨hm, hk⟩

/-- Service-key membership across the service-information phase. -/
theorem mem_serviceKeys_foldSrvEntries (entries : List SrvEntry) :
    ∀ (acc : MasterInfo) (k : String),
    k ∈ (entries.foldl applySrvEntryT acc).servicelist.map Prod.fst
      ↔ k ∈ acc.servicelist.map Prod.fst
        ∨ (k ∈ entries.map SrvEntry.servicename ∧ k ≠ "") := by
  induction entries with
  | nil =>
    intro acc k
    simp
  | cons e entries ih =>
    intro acc k
    rw [List.foldl_cons, ih, serviceKeys_applySrvEntryT, mem_serviceKeys_addService,
      List.map_cons, List.mem_cons]
    constructor
    · rintro ((h | ⟨rfl, hk⟩) | ⟨hm, hk⟩)
      · exact Or.inl h
      · exact Or.inr ⟨Or.inl rfl, hk⟩
      · exact Or.inr ⟨Or.inr hm, hk⟩
    · rintro (h | ⟨hm | hm, hk⟩)
      · exact Or.inl (Or.inl h)
      · exact Or.inl (Or.inr ⟨hm, hm ▸ hk⟩)
      · exact Or.inr ⟨hm, hk⟩

/-- Registering a node keeps node keys distinct. -/
theorem nodup_nodeKeys_addNode (m : MasterInfo) (n : String)
    (h : (m.nodelist.map Prod.fst).Nodup) :
    ((m.addNode n).nodelist.map Prod.fst).Nodup := by
  unfold MasterInfo.addNode
  by_cases hn : n = ""
  · rw [if_pos hn]
    exact h
  · rw [if_neg hn]
    show ((ainsert m.nodelist n (NodeInfo.mk0 n m.masteruri)).map Prod.fst).Nodup
    exact nodup_keys_ainsert m.nodelist n _ h

/-- Registering a topic keeps topic keys distinct. -/
theorem nodup_topicKeys_addTopic (m : MasterInfo) (t : String)
    (h : (m.topiclist.map Prod.fst).Nodup) :
    ((m.addTopic t).topiclist.map Prod.fst).Nodup := by
  unfold MasterInfo.addTopic
  by_cases ht : t = ""
  · rw [if_pos ht]
    exact h
  · rw [if_neg ht]
    show ((ainsert m.topiclist t (TopicInfo.mk0 t)).map Prod.fst).Nodup
    exact nodup_keys_ainsert m.topiclist t _ h

/-- Registering a service keeps service keys distinct. -/
theorem nodup_serviceKeys_addService (m : MasterInfo) (s : String)
    (h : (m.servicelist.map Prod.fst).Nodup) :
    ((m.addService s).servicelist.map Prod.fst).Nodup := by
  unfold MasterInfo.addService
  by_cases hs : s = ""
  · rw [if_pos hs]
    exact h
  · rw [if_neg hs]
    show ((ainsert m.servicelist s (ServiceInfo.mk0 s m.masteruri)).map Prod.fst).Nodup
    exact nodup_keys_ainsert m.servicelist s _ h

/-- One publisher iteration keeps node keys distinct. -/
theorem nodup_nodeKeys_applyPubT (m : MasterInfo) (p : String × List String)
    (h : (m.nodelist.map Prod.fst).Nodup) :
    ((applyPubT m p).nodelist.map Prod.fst).Nodup := by
  unfold applyPubT
  refine foldl_pred _ (fun mm => (mm.nodelist.map Prod.fst).Nodup) ?_ p.2 (m.addTopic p.1) ?_
  · intro acc n hacc
    show ((((acc.addNode n).modNode n (fun nd => nd.addPublishedTopic p.1)).modTopic p.1
      (fun t => t.addPublisherNode n)).nodelist.map Prod.fst).Nodup
    show (((acc.addNode n).modNode n (fun nd => nd.addPublishedTopic p.1)).nodelist.map
      Prod.fst).Nodup
    rw [nodeKeys_modNode]
    exact nodup_nodeKeys_addNode acc n hacc
  · show ((m.addTopic p.1).nodelist.map Prod.fst).Nodup
    rw [nodelist_addTopic]
    exact h

/-- One subscriber iteration keeps node keys distinct. -/
theorem nodup_nodeKeys_applySubT (m : MasterInfo) (p : String × List String)
    (h : (m.nodelist.map Prod.fst).Nodup) :
    ((applySubT m p).nodelist.map Prod.fst).Nodup := by
  unfold applySubT
  refine foldl_pred _ (fun mm => (mm.nodelist.map Prod.fst).Nodup) ?_ p.2 (m.addTopic p.1) ?_
  · intro acc n hacc
    show ((((acc.addNode n).modNode n (fun nd => nd.addSubscribedTopic p.1)).modTopic p.1
      (fun t => t.addSubscriberNode n)).nodelist.map Prod.fst).Nodup
    show (((acc.addNode n).modNode n (fun nd => nd.addSubscribedTopic p.1)).nodelist.map
      Prod.fst).Nodup
    rw [nodeKeys_modNode]
    exact nodup_nodeKeys_addNode acc n hacc
  · show ((m.addTopic p.1).nodelist.map Prod.fst).Nodup
    rw [nodelist_addTopic]
    exact h

/-- One service iteration keeps node keys distinct. -/
theorem nodup_nodeKeys_applySrvT (m : MasterInfo) (p : String × List String)
    (h : (m.nodelist.map Prod.fst).Nodup) :
    ((applySrvT m p).nodelist.map Prod.fst).Nodup := by
  unfold applySrvT
  refine foldl_pred _ (fun mm => (mm.nodelist.map Prod.fst).Nodup) ?_ p.2 (m.addService p.1) ?_
  · intro acc n hacc
    show ((((acc.addNode n).modNode n (fun nd => nd.addServiceName p.1)).modService p.1
      (fun s => s.addProvider n)).nodelist.map Prod.fst).Nodup
    show (((acc.addNode n).modNode n (fun nd => nd.addServiceName p.1)).nodelist.map
      Prod.fst).Nodup
    rw [nodeKeys_modNode]
    exact nodup_nodeKeys_addNode acc n hacc
  · show ((m.addService p.1).nodelist.map Prod.fst).Nodup
    rw [nodelist_addService]
    exact h

/-- The reconstructed node keys are distinct. -/
theorem nodup_nodeKeys_fromListT (now : ℚ) (l : ListedState) :
    ((fromListT now l).nodelist.map Prod.fst).Nodup := by
  have h0 : ((((MasterInfo.mk0 l.masteruri l.mastername).setTimestamp
      now)).nodelist.map Prod.fst).Nodup := List.nodup_nil
  have h1 : ((stage1 now l).nodelist.map Prod.fst).Nodup :=
    foldl_pred applyPubT (fun mm => (mm.nodelist.map Prod.fst).Nodup)
      (fun s a hs => nodup_nodeKeys_applyPubT s a hs) l.publishers _ h0
  have h2 : ((stage2 now l).nodelist.map Prod.fst).Nodup :=
    foldl_pred applySubT (fun mm => (mm.nodelist.map Prod.fst).Nodup)
      (fun s a hs => nodup_nodeKeys_applySubT s a hs) l.subscribers _ h1
  have h3 : ((stage3 now l).nodelist.map Prod.fst).Nodup :=
    foldl_pred applySrvT (fun mm => (mm.nodelist.map Prod.fst).Nodup)
      (fun s a hs => nodup_nodeKeys_applySrvT s a hs) l.services _ h2
  have h4 : ((stage4 now l).nodelist.map Prod.fst).Nodup :=
    foldl_pred applyTopicTypeT (fun mm => (mm.nodelist.map Prod.fst).Nodup)
      (fun s a hs => by
        show (((applyTopicTypeT s a).nodelist).map Prod.fst).Nodup
        rw [nodelist_applyTopicTypeT]
        exact hs) l.topicTypes _ h3
  have h5 : ((stage5 now l).nodelist.map Prod.fst).Nodup :=
    foldl_pred applyNodeEntryT (fun mm => (mm.nodelist.map Prod.fst).Nodup)
      (fun s a hs => by
        show (((applyNodeEntryT s a).nodelist).map Prod.fst).Nodup
        show (((s.addNode a.nodename).modNode a.nodename
          (fun nd => updEntry nd a)).nodelist.map Prod.fst).Nodup
        rw [nodeKeys_modNode]
        exact nodup_nodeKeys_addNode s a.nodename hs) l.nodes _ h4
  show ((l.serviceProvider.foldl applySrvEntryT (stage5 now l)).nodelist.map Prod.fst).Nodup
  exact foldl_pred applySrvEntryT (fun mm => (mm.nodelist.map Prod.fst).Nodup)
    (fun s a hs => by
      show (((applySrvEntryT s a).nodelist).map Prod.fst).Nodup
      rw [nodelist_applySrvEntryT]
      exact hs) l.serviceProvider _ h5

/-- The reconstructed service keys are distinct. -/
theorem nodup_serviceKeys_fromListT (now : ℚ) (l : ListedState) :
    ((fromListT now l).servicelist.map Prod.fst).Nodup := by
  have h0 : ((((MasterInfo.mk0 l.masteruri l.mastername).setTimestamp
      now)).servicelist.map Prod.fst).Nodup := List.nodup_nil
  have h1 : ((stage1 now l).servicelist.map Prod.fst).Nodup :=
    foldl_pred applyPubT (fun mm => (mm.servicelist.map Prod.fst).Nodup)
      (fun s a hs => by
        show (((applyPubT s a).servicelist).map Prod.fst).Nodup
        rw [servicelist_applyPubT]
        exact hs) l.publishers _ h0
  have h2 : ((stage2 now l).servicelist.map Prod.fst).Nodup :=
    foldl_pred applySubT (fun mm => (mm.servicelist.map Prod.fst).Nodup)
      (fun s a hs => by
        show (((applySubT s a).servicelist).map Prod.fst).Nodup
        rw [servicelist_applySubT]
        exact hs) l.subscribers _ h1
  have h3 : ((stage3 now l).servicelist.map Prod.fst).Nodup :=
    foldl_pred applySrvT (fun mm => (mm.servicelist.map Prod.fst).Nodup)
      (fun s a hs => by
        show (((applySrvT s a).servicelist).map Prod.fst).Nodup
        rw [serviceKeys_applySrvT]
        exact nodup_serviceKeys_addService s a.1 hs) l.services _ h2
  have h4 : ((stage4 now l).servicelist.map Prod.fst).Nodup :=
    foldl_pred applyTopicTypeT (fun mm => (mm.servicelist.map Prod.fst).Nodup)
      (fun s a hs => by
        show (((applyTopicTypeT s a).servicelist).map Prod.fst).Nodup
        rw [servicelist_applyTopicTypeT]
        exact hs) l.topicTypes _ h3
  have h5 : ((stage5 now l).servicelist.map Prod.fst).Nodup :=
    foldl_pred applyNodeEntryT (fun mm => (mm.servicelist.map Prod.fst).Nodup)
      (fun s a hs => by
        show (((applyNodeEntryT s a).servicelist).map Prod.fst).Nodup
        rw [servicelist_applyNodeEntryT]
        exact hs) l.nodes _ h4
  show ((l.serviceProvider.foldl applySrvEntryT
    (stage5 now l)).servicelist.map Prod.fst).Nodup
  exact foldl_pred applySrvEntryT (fun mm => (mm.servicelist.map Prod.fst).Nodup)
    (fun s a hs => by
      show (((applySrvEntryT s a).servicelist).map Prod.fst).Nodup
      rw [serviceKeys_applySrvEntryT]
      exact nodup_serviceKeys_addService s a.servicename hs) l.serviceProvider _ h5

/-- Node names of the reconstructed state. -/
theorem mem_node_names_fromListT (now : ℚ) (l : ListedState) (k : String) :
    k ∈ (fromListT now l).node_names
      ↔ (((∃ p ∈ l.publishers, k ∈ p.2) ∨ (∃ p ∈ l.subscribers, k ∈ p.2)
          ∨ (∃ p ∈ l.services, k ∈ p.2) ∨ k ∈ l.nodes.map NodeEntry.nodename)
        ∧ k ≠ "") := by
  show k ∈ (l.serviceProvider.foldl applySrvEntryT (stage5 now l)).nodelist.map Prod.fst ↔ _
  rw [foldl_pres applySrvEntryT MasterInfo.nodelist nodelist_applySrvEntryT
    l.serviceProvider (stage5 now l)]
  show k ∈ (l.nodes.foldl applyNodeEntryT (stage4 now l)).nodelist.map Prod.fst ↔ _
  rw [mem_nodeKeys_foldNodes l.nodes (stage4 now l) k]
  show k ∈ (l.topicTypes.foldl applyTopicTypeT (stage3 now l)).nodelist.map Prod.fst
    ∨ (k ∈ l.nodes.map NodeEntry.nodename ∧ k ≠ "") ↔ _
  rw [foldl_pres applyTopicTypeT MasterInfo.nodelist nodelist_applyTopicTypeT
    l.topicTypes (stage3 now l)]
  show k ∈ (l.services.foldl applySrvT (stage2 now l)).nodelist.map Prod.fst
    ∨ (k ∈ l.nodes.map NodeEntry.nodename ∧ k ≠ "") ↔ _
  rw [mem_nodeKeys_foldSrvs l.services (stage2 now l) k]
  show (k ∈ (l.subscribers.foldl applySubT (stage1 now l)).nodelist.map Prod.fst
    ∨ ((∃ p ∈ l.services, k ∈ p.2) ∧ k ≠ ""))
    ∨ (k ∈ l.nodes.map NodeEntry.nodename ∧ k ≠ "") ↔ _
  rw [mem_nodeKeys_foldSubs l.subscribers (stage1 now l) k]
  show ((k ∈ (l.publishers.foldl applyPubT ((MasterInfo.mk0 l.masteruri
      l.mastername).setTimestamp now)).nodelist.map Prod.fst
    ∨ ((∃ p ∈ l.subscribers, k ∈ p.2) ∧ k ≠ ""))
    ∨ ((∃ p ∈ l.services, k ∈ p.2) ∧ k ≠ ""))
    ∨ (k ∈ l.nodes.map NodeEntry.nodename ∧ k ≠ "") ↔ _
  rw [mem_nodeKeys_foldPubs l.publishers _ k]
  show (((k ∈ ([] : List (String × NodeInfo)).map Prod.fst
    ∨ ((∃ p ∈ l.publishers, k ∈ p.2) ∧ k ≠ ""))
    ∨ ((∃ p ∈ l.subscribers, k ∈ p.2) ∧ k ≠ ""))
    ∨ ((∃ p ∈ l.services, k ∈ p.2) ∧ k ≠ ""))
    ∨ (k ∈ l.nodes.map NodeEntry.nodename ∧ k ≠ "") ↔ _
  simp only [List.map_nil, List.not_mem_nil, false_or]
  constructor
  · rintro (((⟨h, hk⟩ | ⟨h, hk⟩) | ⟨h, hk⟩) | ⟨h, hk⟩)
    · exact ⟨Or.inl h, hk⟩
    · exact ⟨Or.inr (Or.inl h), hk⟩
    · exact ⟨Or.inr (Or.inr (Or.inl h)), hk⟩
    · exact ⟨Or.inr (Or.inr (Or.inr h)), hk⟩
  · rintro ⟨h | h | h | h, hk⟩
    · exact Or.inl (Or.inl (Or.inl ⟨h, hk⟩))
    · exact Or.inl (Or.inl (Or.inr ⟨h, hk⟩))
    · exact Or.inl (Or.inr ⟨h, hk⟩)
    · exact Or.inr ⟨h, hk⟩

/-- Topic names of the reconstructed state. -/
theorem mem_topic_names_fromListT (now : ℚ) (l : ListedState) (k : String) :
    k ∈ (fromListT now l).topic_names
      ↔ ((k ∈ l.publishers.map Prod.fst ∨ k ∈ l.subscribers.map Prod.fst
          ∨ k ∈ l.topicTypes.map Prod.fst) ∧ k ≠ "") := by
  show k ∈ (l.serviceProvider.foldl applySrvEntryT (stage5 now l)).topiclist.map Prod.fst ↔ _
  rw [foldl_pres applySrvEntryT MasterInfo.topiclist topiclist_applySrvEntryT
    l.serviceProvider (stage5 now l)]
  show k ∈ (l.nodes.foldl applyNodeEntryT (stage4 now l)).topiclist.map Prod.fst ↔ _
  rw [foldl_pres applyNodeEntryT MasterInfo.topiclist topiclist_applyNodeEntryT
    l.nodes (stage4 now l)]
  show k ∈ (l.topicTypes.foldl applyTopicTypeT (stage3 now l)).topiclist.map Prod.fst ↔ _
  rw [mem_topicKeys_foldTT l.topicTypes (stage3 now l) k]
  show k ∈ (l.services.foldl applySrvT (stage2 now l)).topiclist.map Prod.fst
    ∨ (k ∈ l.topicTypes.map Prod.fst ∧ k ≠ "") ↔ _
  rw [foldl_pres applySrvT MasterInfo.topiclist topiclist_applySrvT
    l.services (stage2 now l)]
  show k ∈ (l.subscribers.foldl applySubT (stage1 now l)).topiclist.map Prod.fst
    ∨ (k ∈ l.topicTypes.map Prod.fst ∧ k ≠ "") ↔ _
  rw [mem_topicKeys_foldSubs l.subscribers (stage1 now l) k]
  show (k ∈ (l.publishers.foldl applyPubT ((MasterInfo.mk0 l.masteruri
      l.mastername).setTimestamp now)).topiclist.map Prod.fst
    ∨ (k ∈ l.subscribers.map Prod.fst ∧ k ≠ ""))
    ∨ (k ∈ l.topicTypes.map Prod.fst ∧ k ≠ "") ↔ _
  rw [mem_topicKeys_foldPubs l.publishers _ k]
  show ((k ∈ ([] : List (String × TopicInfo)).map Prod.fst
    ∨ (k ∈ l.publishers.map Prod.fst ∧ k ≠ ""))
    ∨ (k ∈ l.subscribers.map Prod.fst ∧ k ≠ ""))
    ∨ (k ∈ l.topicTypes.map Prod.fst ∧ k ≠ "") ↔ _
  simp only [List.map_nil, List.not_mem_nil, false_or]
  constructor
  · rintro ((⟨h, hk⟩ | ⟨h, hk⟩) | ⟨h, hk⟩)
    · exact ⟨Or.inl h, hk⟩
    · exact ⟨Or.inr (Or.inl h), hk⟩
    · exact ⟨Or.inr (Or.inr h), hk⟩
  · rintro ⟨h | h | h, hk⟩
    · exact Or.inl (Or.inl ⟨h, hk⟩)
    · exact Or.inl (Or.inr ⟨h, hk⟩)
    · exact Or.inr ⟨h, hk⟩

/-- Service names of the reconstructed state. -/
theorem mem_service_names_fromListT (now : ℚ) (l : ListedState) (k : String) :
    k ∈ (fromListT now l).service_names
      ↔ ((k ∈ l.services.map Prod.fst ∨ k ∈ l.serviceProvider.map SrvEntry.servicename)
        ∧ k ≠ "") := by
  show k ∈ (l.serviceProvider.foldl applySrvEntryT (stage5 now l)).servicelist.map Prod.fst ↔ _
  rw [mem_serviceKeys_foldSrvEntries l.serviceProvider (stage5 now l) k]
  show k ∈ (l.nodes.foldl applyNodeEntryT (stage4 now l)).servicelist.map Prod.fst
    ∨ (k ∈ l.serviceProvider.map SrvEntry.servicename ∧ k ≠ "") ↔ _
  rw [foldl_pres applyNodeEntryT MasterInfo.servicelist servicelist_applyNodeEntryT
    l.nodes (stage4 now l)]
  show k ∈ (l.topicTypes.foldl applyTopicTypeT (stage3 now l)).servicelist.map Prod.fst
    ∨ (k ∈ l.serviceProvider.map SrvEntry.servicename ∧ k ≠ "") ↔ _
  rw [foldl_pres applyTopicTypeT MasterInfo.servicelist servicelist_applyTopicTypeT
    l.topicTypes (stage3 now l)]
  show k ∈ (l.services.foldl applySrvT (stage2 now l)).servicelist.map Prod.fst
    ∨ (k ∈ l.serviceProvider.map SrvEntry.servicename ∧ k ≠ "") ↔ _
  rw [mem_serviceKeys_foldSrvs l.services (stage2 now l) k]
  show (k ∈ (l.subscribers.foldl applySubT (stage1 now l)).servicelist.map Prod.fst
    ∨ (k ∈ l.services.map Prod.fst ∧ k ≠ ""))
    ∨ (k ∈ l.serviceProvider.map SrvEntry.servicename ∧ k ≠ "") ↔ _
  rw [foldl_pres applySubT MasterInfo.servicelist servicelist_applySubT
    l.subscribers (stage1 now l)]
  show (k ∈ (l.publishers.foldl applyPubT ((MasterInfo.mk0 l.masteruri
      l.mastername).setTimestamp now)).servicelist.map Prod.fst
    ∨ (k ∈ l.services.map Prod.fst ∧ k ≠ ""))
    ∨ (k ∈ l.serviceProvider.map SrvEntry.servicename ∧ k ≠ "") ↔ _
  rw [foldl_pres applyPubT MasterInfo.servicelist servicelist_applyPubT
    l.publishers _]
  show ((k ∈ ([] : List (String × ServiceInfo)).map Prod.fst
    ∨ (k ∈ l.services.map Prod.fst ∧ k ≠ ""))
    ∨ (k ∈ l.serviceProvider.map SrvEntry.servicename ∧ k ≠ "")) ↔ _
  simp only [List.map_nil, List.not_mem_nil, false_or]
  constructor
  · rintro (⟨h, hk⟩ | ⟨h, hk⟩)
    · exact ⟨Or.inl h, hk⟩
    · exact ⟨Or.inr h, hk⟩
  · rintro ⟨h | h, hk⟩
    · exact Or.inl ⟨h, hk⟩
    · exact Or.inr ⟨h, hk⟩

/-- The service-lookup effect of the service-information phase. -/
theorem getService_foldSrvEntries (entries : List SrvEntry) :
    ∀ (acc : MasterInfo) (k : String), k ≠ "" →
    ((entries.foldl applySrvEntryT acc).getService k)
      = (entries.filter (fun e => e.servicename = k)).foldl
          (fun o e => some (updSrvEntry (o.getD (ServiceInfo.mk0 k acc.masteruri)) e))
          (acc.getService k) := by
  induction entries with
  | nil =>
    intro acc k hk
    rfl
  | cons e entries ih =>
    intro acc k hk
    rw [List.foldl_cons, List.filter_cons, ih (applySrvEntryT acc e) k hk]
    have hmu : (applySrvEntryT acc e).masteruri = acc.masteruri := masteruri_applySrvEntryT acc e
    rw [hmu]
    by_cases he : e.servicename = k
    · rw [if_pos (by simp [he])]
      have hacc2 : (applySrvEntryT acc e).getService k
          = some (updSrvEntry ((alookup acc.servicelist k).getD
              (ServiceInfo.mk0 k acc.masteruri)) e) := by
        unfold applySrvEntryT
        rw [he, getService_modService_self, getService_addService_self acc k hk]
        rfl
      have hget : acc.getService k = alookup acc.servicelist k := by
        unfold MasterInfo.getService
        rw [if_neg hk]
      rw [hacc2, List.foldl_cons, hget]
    · rw [if_neg (by simp [he])]
      have hacc2 : (applySrvEntryT acc e).getService k = acc.getService k := by
        unfold applySrvEntryT
        rw [getService_modService_ne _ _ _ _ (fun hh => he hh.symm),
          getService_addService_ne _ _ _ (fun hh => he hh.symm)]
      rw [hacc2]

/-- A service lookup in the fully reconstructed state. -/
theorem getService_fromListT (now : ℚ) (l : ListedState) (k : String) (hk : k ≠ "") :
    (fromListT now l).getService k
      = (l.serviceProvider.filter (fun e => e.servicename = k)).foldl
          (fun o e => some (updSrvEntry (o.getD (ServiceInfo.mk0 k l.masteruri)) e))
          ((stage5 now l).getService k) := by
  show (l.serviceProvider.foldl applySrvEntryT (stage5 now l)).getService k = _
  rw [getService_foldSrvEntries l.serviceProvider (stage5 now l) k hk, masteruri_stage5]

/-- Filtering a keyed map by the key of a present entry leaves exactly the
image of that entry, when keys are distinct. -/
theorem filter_map_fst {α β : Type} (g : String × α → β) (nameOf : β → String)
    (hname : ∀ p, nameOf (g p) = p.1) (l : List (String × α)) :
    ∀ (k : String) (v : α), (l.map Prod.fst).Nodup → alookup l k = some v →
    (l.map g).filter (fun e => nameOf e = k) = [g (k, v)] := by
  induction l with
  | nil =>
    intro k v _ hv
    exact absurd hv (by simp [alookup])
  | cons p rest ih =>
    intro k v hnd hv
    obtain ⟨pk, pv⟩ := p
    rw [List.map_cons, List.nodup_cons] at hnd
    rw [List.map_cons, List.filter_cons]
    have hlook : alookup ((pk, pv) :: rest) k
        = if pk = k then some pv else alookup rest k := rfl
    by_cases hpk : pk = k
    · subst hpk
      rw [hlook, if_pos rfl, Option.some.injEq] at hv
      subst hv
      rw [if_pos (by simp [hname (pk, pv)])]
      have hrest : (rest.map g).filter (fun e => nameOf e = pk) = [] := by
        rw [List.filter_eq_nil_iff]
        intro b hb
        rw [List.mem_map] at hb
        obtain ⟨q, hq, hgq⟩ := hb
        rw [← hgq]
        simp only [hname q, decide_eq_true_eq]
        intro hqk
        refine hnd.1 ?_
        rw [← hqk]
        show q.1 ∈ List.map Prod.fst rest
        exact List.mem_map_of_mem Prod.fst hq
      rw [hrest]
    · rw [hlook, if_neg hpk] at hv
      rw [if_neg (by simp [hname (pk, pv), hpk])]
      exact ih k v hnd.2 hv

/-- Filtering a keyed map by an absent key leaves nothing. -/
theorem filter_map_fst_nil {α β : Type} (g : String × α → β) (nameOf : β → String)
    (hname : ∀ p, nameOf (g p) = p.1) (l : List (String × α)) (k : String)
    (hk : k ∉ l.map Prod.fst) :
    (l.map g).filter (fun e => nameOf e = k) = [] := by
  rw [List.filter_eq_nil_iff]
  intro b hb
  rw [List.mem_map] at hb
  obtain ⟨q, hq, hgq⟩ := hb
  rw [← hgq]
  simp only [hname q, decide_eq_true_eq]
  intro hqk
  refine hk ?_
  rw [← hqk]
  exact List.mem_map_of_mem Prod.fst hq

/-- The node names listed by `listedState` are the node keys. -/
theorem listed_nodes_map (m : MasterInfo) :
    (m.listedState).nodes.map NodeEntry.nodename = m.nodelist.map Prod.fst := by
  show (m.nodelist.map (fun p => ((⟨p.1, p.2.uri, p.2.org_masteruri, p.2.pid,
      if p.2.loc then "local" else "remote"⟩ : NodeEntry)))).map NodeEntry.nodename
    = m.nodelist.map Prod.fst
  rw [List.map_map]
  rfl

/-- The topic-type keys listed by `listedState` are the topic keys. -/
theorem listed_tt_keys (m : MasterInfo) :
    (m.listedState).topicTypes.map Prod.fst = m.topiclist.map Prod.fst := by
  show (m.topiclist.map (fun p => (p.1, p.2.typ))).map Prod.fst = m.topiclist.map Prod.fst
  rw [List.map_map]
  rfl

/-- The service keys listed by `listedState` are the service keys. -/
theorem listed_services_keys (m : MasterInfo) :
    (m.listedState).services.map Prod.fst = m.servicelist.map Prod.fst := by
  show (m.servicelist.map (fun p => (p.1, p.2.serviceProvider))).map Prod.fst
    = m.servicelist.map Prod.fst
  rw [List.map_map]
  rfl

/-- The service names listed in `serviceProvider` are the service keys. -/
theorem listed_sp_names (m : MasterInfo) :
    (m.listedState).serviceProvider.map SrvEntry.servicename = m.servicelist.map Prod.fst := by
  show (m.servicelist.map (fun p => ((⟨p.1, p.2.uri, p.2.org_masteruri,
      match p.2.typ with | some t => t | none => "",
      if p.2.loc then "local" else "remote"⟩ : SrvEntry)))).map SrvEntry.servicename
    = m.servicelist.map Prod.fst
  rw [List.map_map]
  rfl

/-- Membership in the listed publishers. -/
theorem mem_listed_publishers (m : MasterInfo) (t : String) (ns : List String) :
    (t, ns) ∈ (m.listedState).publishers
      ↔ ∃ ti, (t, ti) ∈ m.topiclist ∧ ti.publisherNodes = ns ∧ ns ≠ [] := by
  show (t, ns) ∈ m.topiclist.filterMap (fun p =>
    if p.2.publisherNodes = [] then none else some (p.1, p.2.publisherNodes)) ↔ _
  rw [List.mem_filterMap]
  constructor
  · rintro ⟨p, hp, hif⟩
    by_cases h : p.2.publisherNodes = []
    · rw [if_pos h] at hif
      exact absurd hif Option.noConfusion
    · rw [if_neg h, Option.some.injEq, Prod.mk.injEq] at hif
      obtain ⟨h1, h2⟩ := hif
      subst h1
      subst h2
      exact ⟨p.2, hp, rfl, h⟩
  · rintro ⟨ti, hti, hns, hne⟩
    refine ⟨(t, ti), hti, ?_⟩
    rw [if_neg (show ¬(t, ti).2.publisherNodes = [] by rw [show (t, ti).2 = ti from rfl, hns]; exact hne)]
    rw [show (t, ti).2 = ti from rfl, hns]

/-- Membership in the listed subscribers. -/
theorem mem_listed_subscribers (m : MasterInfo) (t : String) (ns : List String) :
    (t, ns) ∈ (m.listedState).subscribers
      ↔ ∃ ti, (t, ti) ∈ m.topiclist ∧ ti.subscriberNodes = ns ∧ ns ≠ [] := by
  show (t, ns) ∈ m.topiclist.filterMap (fun p =>
    if p.2.subscriberNodes = [] then none else some (p.1, p.2.subscriberNodes)) ↔ _
  rw [List.mem_filterMap]
  constructor
  · rintro ⟨p, hp, hif⟩
    by_cases h : p.2.subscriberNodes = []
    · rw [if_pos h] at hif
      exact absurd hif Option.noConfusion
    · rw [if_neg h, Option.some.injEq, Prod.mk.injEq] at hif
      obtain ⟨h1, h2⟩ := hif
      subst h1
      subst h2
      exact ⟨p.2, hp, rfl, h⟩
  · rintro ⟨ti, hti, hns, hne⟩
    refine ⟨(t, ti), hti, ?_⟩
    rw [if_neg (show ¬(t, ti).2.subscriberNodes = [] by rw [show (t, ti).2 = ti from rfl, hns]; exact hne)]
    rw [show (t, ti).2 = ti from rfl, hns]

/-- Membership in the listed services. -/
theorem mem_listed_services (m : MasterInfo) (s : String) (ns : List String) :
    (s, ns) ∈ (m.listedState).services
      ↔ ∃ si, (s, si) ∈ m.servicelist ∧ si.serviceProvider = ns := by
  show (s, ns) ∈ m.servicelist.map (fun p => (p.1, p.2.serviceProvider)) ↔ _
  rw [List.mem_map]
  constructor
  · rintro ⟨p, hp, hif⟩
    rw [Prod.mk.injEq] at hif
    obtain ⟨h1, h2⟩ := hif
    subst h1
    subst h2
    exact ⟨p.2, hp, rfl⟩
  · rintro ⟨si, hsi, hns⟩
    refine ⟨(s, si), hsi, ?_⟩
    rw [Prod.mk.injEq]
    exact ⟨rfl, hns⟩

/-- The published topics visible after the first three phases. -/
theorem pubs_stage3_node (now : ℚ) (l : ListedState) (k : String) (hk : k ≠ "")
    (t : String) :
    t ∈ (((stage3 now l).getNode k).getD (NodeInfo.mk0 k l.masteruri)).publishedTopics
      ↔ t ∈ mentionsOf k l.publishers := by
  rw [getNode_stage3 now l k hk]
  by_cases h : mentionsOf k l.publishers = [] ∧ mentionsOf k l.subscribers = []
      ∧ mentionsOf k l.services = []
  · rw [if_pos h]
    show t ∈ (NodeInfo.mk0 k l.masteruri).publishedTopics ↔ _
    rw [h.1]
    show t ∈ ([] : List String) ↔ t ∈ ([] : List String)
    exact Iff.rfl
  · rw [if_neg h]
    show t ∈ (buildNode k l.masteruri l).publishedTopics ↔ _
    exact pubs_buildNode k l.masteruri l t

/-- The subscribed topics visible after the first three phases. -/
theorem subs_stage3_node (now : ℚ) (l : ListedState) (k : String) (hk : k ≠ "")
    (t : String) :
    t ∈ (((stage3 now l).getNode k).getD (NodeInfo.mk0 k l.masteruri)).subscribedTopics
      ↔ t ∈ mentionsOf k l.subscribers := by
  rw [getNode_stage3 now l k hk]
  by_cases h : mentionsOf k l.publishers = [] ∧ mentionsOf k l.subscribers = []
      ∧ mentionsOf k l.services = []
  · rw [if_pos h]
    show t ∈ (NodeInfo.mk0 k l.masteruri).subscribedTopics ↔ _
    rw [h.2.1]
    show t ∈ ([] : List String) ↔ t ∈ ([] : List String)
    exact Iff.rfl
  · rw [if_neg h]
    show t ∈ (buildNode k l.masteruri l).subscribedTopics ↔ _
    exact subs_buildNode k l.masteruri l t

/-- The provided services visible after the first three phases. -/
theorem srvs_stage3_node (now : ℚ) (l : ListedState) (k : String) (hk : k ≠ "")
    (s : String) :
    s ∈ (((stage3 now l).getNode k).getD (NodeInfo.mk0 k l.masteruri)).services
      ↔ s ∈ mentionsOf k l.services := by
  rw [getNode_stage3 now l k hk]
  by_cases h : mentionsOf k l.publishers = [] ∧ mentionsOf k l.subscribers = []
      ∧ mentionsOf k l.services = []
  · rw [if_pos h]
    show s ∈ (NodeInfo.mk0 k l.masteruri).services ↔ _
    rw [h.2.2]
    show s ∈ ([] : List String) ↔ s ∈ ([] : List String)
    exact Iff.rfl
  · rw [if_neg h]
    show s ∈ (buildNode k l.masteruri l).services ↔ _
    exact srvs_buildNode k l.masteruri l s

/-- A node lookup in the reconstruction of a listed state, at a node
present in the original. -/
theorem getNode_fromListT_of_mem (now : ℚ) (m : MasterInfo)
    (hnd : (m.nodelist.map Prod.fst).Nodup) (k : String) (v : NodeInfo)
    (hv : alookup m.nodelist k = some v) (hk : k ≠ "") :
    (fromListT now (m.listedState)).getNode k
      = some (updEntry
          (((stage3 now (m.listedState)).getNode k).getD (NodeInfo.mk0 k m.masteruri))
          ⟨k, v.uri, v.org_masteruri, v.pid, if v.loc then "local" else "remote"⟩) := by
  rw [getNode_fromListT now (m.listedState) k hk]
  have hfil : (m.listedState).nodes.filter (fun e => e.nodename = k)
      = [⟨k, v.uri, v.org_masteruri, v.pid, if v.loc then "local" else "remote"⟩] := by
    show (m.nodelist.map (fun p => ((⟨p.1, p.2.uri, p.2.org_masteruri, p.2.pid,
        if p.2.loc then "local" else "remote"⟩ : NodeEntry)))).filter
      (fun e => e.nodename = k) = _
    rw [filter_map_fst (fun p => ((⟨p.1, p.2.uri, p.2.org_masteruri, p.2.pid,
        if p.2.loc then "local" else "remote"⟩ : NodeEntry)))
      NodeEntry.nodename (fun p => rfl) m.nodelist k v hnd hv]
  rw [hfil]
  rfl

/-- A service lookup in the reconstruction of a listed state, at a service
present in the original. -/
theorem getService_fromListT_of_mem (now : ℚ) (m : MasterInfo)
    (hnd : (m.servicelist.map Prod.fst).Nodup) (k : String) (v : ServiceInfo)
    (hv : alookup m.servicelist k = some v) (hk : k ≠ "") :
    (fromListT now (m.listedState)).getService k
      = some (updSrvEntry
          (((stage5 now (m.listedState)).getService k).getD (ServiceInfo.mk0 k m.masteruri))
          ⟨k, v.uri, v.org_masteruri, match v.typ with | some t => t | none => "",
            if v.loc then "local" else "remote"⟩) := by
  rw [getService_fromListT now (m.listedState) k hk]
  have hfil : (m.listedState).serviceProvider.filter (fun e => e.servicename = k)
      = [⟨k, v.uri, v.org_masteruri, match v.typ with | some t => t | none => "",
          if v.loc then "local" else "remote"⟩] := by
    show (m.servicelist.map (fun p => ((⟨p.1, p.2.uri, p.2.org_masteruri,
        match p.2.typ with | some t => t | none => "",
        if p.2.loc then "local" else "remote"⟩ : SrvEntry)))).filter
      (fun e => e.servicename = k) = _
    rw [filter_map_fst (fun p => ((⟨p.1, p.2.uri, p.2.org_masteruri,
        match p.2.typ with | some t => t | none => "",
        if p.2.loc then "local" else "remote"⟩ : SrvEntry)))
      SrvEntry.servicename (fun p => rfl) m.servicelist k v hnd hv]
  rw [hfil]
  rfl

/-- Transport of a mapped value along matching keys and pointwise-agreeing
lookups. -/
theorem mem_map_snd_of {α β : Type} (l1 l2 : List (String × α)) (f : α → β)
    (h1 : (l1.map Prod.fst).Nodup) (h2 : (l2.map Prod.fst).Nodup)
    (hkeys : ∀ k, k ∈ l1.map Prod.fst → k ∈ l2.map Prod.fst)
    (hval : ∀ k v1 v2, alookup l1 k = some v1 → alookup l2 k = some v2 → f v1 = f v2)
    (x : β) (hx : x ∈ l1.map (fun p => f p.2)) : x ∈ l2.map (fun p => f p.2) := by
  rw [List.mem_map] at hx
  obtain ⟨p, hp, hfx⟩ := hx
  have hl1 : alookup l1 p.1 = some p.2 := (mem_iff_alookup l1 p.1 p.2 h1).mp (by exact hp)
  have hk2 : p.1 ∈ l2.map Prod.fst := hkeys p.1 (List.mem_map_of_mem Prod.fst hp)
  rw [mem_keys_iff_isSome] at hk2
  obtain ⟨v2, hv2⟩ := Option.isSome_iff_exists.mp hk2
  have hfv : f p.2 = f v2 := hval p.1 p.2 v2 hl1 hv2
  rw [List.mem_map]
  refine ⟨(p.1, v2), (mem_iff_alookup l2 p.1 v2 h2).mpr hv2, ?_⟩
  show f v2 = x
  rw [← hfv]
  exact hfx

/-- Set equality of mapped values along matching keys and
pointwise-agreeing lookups. -/
theorem sameSet_map_snd {α β : Type} [DecidableEq β] (l1 l2 : List (String × α)) (f : α → β)
    (h1 : (l1.map Prod.fst).Nodup) (h2 : (l2.map Prod.fst).Nodup)
    (hkeys : ∀ k, k ∈ l1.map Prod.fst ↔ k ∈ l2.map Prod.fst)
    (hval : ∀ k v1 v2, alookup l1 k = some v1 → alookup l2 k = some v2 → f v1 = f v2) :
    sameSet (l1.map (fun p => f p.2)) (l2.map (fun p => f p.2)) = true := by
  rw [sameSet_true_iff]
  intro x
  constructor
  · exact mem_map_snd_of l1 l2 f h1 h2 (fun k hk => (hkeys k).mp hk) hval x
  · exact mem_map_snd_of l2 l1 f h2 h1 (fun k hk => (hkeys k).mpr hk)
      (fun k v2 v1 ha hb => (hval k v1 v2 hb ha).symm) x

/-- Published topics of a reconstructed node, in terms of the original
topic dictionary. -/
theorem mem_pubs_reconstructed (now : ℚ) (m : MasterInfo) (k : String) (hk : k ≠ "")
    (t : String) :
    t ∈ (((stage3 now (m.listedState)).getNode k).getD
        (NodeInfo.mk0 k (m.listedState).masteruri)).publishedTopics
      ↔ ∃ ti, (t, ti) ∈ m.topiclist ∧ k ∈ ti.publisherNodes := by
  rw [pubs_stage3_node now (m.listedState) k hk t, mem_mentionsOf]
  constructor
  · rintro ⟨ns, hns, hkns⟩
    rcases (mem_listed_publishers m t ns).mp hns with ⟨ti, hti, hee, _⟩
    exact ⟨ti, hti, by rw [hee]; exact hkns⟩
  · rintro ⟨ti, hti, hkti⟩
    exact ⟨ti.publisherNodes, (mem_listed_publishers m t ti.publisherNodes).mpr
      ⟨ti, hti, rfl, List.ne_nil_of_mem hkti⟩, hkti⟩

/-- Subscribed topics of a reconstructed node, in terms of the original
topic dictionary. -/
theorem mem_subs_reconstructed (now : ℚ) (m : MasterInfo) (k : String) (hk : k ≠ "")
    (t : String) :
    t ∈ (((stage3 now (m.listedState)).getNode k).getD
        (NodeInfo.mk0 k (m.listedState).masteruri)).subscribedTopics
      ↔ ∃ ti, (t, ti) ∈ m.topiclist ∧ k ∈ ti.subscriberNodes := by
  rw [subs_stage3_node now (m.listedState) k hk t, mem_mentionsOf]
  constructor
  · rintro ⟨ns, hns, hkns⟩
    rcases (mem_listed_subscribers m t ns).mp hns with ⟨ti, hti, hee, _⟩
    exact ⟨ti, hti, by rw [hee]; exact hkns⟩
  · rintro ⟨ti, hti, hkti⟩
    exact ⟨ti.subscriberNodes, (mem_listed_subscribers m t ti.subscriberNodes).mpr
      ⟨ti, hti, rfl, List.ne_nil_of_mem hkti⟩, hkti⟩

/-- Provided services of a reconstructed node, in terms of the original
service dictionary. -/
theorem mem_srvs_reconstructed (now : ℚ) (m : MasterInfo) (k : String) (hk : k ≠ "")
    (s : String) :
    s ∈ (((stage3 now (m.listedState)).getNode k).getD
        (NodeInfo.mk0 k (m.listedState).masteruri)).services
      ↔ ∃ si, (s, si) ∈ m.servicelist ∧ k ∈ si.serviceProvider := by
  rw [srvs_stage3_node now (m.listedState) k hk s, mem_mentionsOf]
  constructor
  · rintro ⟨ns, hns, hkns⟩
    rcases (mem_listed_services m s ns).mp hns with ⟨si, hsi, hee⟩
    exact ⟨si, hsi, by rw [hee]; exact hkns⟩
  · rintro ⟨si, hsi, hksi⟩
    exact ⟨si.serviceProvider, (mem_listed_services m s si.serviceProvider).mpr
      ⟨si, hsi, rfl⟩, hksi⟩

/-- Published topics of an original node, in terms of the topic
dictionary, under the cross-reference agreement. -/
theorem node_pubs_iff (m : MasterInfo) (k : String) (v1 : NodeInfo)
    (hmem : (k, v1) ∈ m.nodelist)
    (hc4 : ∀ p ∈ m.nodelist, ∀ t ∈ p.2.publishedTopics,
      ∃ q ∈ m.topiclist, q.1 = t ∧ p.1 ∈ q.2.publisherNodes)
    (hc5 : ∀ p ∈ m.nodelist, ∀ q ∈ m.topiclist,
      p.1 ∈ q.2.publisherNodes → q.1 ∈ p.2.publishedTopics)
    (t : String) :
    t ∈ v1.publishedTopics ↔ ∃ ti, (t, ti) ∈ m.topiclist ∧ k ∈ ti.publisherNodes := by
  constructor
  · intro ht
    rcases hc4 (k, v1) hmem t ht with ⟨q, hq, hq1, hkq⟩
    refine ⟨q.2, ?_, hkq⟩
    rw [← hq1]
    exact hq
  · rintro ⟨ti, hti, hkti⟩
    exact hc5 (k, v1) hmem (t, ti) hti hkti

/-- Subscribed topics of an original node, in terms of the topic
dictionary, under the cross-reference agreement. -/
theorem node_subs_iff (m : MasterInfo) (k : String) (v1 : NodeInfo)
    (hmem : (k, v1) ∈ m.nodelist)
    (hc6 : ∀ p ∈ m.nodelist, ∀ t ∈ p.2.subscribedTopics,
      ∃ q ∈ m.topiclist, q.1 = t ∧ p.1 ∈ q.2.subscriberNodes)
    (hc7 : ∀ p ∈ m.nodelist, ∀ q ∈ m.topiclist,
      p.1 ∈ q.2.subscriberNodes → q.1 ∈ p.2.subscribedTopics)
    (t : String) :
    t ∈ v1.subscribedTopics ↔ ∃ ti, (t, ti) ∈ m.topiclist ∧ k ∈ ti.subscriberNodes := by
  constructor
  · intro ht
    rcases hc6 (k, v1) hmem t ht with ⟨q, hq, hq1, hkq⟩
    refine ⟨q.2, ?_, hkq⟩
    rw [← hq1]
    exact hq
  · rintro ⟨ti, hti, hkti⟩
    exact hc7 (k, v1) hmem (t, ti) hti hkti

/-- Provided services of an original node, in terms of the service
dictionary, under the cross-reference agreement. -/
theorem node_srvs_iff (m : MasterInfo) (k : String) (v1 : NodeInfo)
    (hmem : (k, v1) ∈ m.nodelist)
    (hc8 : ∀ p ∈ m.nodelist, ∀ s ∈ p.2.services,
      ∃ q ∈ m.servicelist, q.1 = s ∧ p.1 ∈ q.2.serviceProvider)
    (hc9 : ∀ p ∈ m.nodelist, ∀ q ∈ m.servicelist,
      p.1 ∈ q.2.serviceProvider → q.1 ∈ p.2.services)
    (s : String) :
    s ∈ v1.services ↔ ∃ si, (s, si) ∈ m.servicelist ∧ k ∈ si.serviceProvider := by
  constructor
  · intro hs
    rcases hc8 (k, v1) hmem s hs with ⟨q, hq, hq1, hkq⟩
    refine ⟨q.2, ?_, hkq⟩
    rw [← hq1]
    exact hq
  · rintro ⟨si, hsi, hksi⟩
    exact hc9 (k, v1) hmem (s, si) hsi hksi

/-- The per-node comparison of `__eq__` succeeds for nodes agreeing in
pid, uri and topic and service sets. -/
theorem beq_node_cmp (v1 n2 : NodeInfo) (hpid : n2.pid = v1.pid) (huri : n2.uri = v1.uri)
    (hp : ∀ t, t ∈ v1.publishedTopics ↔ t ∈ n2.publishedTopics)
    (hs : ∀ t, t ∈ v1.subscribedTopics ↔ t ∈ n2.subscribedTopics)
    (hv : ∀ t, t ∈ v1.services ↔ t ∈ n2.services) :
    (v1.pid == n2.pid && v1.uri == n2.uri && sameSet v1.publishedTopics n2.publishedTopics
      && sameSet v1.subscribedTopics n2.subscribedTopics
      && sameSet v1.services n2.services) = true := by
  rw [hpid, huri, (sameSet_true_iff v1.publishedTopics n2.publishedTopics).mpr hp,
    (sameSet_true_iff v1.subscribedTopics n2.subscribedTopics).mpr hs,
    (sameSet_true_iff v1.services n2.services).mpr hv]
  simp

/-- C10: for every well-formed `MasterInfo` whose cross-references are
consistent, `from_list` applied to `listedState()` succeeds and the
reconstruction equals the original under `__eq__`, which ignores the
timestamp fields, topic contents and service types. -/
theorem from_list_listedState_roundtrip (now : ℚ) (m : MasterInfo)
    (hwf : WF m) (hc : Consistent m) :
    ∃ m2, MasterInfo.from_list now (m.listedState) = some m2 ∧ m.beq m2 = true := by
  obtain ⟨hneN, hneT, hneS, hndN, hndT, hndS⟩ := hwf
  obtain ⟨hc1, hc2, hc3, hc4, hc5, hc6, hc7, hc8, hc9⟩ := hc
  have hkeyN : ∀ n, n ∈ m.nodelist.map Prod.fst → n ≠ "" := by
    intro n hn
    rw [List.mem_map] at hn
    obtain ⟨q, hq, hq1⟩ := hn
    rw [← hq1]
    exact hneN q hq
  have hkeyT : ∀ t, t ∈ m.topiclist.map Prod.fst → t ≠ "" := by
    intro t ht
    rw [List.mem_map] at ht
    obtain ⟨q, hq, hq1⟩ := ht
    rw [← hq1]
    exact hneT q hq
  have hkeyS : ∀ s, s ∈ m.servicelist.map Prod.fst → s ≠ "" := by
    intro s hs
    rw [List.mem_map] at hs
    obtain ⟨q, hq, hq1⟩ := hs
    rw [← hq1]
    exact hneS q hq
  have hpub : ∀ p ∈ (m.listedState).publishers, p.1 ≠ "" ∧ ∀ n ∈ p.2, n ≠ "" := by
    intro p hp
    rcases (mem_listed_publishers m p.1 p.2).mp (by exact hp) with ⟨ti, hti, hee, _⟩
    refine ⟨hneT (p.1, ti) hti, ?_⟩
    intro n hn
    rw [← hee] at hn
    exact hkeyN n (hc1 (p.1, ti) hti n hn)
  have hsub : ∀ p ∈ (m.listedState).subscribers, p.1 ≠ "" ∧ ∀ n ∈ p.2, n ≠ "" := by
    intro p hp
    rcases (mem_listed_subscribers m p.1 p.2).mp (by exact hp) with ⟨ti, hti, hee, _⟩
    refine ⟨hneT (p.1, ti) hti, ?_⟩
    intro n hn
    rw [← hee] at hn
    exact hkeyN n (hc2 (p.1, ti) hti n hn)
  have hsrv : ∀ p ∈ (m.listedState).services, p.1 ≠ "" ∧ ∀ n ∈ p.2, n ≠ "" := by
    intro p hp
    rcases (mem_listed_services m p.1 p.2).mp (by exact hp) with ⟨si, hsi, hee⟩
    refine ⟨hneS (p.1, si) hsi, ?_⟩
    intro n hn
    rw [← hee] at hn
    exact hkeyN n (hc3 (p.1, si) hsi n hn)
  have htt : ∀ p ∈ (m.listedState).topicTypes, p.1 ≠ "" := by
    intro p hp
    have hp2 : p ∈ m.topiclist.map (fun q => (q.1, q.2.typ)) := hp
    rw [List.mem_map] at hp2
    obtain ⟨q, hq, hpq⟩ := hp2
    rw [← hpq]
    exact hneT q hq
  have hnn : ∀ e ∈ (m.listedState).nodes, e.nodename ≠ "" := by
    intro e he
    have he2 : e ∈ m.nodelist.map (fun p => ((⟨p.1, p.2.uri, p.2.org_masteruri, p.2.pid,
        if p.2.loc then "local" else "remote"⟩ : NodeEntry))) := he
    rw [List.mem_map] at he2
    obtain ⟨q, hq, hpq⟩ := he2
    rw [← hpq]
    exact hneN q hq
  have hsp : ∀ e ∈ (m.listedState).serviceProvider, e.servicename ≠ "" := by
    intro e he
    have he2 : e ∈ m.servicelist.map (fun p => ((⟨p.1, p.2.uri, p.2.org_masteruri,
        match p.2.typ with | some t => t | none => "",
        if p.2.loc then "local" else "remote"⟩ : SrvEntry))) := he
    rw [List.mem_map] at he2
    obtain ⟨q, hq, hpq⟩ := he2
    rw [← hpq]
    exact hneS q hq
  have hsome := from_list_eq_total now (m.listedState) hpub hsub hsrv htt hnn hsp
  refine ⟨fromListT now (m.listedState), hsome, ?_⟩
  have hNkeys : ∀ k, k ∈ m.nodelist.map Prod.fst
      ↔ k ∈ (fromListT now (m.listedState)).nodelist.map Prod.fst := by
    intro k
    constructor
    · intro hk
      refine (mem_node_names_fromListT now (m.listedState) k).mpr
        ⟨Or.inr (Or.inr (Or.inr ?_)), hkeyN k hk⟩
      rw [listed_nodes_map]
      exact hk
    · intro hk
      rcases (mem_node_names_fromListT now (m.listedState) k).mp hk with ⟨hcase, _⟩
      rcases hcase with ⟨p, hp, hkp⟩ | ⟨p, hp, hkp⟩ | ⟨p, hp, hkp⟩ | hn
      · rcases (mem_listed_publishers m p.1 p.2).mp (by exact hp) with ⟨ti, hti, hee, _⟩
        rw [← hee] at hkp
        exact hc1 (p.1, ti) hti k hkp
      · rcases (mem_listed_subscribers m p.1 p.2).mp (by exact hp) with ⟨ti, hti, hee, _⟩
        rw [← hee] at hkp
        exact hc2 (p.1, ti) hti k hkp
      · rcases (mem_listed_services m p.1 p.2).mp (by exact hp) with ⟨si, hsi, hee⟩
        rw [← hee] at hkp
        exact hc3 (p.1, si) hsi k hkp
      · rw [listed_nodes_map] at hn
        exact hn
  have hTkeys : ∀ k, k ∈ m.topiclist.map Prod.fst
      ↔ k ∈ (fromListT now (m.listedState)).topiclist.map Prod.fst := by
    intro k
    constructor
    · intro hk
      refine (mem_topic_names_fromListT now (m.listedState) k).mpr
        ⟨Or.inr (Or.inr ?_), hkeyT k hk⟩
      rw [listed_tt_keys]
      exact hk
    · intro hk
      rcases (mem_topic_names_fromListT now (m.listedState) k).mp hk with ⟨hcase, _⟩
      rcases hcase with hp | hp | hp
      · rw [List.mem_map] at hp
        obtain ⟨p, hp, hp1⟩ := hp
        rcases (mem_listed_publishers m p.1 p.2).mp (by exact hp) with ⟨ti, hti, _, _⟩
        rw [← hp1]
        have hmem2 := List.mem_map_of_mem Prod.fst hti
        exact hmem2
      · rw [List.mem_map] at hp
        obtain ⟨p, hp, hp1⟩ := hp
        rcases (mem_listed_subscribers m p.1 p.2).mp (by exact hp) with ⟨ti, hti, _, _⟩
        rw [← hp1]
        have hmem2 := List.mem_map_of_mem Prod.fst hti
        exact hmem2
      · rw [listed_tt_keys] at hp
        exact hp
  have hSkeys : ∀ k, k ∈ m.servicelist.map Prod.fst
      ↔ k ∈ (fromListT now (m.listedState)).servicelist.map Prod.fst := by
    intro k
    constructor
    · intro hk
      refine (mem_service_names_fromListT now (m.listedState) k).mpr
        ⟨Or.inl ?_, hkeyS k hk⟩
      rw [listed_services_keys]
      exact hk
    · intro hk
      rcases (mem_service_names_fromListT now (m.listedState) k).mp hk with ⟨hcase, _⟩
      rcases hcase with hp | hp
      · rw [listed_services_keys] at hp
        exact hp
      · rw [listed_sp_names] at hp
        exact hp
  have hvalN : ∀ k v1 v2, alookup m.nodelist k = some v1 →
      alookup (fromListT now (m.listedState)).nodelist k = some v2 → v1.uri = v2.uri := by
    intro k v1 v2 hv1 hv2
    have hk : k ≠ "" := hkeyN k (by rw [mem_keys_iff_isSome, hv1]; rfl)
    have hg2 : (fromListT now (m.listedState)).getNode k = some v2 := by
      unfold MasterInfo.getNode
      rw [if_neg hk]
      exact hv2
    rw [getNode_fromListT_of_mem now m hndN k v1 hv1 hk, Option.some.injEq] at hg2
    rw [← hg2]
    rfl
  have hvalS : ∀ k v1 v2, alookup m.servicelist k = some v1 →
      alookup (fromListT now (m.listedState)).servicelist k = some v2 → v1.uri = v2.uri := by
    intro k v1 v2 hv1 hv2
    have hk : k ≠ "" := hkeyS k (by rw [mem_keys_iff_isSome, hv1]; rfl)
    have hg2 : (fromListT now (m.listedState)).getService k = some v2 := by
      unfold MasterInfo.getService
      rw [if_neg hk]
      exact hv2
    rw [getService_fromListT_of_mem now m hndS k v1 hv1 hk, Option.some.injEq] at hg2
    rw [← hg2]
    rfl
  have c1 : (m.masteruri == (fromListT now (m.listedState)).masteruri) = true := by
    rw [masteruri_fromListT]
    exact beq_self_eq_true m.masteruri
  have c2 : sameSet m.node_uris (fromListT now (m.listedState)).node_uris = true :=
    sameSet_map_snd m.nodelist (fromListT now (m.listedState)).nodelist NodeInfo.uri
      hndN (nodup_nodeKeys_fromListT now (m.listedState)) hNkeys hvalN
  have c3 : sameSet m.node_names (fromListT now (m.listedState)).node_names = true :=
    (sameSet_true_iff m.node_names (fromListT now (m.listedState)).node_names).mpr hNkeys
  have c4 : sameSet m.topic_names (fromListT now (m.listedState)).topic_names = true :=
    (sameSet_true_iff m.topic_names (fromListT now (m.listedState)).topic_names).mpr hTkeys
  have c5 : sameSet m.service_names (fromListT now (m.listedState)).service_names = true :=
    (sameSet_true_iff m.service_names
      (fromListT now (m.listedState)).service_names).mpr hSkeys
  have c6 : sameSet m.service_uris (fromListT now (m.listedState)).service_uris = true :=
    sameSet_map_snd m.servicelist (fromListT now (m.listedState)).servicelist ServiceInfo.uri
      hndS (nodup_serviceKeys_fromListT now (m.listedState)) hSkeys hvalS
  unfold MasterInfo.beq
  rw [c1, c2, c3, c4, c5, c6]
  simp only [Bool.true_and]
  rw [List.all_eq_true]
  intro name hname
  have hkne : name ≠ "" := hkeyN name hname
  have hsome1 : (alookup m.nodelist name).isSome := (mem_keys_iff_isSome _ _).mp hname
  obtain ⟨v1, hv1⟩ := Option.isSome_iff_exists.mp hsome1
  have hg1 : m.getNode name = some v1 := by
    unfold MasterInfo.getNode
    rw [if_neg hkne]
    exact hv1
  have hg2 := getNode_fromListT_of_mem now m hndN name v1 hv1 hkne
  rw [hg1, hg2]
  have hmem : (name, v1) ∈ m.nodelist := (mem_iff_alookup m.nodelist name v1 hndN).mpr hv1
  exact beq_node_cmp v1
    (updEntry (((stage3 now (m.listedState)).getNode name).getD
        (NodeInfo.mk0 name m.masteruri))
      ⟨name, v1.uri, v1.org_masteruri, v1.pid, if v1.loc then "local" else "remote"⟩)
    rfl rfl
    (fun t => Iff.trans (node_pubs_iff m name v1 hmem hc4 hc5 t)
      (mem_pubs_reconstructed now m name hkne t).symm)
    (fun t => Iff.trans (node_subs_iff m name v1 hmem hc6 hc7 t)
      (mem_subs_reconstructed now m name hkne t).symm)
    (fun s => Iff.trans (node_srvs_iff m name v1 hmem hc8 hc9 s)
      (mem_srvs_reconstructed now m name hkne s).symm)

end Disc

/-- Witness for C10: the concrete state is well formed and consistent, and
its round trip through `listedState` and `from_list` succeeds and is equal
under `__eq__`. -/
theorem from_list_listedState_roundtrip_witness :
    Disc.WF mC10 ∧ Disc.Consistent mC10 ∧
      ∃ m2, Disc.MasterInfo.from_list 3 (mC10.listedState) = some m2
        ∧ mC10.beq m2 = true :=
  ⟨by unfold Disc.WF; decide, by unfold Disc.Consistent; decide,
    Disc.from_list_listedState_roundtrip 3 mC10 (by unfold Disc.WF; decide)
      (by unfold Disc.Consistent; decide)⟩
